import Mathlib

/-! # Mainflux: device identification, listing, authorization and status of
things, the clients repository, CoAP metrics decorator, MQTT proxy tasks,
Modbus binding and write values, roles, the groups repository test double

A shallow embedding of the parts of the repository that the specification
talks about.  Go interfaces become records of functions over an explicit
world state `W`; a Go result `(T, error)` becomes a pair `T × Option Error`
whose second component is `none` for a nil error.
-/

set_option autoImplicit false

namespace Mainflux

/-! ## pkg/errors -/

/-- Modelled from the spec: package `pkg/errors` (the `Error` type, `Wrap`,
`Contains` and the sentinel errors) is not among the source files.  An error
is a message, optionally layered over the error it wraps; a plain Go error
(`errors.New`, `sql.ErrNoRows`, a driver error) is a single message. -/
inductive Error where
  | plain (msg : String)
  | wrapped (msg : String) (err : Error)
deriving DecidableEq, Repr

namespace Error

/-- Modelled from the spec: `Msg()` of the missing package `pkg/errors`, the
message of the outermost layer. -/
def Msg : Error → String
  | plain m => m
  | wrapped m _ => m

end Error

namespace errors

/-- Modelled from the spec: `errors.ErrNotFound`, the "not found" condition. -/
def ErrNotFound : Error := Error.plain "entity not found"

/-- Modelled from the spec: `errors.ErrViewEntity`, declared outside the sources. -/
def ErrViewEntity : Error := Error.plain "view entity failed"

/-- Modelled from the spec: `errors.ErrMalformedEntity`, declared outside the sources. -/
def ErrMalformedEntity : Error := Error.plain "malformed entity specification"

/-- Modelled from the spec: `errors.Wrap(wrapper, err)` is missing from the
sources; it returns the wrapper alone when either side is nil and otherwise a
new error carrying the wrapper's message on top of `err`. -/
def Wrap (wrapper : Option Error) (err : Option Error) : Option Error :=
  match wrapper, err with
  | none, _ => none
  | some w, none => some w
  | some w, some e => some (Error.wrapped w.Msg e)

/-- Modelled from the spec: the search that `errors.Contains`, missing from
the sources, makes through the layers of a non-nil error for a message. -/
def containsMsg : Error → String → Bool
  | Error.plain m, msg => m == msg
  | Error.wrapped m e, msg => m == msg || containsMsg e msg

/-- Modelled from the spec: `errors.Contains(e1, e2)` is missing from the
sources (the tests compare errors with it); it tells whether some layer of
`e1` carries the message of `e2`, and two nil errors contain each other. -/
def Contains (e1 e2 : Option Error) : Bool :=
  match e1, e2 with
  | none, none => true
  | none, some _ => false
  | some _, none => false
  | some a, some b => containsMsg a b.Msg

end errors

/-! ## things/clients: the service -/

namespace clients

/-- `Credentials` of a client. -/
structure Credentials where
  Identity : String
  Secret : String
deriving DecidableEq, Repr

/-- `Client`; metadata is kept as its decoded JSON text, times are instants. -/
structure Client where
  ID : String
  Name : String
  Tags : List String
  Owner : String
  Credentials : Credentials
  Metadata : Option String
  CreatedAt : Nat
  UpdatedAt : Nat
  UpdatedBy : String
  Status : Nat
deriving DecidableEq, Repr

/-- The zero value `Client{}`. -/
def Client.zero : Client :=
  ⟨"", "", [], "", ⟨"", ""⟩, none, 0, 0, "", 0⟩

/-- The part of the `Repository` interface that `Identify` uses. -/
structure Repository (W : Type) where
  RetrieveBySecret : String → W → (Client × Option Error) × W

/-- The `ClientCache` interface: `Save(ctx, key, id) error` and
`ID(ctx, key) (string, error)`. -/
structure ClientCache (W : Type) where
  Save : String → String → W → Option Error × W
  ID : String → W → (String × Option Error) × W

/-- The fields of `service` that `Identify` reads. -/
structure service (W : Type) where
  clients : Repository W
  clientCache : ClientCache W

/-- `func (svc service) Identify(ctx, key) (string, error)`. -/
def service.Identify {W : Type} (svc : service W) (key : String) (w : W) :
    (String × Option Error) × W :=
  match svc.clientCache.ID key w with
  | ((id, none), w1) => ((id, none), w1)
  | ((_, some _), w1) =>
    match svc.clients.RetrieveBySecret key w1 with
    | ((_, some err), w2) => (("", some err), w2)
    | ((client, none), w2) =>
      match svc.clientCache.Save key client.ID w2 with
      | (some err, w3) => (("", some err), w3)
      | (none, w3) => ((client.ID, none), w3)

/-! ### Call recording

A test double around the two collaborators: every call is appended, with its
arguments, to a log carried next to the world state. -/

/-- One call made by the service to a collaborator. -/
inductive Call where
  | cacheID (key : String)
  | retrieveBySecret (key : String)
  | cacheSave (key : String) (id : String)
deriving DecidableEq, Repr

/-- A cache that records its calls and otherwise behaves as `c`. -/
def ClientCache.recording {W : Type} (c : ClientCache W) : ClientCache (W × List Call) where
  Save := fun key id s => ((c.Save key id s.1).1, ((c.Save key id s.1).2, s.2 ++ [Call.cacheSave key id]))
  ID := fun key s => ((c.ID key s.1).1, ((c.ID key s.1).2, s.2 ++ [Call.cacheID key]))

/-- A repository that records its calls and otherwise behaves as `r`. -/
def Repository.recording {W : Type} (r : Repository W) : Repository (W × List Call) where
  RetrieveBySecret := fun key s =>
    ((r.RetrieveBySecret key s.1).1, ((r.RetrieveBySecret key s.1).2, s.2 ++ [Call.retrieveBySecret key]))

/-- The service over recording collaborators. -/
def service.recording {W : Type} (svc : service W) : service (W × List Call) where
  clients := svc.clients.recording
  clientCache := svc.clientCache.recording

/-- The calls made by one run of `Identify` from world `w`, in order. -/
def service.identifyCalls {W : Type} (svc : service W) (key : String) (w : W) : List Call :=
  (svc.recording.Identify key (w, [])).2.2

/-- Whether a recorded call is a cache write. -/
def Call.isSave : Call → Bool
  | Call.cacheSave _ _ => true
  | _ => false

/-! ### An in-memory cache and store, for concrete runs -/

/-- World of the concrete runs: the cache entries, and whether the cache
backend accepts writes. -/
structure MemWorld where
  entries : List (String × String)
  writable : Bool
deriving DecidableEq, Repr

/-- An in-memory cache: a lookup fails when no entry has the key; a write
fails when the backend is not writable. -/
def memCache : ClientCache MemWorld where
  Save := fun key id w =>
    if w.writable then (none, { w with entries := (key, id) :: w.entries })
    else (some (Error.plain "cache unavailable"), w)
  ID := fun key w =>
    match w.entries.lookup key with
    | some id => ((id, none), w)
    | none => (("", some errors.ErrNotFound), w)

/-- A store holding the given clients, found by secret. -/
def memRepo (cs : List Client) : Repository MemWorld where
  RetrieveBySecret := fun key w =>
    match cs.find? (fun c => c.Credentials.Secret == key) with
    | some c => ((c, none), w)
    | none => ((Client.zero, errors.Wrap (some errors.ErrNotFound) (some (Error.plain "sql: no rows in result set"))), w)

/-- The client of scenario 1: secret "abc123", identity "thing-1". -/
def thing1 : Client :=
  { Client.zero with ID := "thing-1", Credentials := ⟨"", "abc123"⟩ }

/-- The service over the in-memory cache and a store holding `thing1`. -/
def memService : service MemWorld := ⟨memRepo [thing1], memCache⟩

end clients

/-! ## things/clients/postgres: the repository -/

namespace postgres

open clients

/-- `dbClient`, the row that a query scans into: `Metadata` is the raw JSON
(`none` for nil), `UpdatedAt` a `sql.NullTime`, `UpdatedBy` a `*string`. -/
structure dbClient where
  ID : String
  Name : String
  Tags : List String
  Owner : String
  Identity : String
  Secret : String
  Metadata : Option String
  CreatedAt : Nat
  UpdatedAt : Option Nat
  UpdatedBy : Option String
  Status : Nat
deriving DecidableEq, Repr

/-- The zero value `dbClient{}`. -/
def dbClient.zero : dbClient :=
  ⟨"", "", [], "", "", "", none, 0, none, none, 0⟩

/-- `sql.ErrNoRows` of the standard library. -/
def sqlErrNoRows : Error := Error.plain "sql: no rows in result set"

/-- What the repository needs from outside the sources: the constant
`mfclients.EnabledStatus` and the decoder `json.Unmarshal` for metadata. -/
structure Externals where
  EnabledStatus : Nat
  jsonUnmarshal : String → Option String × Option Error

/-- The `postgres.Database` interface, as far as `RetrieveBySecret` uses it:
`QueryRowxContext(ctx, q, arg).StructScan(&dbc)`, given the query text, its
argument and the row to fill, yields the filled row and the scan error. -/
structure Database (W : Type) where
  QueryRowxContext : String → String → dbClient → W → (dbClient × Option Error) × W

/-- `clientRepo`. -/
structure clientRepo (W : Type) where
  db : Database W

/-- `func toClient(c dbClient) (clients.Client, error)`. -/
def toClient (x : Externals) (c : dbClient) : Client × Option Error :=
  let build : Option String → Client := fun metadata =>
    { ID := c.ID
      Name := c.Name
      Tags := c.Tags
      Owner := c.Owner
      Credentials := ⟨c.Identity, c.Secret⟩
      Metadata := metadata
      CreatedAt := c.CreatedAt
      UpdatedAt := c.UpdatedAt.getD 0
      UpdatedBy := c.UpdatedBy.getD ""
      Status := c.Status }
  match c.Metadata with
  | some raw =>
    match x.jsonUnmarshal raw with
    | (_, some err) => (Client.zero, errors.Wrap (some errors.ErrMalformedEntity) (some err))
    | (metadata, none) => (build metadata, none)
  | none => (build none, none)

/-- The query text of `RetrieveBySecret`. -/
def retrieveBySecretQuery (x : Externals) : String :=
  "SELECT id, name, tags, COALESCE(owner_id, '') AS owner_id, identity, secret, metadata, created_at, updated_at, updated_by, status\n        FROM clients\n        WHERE secret = $1 AND status = " ++ toString x.EnabledStatus

/-- `func (repo clientRepo) RetrieveBySecret(ctx, key) (clients.Client, error)`. -/
def clientRepo.RetrieveBySecret {W : Type} (repo : clientRepo W) (x : Externals)
    (key : String) (w : W) : (Client × Option Error) × W :=
  match repo.db.QueryRowxContext (retrieveBySecretQuery x) key
      { dbClient.zero with Secret := key } w with
  | ((_, some err), w1) =>
    if err = sqlErrNoRows then
      ((Client.zero, errors.Wrap (some errors.ErrNotFound) (some err)), w1)
    else
      ((Client.zero, errors.Wrap (some errors.ErrViewEntity) (some err)), w1)
  | ((dbc, none), w1) => (toClient x dbc, w1)

/-- The repository seen through the `clients.Repository` interface. -/
def clientRepo.toRepository {W : Type} (repo : clientRepo W) (x : Externals) : Repository W where
  RetrieveBySecret := repo.RetrieveBySecret x

/-- A database for concrete runs: when `up` it answers with the first of the
enabled rows that has the secret, or `sql.ErrNoRows`; when not, every query
fails with a connection error. -/
def memDatabase (rows : List dbClient) (up : Bool) : Database MemWorld where
  QueryRowxContext := fun _ key dbc w =>
    if up then
      match rows.find? (fun r => r.Secret == key) with
      | some r => ((r, none), w)
      | none => ((dbc, some sqlErrNoRows), w)
    else ((dbc, some (Error.plain "dial tcp: connection refused")), w)

/-- Externals of the concrete runs: metadata is taken as it is. -/
def memExternals : Externals := ⟨0, fun raw => (some raw, none)⟩

/-- The clients service over the in-memory cache and a postgres repository on
the given database. -/
def pgService (rows : List dbClient) (up : Bool) : service MemWorld :=
  ⟨(clientRepo.mk (memDatabase rows up)).toRepository memExternals, memCache⟩

end postgres

/-! ## coap/api: the metrics decorator -/

namespace coap

/-- The `coap.Service` interface; `κ` is the type of `coap.Client` handles. -/
structure Service (W κ : Type) where
  Subscribe : String → String → String → κ → W → Option Error × W
  Unsubscribe : String → String → String → String → W → Option Error × W

end coap

namespace metrics

/-- The go-kit `metrics.Counter`: `Add labels delta` stands for
`counter.With(labels...).Add(delta)`. -/
structure Counter (W : Type) where
  Add : List String → Nat → W → W

/-- The go-kit `metrics.Histogram`: `Observe labels value` stands for
`histogram.With(labels...).Observe(value)`; the value is the elapsed time in
nanoseconds, before its conversion to seconds. -/
structure Histogram (W : Type) where
  Observe : List String → Int → W → W

end metrics

namespace api

open coap metrics

/-- `metricsMiddleware`; `now` is the clock read by `time.Now()`, in
nanoseconds. -/
structure metricsMiddleware (W κ : Type) where
  now : W → Int
  counter : Counter W
  latency : Histogram W
  svc : Service W κ

/-- `Subscribe` instruments the `Subscribe` method with metrics: the deferred
function, whose argument `time.Now()` is evaluated first, runs after the
wrapped call has produced the result. -/
def metricsMiddleware.Subscribe {W κ : Type} (mm : metricsMiddleware W κ)
    (key chanID subtopic : String) (c : κ) (w : W) : Option Error × W :=
  let begin := mm.now w
  let r := mm.svc.Subscribe key chanID subtopic c w
  let w2 := mm.counter.Add ["method", "subscribe"] 1 r.2
  let w3 := mm.latency.Observe ["method", "subscribe"] (mm.now w2 - begin) w2
  (r.1, w3)

/-- `Unsubscribe` instruments the `Unsubscribe` method with metrics. -/
def metricsMiddleware.Unsubscribe {W κ : Type} (mm : metricsMiddleware W κ)
    (key chanID subtopic token : String) (w : W) : Option Error × W :=
  let begin := mm.now w
  let r := mm.svc.Unsubscribe key chanID subtopic token w
  let w2 := mm.counter.Add ["method", "unsubscribe"] 1 r.2
  let w3 := mm.latency.Observe ["method", "unsubscribe"] (mm.now w2 - begin) w2
  (r.1, w3)

/-- `MetricsMiddleware(svc, counter, latency)`: the decorator as a
`coap.Service`. -/
def MetricsMiddleware {W κ : Type} (now : W → Int) (svc : Service W κ) (counter : Counter W)
    (latency : Histogram W) : Service W κ where
  Subscribe := (metricsMiddleware.mk now counter latency svc).Subscribe
  Unsubscribe := (metricsMiddleware.mk now counter latency svc).Unsubscribe

/-- A chain of decorators, the head of the list outermost, around `svc`. -/
def chain {W κ : Type} (now : W → Int) (layers : List (Counter W × Histogram W))
    (svc : Service W κ) : Service W κ :=
  layers.foldr (fun m inner => MetricsMiddleware now inner m.1 m.2) svc

/-! ### Recording of calls and metric operations -/

/-- What a run does to its collaborators: a call of the wrapped service or
an operation on a metric. -/
inductive Event (κ : Type) where
  | subscribe (key chanID subtopic : String) (c : κ)
  | unsubscribe (key chanID subtopic token : String)
  | counterAdd (labels : List String) (delta : Nat)
  | observe (labels : List String) (value : Int)

/-- A service that records each call with its arguments and otherwise
behaves as `svc`. -/
def recordingService {W κ : Type} (svc : Service W κ) : Service (W × List (Event κ)) κ where
  Subscribe := fun key chanID subtopic c s =>
    ((svc.Subscribe key chanID subtopic c s.1).1,
      ((svc.Subscribe key chanID subtopic c s.1).2, s.2 ++ [Event.subscribe key chanID subtopic c]))
  Unsubscribe := fun key chanID subtopic token s =>
    ((svc.Unsubscribe key chanID subtopic token s.1).1,
      ((svc.Unsubscribe key chanID subtopic token s.1).2,
        s.2 ++ [Event.unsubscribe key chanID subtopic token]))

/-- A counter that records each operation and otherwise behaves as `c`. -/
def recordingCounter {W : Type} (κ : Type) (c : Counter W) : Counter (W × List (Event κ)) where
  Add := fun labels delta s => (c.Add labels delta s.1, s.2 ++ [Event.counterAdd labels delta])

/-- A histogram that records each operation and otherwise behaves as `h`. -/
def recordingHistogram {W : Type} (κ : Type) (h : Histogram W) :
    Histogram (W × List (Event κ)) where
  Observe := fun labels v s => (h.Observe labels v s.1, s.2 ++ [Event.observe labels v])

/-- A counter carried over to the world with a log, which it leaves alone. -/
def liftCounter {W : Type} (κ : Type) (c : Counter W) : Counter (W × List (Event κ)) where
  Add := fun labels delta s => (c.Add labels delta s.1, s.2)

/-- A histogram carried over to the world with a log, which it leaves alone. -/
def liftHistogram {W : Type} (κ : Type) (h : Histogram W) : Histogram (W × List (Event κ)) where
  Observe := fun labels v s => (h.Observe labels v s.1, s.2)

/-- Layers of a chain carried over to the world with a log. -/
def liftLayers {W : Type} (κ : Type) (layers : List (Counter W × Histogram W)) :
    List (Counter (W × List (Event κ)) × Histogram (W × List (Event κ))) :=
  layers.map (fun m => (liftCounter κ m.1, liftHistogram κ m.2))

/-- Total added to the counter under `labels` in a log. -/
def addedTo {κ : Type} (labels : List String) : List (Event κ) → Nat
  | [] => 0
  | Event.counterAdd l d :: es => (if l = labels then d else 0) + addedTo labels es
  | _ :: es => addedTo labels es

/-- Number of latency observations under `labels` in a log. -/
def observedUnder {κ : Type} (labels : List String) : List (Event κ) → Nat
  | [] => 0
  | Event.observe l _ :: es => (if l = labels then 1 else 0) + observedUnder labels es
  | _ :: es => observedUnder labels es

/-- A wrapped service for concrete runs: it returns the given error and keeps
no state. -/
def constService (r : Option Error) : Service Unit String where
  Subscribe := fun _ _ _ _ w => (r, w)
  Unsubscribe := fun _ _ _ _ w => (r, w)

/-- A counter for concrete runs that keeps no state. -/
def nullCounter : Counter Unit := ⟨fun _ _ w => w⟩

/-- A histogram for concrete runs that keeps no state. -/
def nullHistogram : Histogram Unit := ⟨fun _ _ w => w⟩

end api

/-! ## cmd/mqtt: the listener tasks -/

namespace main

/-- The fields of `config` that the listener tasks read. -/
structure config where
  MqttPort : String
  MqttTargetHost : String
  MqttTargetPort : String
  HttpPort : String
  HttpTargetHost : String
  HttpTargetPort : String
  HttpTargetPath : String
deriving DecidableEq, Repr

/-- What the `select` statement of a listener task finds: whether
`ctx.Done()` is closed, and the value that the goroutine running `Listen` has
sent on `errCh` (`none` while the listener is still running; `some r` once
`Listen` has returned `r`). -/
structure Pending where
  ctxDone : Bool
  errCh : Option (Option Error)
deriving DecidableEq, Repr

/-- The case that `select` takes when both are ready. -/
inductive Pick where
  | done
  | errCh
deriving DecidableEq, Repr

/-- `proxyMQTT`: the returned error and the lines logged at info level, or
`none` while the `select` blocks. -/
def proxyMQTT (cfg : config) (p : Pending) (pick : Pick) : Option (Option Error × List String) :=
  let target := cfg.MqttTargetHost ++ ":" ++ cfg.MqttTargetPort
  match p.ctxDone, p.errCh with
  | false, none => none
  | true, none => some (none, ["proxy MQTT shutdown at " ++ target])
  | false, some err => some (err, [])
  | true, some err =>
    match pick with
    | Pick.done => some (none, ["proxy MQTT shutdown at " ++ target])
    | Pick.errCh => some (err, [])

/-- `proxyWS`: as `proxyMQTT`, for the WebSocket listener. -/
def proxyWS (cfg : config) (p : Pending) (pick : Pick) : Option (Option Error × List String) :=
  let target := cfg.HttpTargetHost ++ ":" ++ cfg.HttpTargetPort
  match p.ctxDone, p.errCh with
  | false, none => none
  | true, none => some (none, ["proxy MQTT WS shutdown at " ++ target])
  | false, some err => some (err, [])
  | true, some err =>
    match pick with
    | Pick.done => some (none, ["proxy MQTT WS shutdown at " ++ target])
    | Pick.errCh => some (err, [])

/-- The configuration defaults of `config`. -/
def defaultConfig : config :=
  ⟨"1883", "localhost", "1883", "8080", "localhost", "8080", "/mqtt"⟩

end main

/-! ## mqtt: the topic translator and the publish operation -/

namespace mqtt

/-- Modelled from the spec: part of the missing Topic Translator, the first
path segment of a topic (the characters before the first slash) and, when
there is a slash, what follows it. -/
def topicSegment : List Char → List Char × Option (List Char)
  | [] => ([], none)
  | c :: cs => if c = '/' then ([], some cs) else (c :: (topicSegment cs).1, (topicSegment cs).2)

/-- Modelled from the spec: the grammar of the missing Topic Translator,
`channels/{channelID}/messages[/{subtopic...}]`, on characters. -/
def parseChars (validID : String → Bool) (topic : List Char) :
    Option (List Char × List Char) :=
  match topicSegment topic with
  | (_, none) => none
  | (seg0, some rest0) =>
    if seg0 = "channels".toList then
      match topicSegment rest0 with
      | (_, none) => none
      | (id, some rest1) =>
        if validID (String.mk id) then
          if (topicSegment rest1).1 = "messages".toList then
            some (id, ((topicSegment rest1).2).getD [])
          else none
        else none
    else none

/-- Modelled from the spec: the Topic Translator `Parse` is not among the
source files.  The grammar is `channels/{channelID}/messages[/{subtopic...}]`,
where `channelID` must match the platform's identifier shape, given here as
the predicate `validID`; the result is the channel id and the remainder, the
empty subtopic by default, and `none` stands for `ParseError`. -/
def Parse (validID : String → Bool) (topic : String) : Option (String × String) :=
  (parseChars validID topic.toList).map (fun r => (String.mk r.1, String.mk r.2))

/-- Modelled from the spec: what an operation of the missing Session Handler
does to the Policy client and to the bus Publisher. -/
inductive Interaction where
  | authorize (clientID channelID action : String)
  | publish (channelID subtopic payload : String)
deriving DecidableEq, Repr

/-- Modelled from the spec: how an operation of the missing Session Handler
ends. -/
inductive Verdict where
  | denied
  | forwardingError (err : Error)
  | done
deriving DecidableEq, Repr

/-- Modelled from the spec: the parse+authorize sequence of the Session
Handler, which is not among the source files: parse the topic; on ParseError,
deny; otherwise call the Policy client to authorize (clientID, channelID,
action).  The result is the channel when the operation is allowed. -/
def authorizeTopic (validID : String → Bool) (policy : String → String → String → Option Error)
    (clientID topic action : String) : Option (String × String) × List Interaction :=
  match Parse validID topic with
  | none => (none, [])
  | some ch =>
    match policy clientID ch.1 action with
    | some _ => (none, [Interaction.authorize clientID ch.1 action])
    | none => (some ch, [Interaction.authorize clientID ch.1 action])

/-- Modelled from the spec: `Publish(session, topic, payload)` of the
Session Handler, which is not among the source files: after the
parse+authorize sequence for "publish", the message is handed to the bus
Publisher, whose failure is returned as a ForwardingError. -/
def Publish (validID : String → Bool) (policy : String → String → String → Option Error)
    (publisher : String → String → String → Option Error)
    (clientID topic payload : String) : Verdict × List Interaction :=
  match authorizeTopic validID policy clientID topic "publish" with
  | (none, log) => (Verdict.denied, log)
  | (some ch, log) =>
    match publisher ch.1 ch.2 payload with
    | some err => (Verdict.forwardingError err, log ++ [Interaction.publish ch.1 ch.2 payload])
    | none => (Verdict.done, log ++ [Interaction.publish ch.1 ch.2 payload])

/-- An identifier shape for concrete runs: a non-empty string of letters,
digits and hyphens. -/
def idShape (s : String) : Bool :=
  !s.toList.isEmpty && s.toList.all (fun c => c.isAlphanum || c = '-')

end mqtt

/-! ## things/clients: authorization and listing -/

namespace errors

/-- Modelled from the spec: `errors.ErrAuthentication`, declared outside the sources. -/
def ErrAuthentication : Error := Error.plain "failed to perform authentication over the entity"

/-- Modelled from the spec: `errors.ErrAuthorization`, declared outside the sources. -/
def ErrAuthorization : Error := Error.plain "failed to perform authorization over the entity"

/-- Modelled from the spec: `errors.ErrCreateEntity`, declared outside the sources. -/
def ErrCreateEntity : Error := Error.plain "failed to create entity in the db"

end errors

namespace clients

/-- `MyKey`. -/
def MyKey : String := "mine"

/-- `thingsObjectKey`. -/
def thingsObjectKey : String := "things"

/-- `listRelationKey`. -/
def listRelationKey : String := "c_list"

/-- `entityType`. -/
def entityType : String := "group"

/-- Modelled from the spec: the declaration of the things' `Page` is not
among the source files; its fields are those that the sources read or write,
the fields of the users' `Page` together with `IDs`. -/
structure Page where
  Total : Nat
  Offset : Nat
  Limit : Nat
  Name : String
  Identity : String
  Owner : String
  Tag : String
  Metadata : Option String
  SharedBy : String
  Status : Nat
  Action : String
  Subject : String
  IDs : List String
deriving DecidableEq, Repr

/-- The zero value `Page{}`. -/
def Page.zero : Page := ⟨0, 0, 0, "", "", "", "", none, "", 0, "", "", []⟩

/-- Modelled from the spec: `ClientsPage`, declared outside the sources: page
metadata and a list of clients. -/
structure ClientsPage where
  Page : Page
  Clients : List Client
deriving DecidableEq, Repr

/-- Modelled from the spec: `MembersPage`, declared outside the sources: page
metadata and a list of members. -/
structure MembersPage where
  Page : Page
  Members : List Client
deriving DecidableEq, Repr

/-- The zero value `ClientsPage{}`. -/
def ClientsPage.zero : ClientsPage := ⟨Page.zero, []⟩

/-- The zero value `MembersPage{}`. -/
def MembersPage.zero : MembersPage := ⟨Page.zero, []⟩

/-- `policies.AuthorizeReq`, with the fields that `authorize` fills. -/
structure AuthorizeReq where
  Sub : String
  Obj : String
  Act : String
  EntityType : String
deriving DecidableEq, Repr

/-- The `policies.AuthServiceClient` interface, as far as the service uses
it: `Identify` of a token gives the identity (`res.GetId()`) and
`Authorize` of a request gives the answer (`res.GetAuthorized()`). -/
structure AuthServiceClient (W : Type) where
  Identify : String → W → (String × Option Error) × W
  Authorize : AuthorizeReq → W → (Bool × Option Error) × W

/-- The part of the `Repository` interface that the authorization and
listing methods use. -/
structure ThingRepository (W : Type) where
  RetrieveByID : String → W → (Client × Option Error) × W
  RetrieveAll : Page → W → (ClientsPage × Option Error) × W
  Members : String → Page → W → (MembersPage × Option Error) × W
  ChangeStatus : Client → W → (Client × Option Error) × W

/-- The fields of `service` that the authorization and listing methods read. -/
structure policyService (W : Type) where
  auth : AuthServiceClient W
  clients : ThingRepository W

/-- `func (svc service) identifyUser(ctx, token) (string, error)`. -/
def policyService.identifyUser {W : Type} (svc : policyService W) (token : String) (w : W) :
    (String × Option Error) × W :=
  match svc.auth.Identify token w with
  | ((_, some err), w1) => (("", errors.Wrap (some errors.ErrAuthorization) (some err)), w1)
  | ((res, none), w1) => ((res, none), w1)

/-- `func (svc service) authorize(ctx, subject, object, relation) error`. -/
def policyService.authorize {W : Type} (svc : policyService W)
    (subject object relation : String) (w : W) : Option Error × W :=
  match svc.identifyUser subject w with
  | ((_, some err), w1) => (some err, w1)
  | ((userID, none), w1) =>
    match svc.clients.RetrieveByID object w1 with
    | ((_, some err), w2) => (some err, w2)
    | ((dbThing, none), w2) =>
      if dbThing.Owner = userID then (none, w2)
      else
        match svc.auth.Authorize ⟨subject, object, relation, entityType⟩ w2 with
        | ((_, some err), w3) => (errors.Wrap (some errors.ErrAuthorization) (some err), w3)
        | ((authorized, none), w3) =>
          if !authorized then (some errors.ErrAuthorization, w3) else (none, w3)

/-- The page that `ListClients` hands to `RetrieveAll` for a caller who is
not admin: "mine" in `SharedBy` and in `Owner` becomes the caller's
identity, and the action is "c_list". -/
def nonAdminPage (res : String) (pm : Page) : Page :=
  let pm1 := if pm.SharedBy = MyKey then { pm with SharedBy := res } else pm
  let pm2 := if pm1.Owner = MyKey then { pm1 with Owner := res } else pm1
  { pm2 with Action := "c_list" }

/-- `func (svc service) ListClients(ctx, token, pm) (ClientsPage, error)`. -/
def policyService.ListClients {W : Type} (svc : policyService W) (token : String) (pm : Page)
    (w : W) : (ClientsPage × Option Error) × W :=
  match svc.auth.Identify token w with
  | ((_, some err), w1) =>
    ((ClientsPage.zero, errors.Wrap (some errors.ErrAuthentication) (some err)), w1)
  | ((res, none), w1) =>
    match svc.authorize token thingsObjectKey listRelationKey w1 with
    | (none, w2) => svc.clients.RetrieveAll { pm with Owner := "", SharedBy := "" } w2
    | (some _, w2) => svc.clients.RetrieveAll (nonAdminPage res pm) w2

/-- `func (svc service) ListClientsByGroup(ctx, token, groupID, pm)
(MembersPage, error)`. -/
def policyService.ListClientsByGroup {W : Type} (svc : policyService W)
    (token groupID : String) (pm : Page) (w : W) : (MembersPage × Option Error) × W :=
  match svc.identifyUser token w with
  | ((_, some err), w1) => ((MembersPage.zero, some err), w1)
  | ((userID, none), w1) =>
    match svc.authorize token thingsObjectKey listRelationKey w1 with
    | (none, w2) => svc.clients.Members groupID pm w2
    | (some _, w2) => svc.clients.Members groupID { pm with Owner := userID } w2

/-- One call made by the service to the policy service or to the repository. -/
inductive AccessCall where
  | identify (token : String)
  | authorize (req : AuthorizeReq)
  | retrieveByID (id : String)
  | retrieveAll (pm : Page)
  | members (groupID : String) (pm : Page)
  | changeStatus (c : Client)
deriving DecidableEq, Repr

/-- A policy service that records its calls and otherwise behaves as `a`. -/
def AuthServiceClient.recording {W : Type} (a : AuthServiceClient W) :
    AuthServiceClient (W × List AccessCall) where
  Identify := fun token s =>
    ((a.Identify token s.1).1, ((a.Identify token s.1).2, s.2 ++ [AccessCall.identify token]))
  Authorize := fun req s =>
    ((a.Authorize req s.1).1, ((a.Authorize req s.1).2, s.2 ++ [AccessCall.authorize req]))

/-- A repository that records its calls and otherwise behaves as `r`. -/
def ThingRepository.recording {W : Type} (r : ThingRepository W) :
    ThingRepository (W × List AccessCall) where
  RetrieveByID := fun id s =>
    ((r.RetrieveByID id s.1).1, ((r.RetrieveByID id s.1).2, s.2 ++ [AccessCall.retrieveByID id]))
  RetrieveAll := fun pm s =>
    ((r.RetrieveAll pm s.1).1, ((r.RetrieveAll pm s.1).2, s.2 ++ [AccessCall.retrieveAll pm]))
  Members := fun g pm s =>
    ((r.Members g pm s.1).1, ((r.Members g pm s.1).2, s.2 ++ [AccessCall.members g pm]))
  ChangeStatus := fun c s =>
    ((r.ChangeStatus c s.1).1, ((r.ChangeStatus c s.1).2, s.2 ++ [AccessCall.changeStatus c]))

/-- The service over recording collaborators. -/
def policyService.recording {W : Type} (svc : policyService W) :
    policyService (W × List AccessCall) where
  auth := svc.auth.recording
  clients := svc.clients.recording

/-- The calls made by one run of `authorize`, in order. -/
def policyService.authorizeCalls {W : Type} (svc : policyService W)
    (subject object relation : String) (w : W) : List AccessCall :=
  (svc.recording.authorize subject object relation (w, [])).2.2

/-- The calls made by one run of `ListClients`, in order. -/
def policyService.listClientsCalls {W : Type} (svc : policyService W) (token : String)
    (pm : Page) (w : W) : List AccessCall :=
  (svc.recording.ListClients token pm (w, [])).2.2

/-- The calls made by one run of `ListClientsByGroup`, in order. -/
def policyService.listClientsByGroupCalls {W : Type} (svc : policyService W)
    (token groupID : String) (pm : Page) (w : W) : List AccessCall :=
  (svc.recording.ListClientsByGroup token groupID pm (w, [])).2.2

/-- A policy service for concrete runs: tokens are identified by the given
table, and a request is authorized when it is in the list of grants. -/
def memAuth {W : Type} (tokens : List (String × String)) (grants : List AuthorizeReq) :
    AuthServiceClient W where
  Identify := fun token w =>
    match tokens.lookup token with
    | some id => ((id, none), w)
    | none => (("", some (Error.plain "invalid token")), w)
  Authorize := fun req w => ((decide (req ∈ grants), none), w)

/-- A repository for concrete runs over the given things: `RetrieveAll`
answers with the things of the page's owner, or with all things when the page
names no owner; `Members` does the same whatever the group. -/
def memThings {W : Type} (things : List Client) : ThingRepository W where
  RetrieveByID := fun id w =>
    match things.find? (fun c => c.ID == id) with
    | some c => ((c, none), w)
    | none => ((Client.zero, errors.Wrap (some errors.ErrNotFound)
        (some (Error.plain "sql: no rows in result set"))), w)
  RetrieveAll := fun pm w =>
    ((⟨Page.zero, things.filter (fun c => pm.Owner == "" || c.Owner == pm.Owner)⟩, none), w)
  Members := fun _ pm w =>
    ((⟨Page.zero, things.filter (fun c => pm.Owner == "" || c.Owner == pm.Owner)⟩, none), w)
  ChangeStatus := fun c w => ((c, none), w)

/-- A thing owned by alice. -/
def aliceThing : Client := { Client.zero with ID := "thing-a", Owner := "alice" }

/-- A thing owned by bob. -/
def bobThing : Client := { Client.zero with ID := "thing-b", Owner := "bob" }

/-- The grant that makes its subject an admin for listing: action c_list on
the object "things". -/
def adminGrant (token : String) : AuthorizeReq := ⟨token, "things", "c_list", "group"⟩

/-- The policy service of the concrete runs: alice, bob and an admin, whose
token is granted c_list on "things". -/
def memUsers {W : Type} : AuthServiceClient W :=
  memAuth [("alice-token", "alice"), ("bob-token", "bob"), ("admin-token", "admin")]
    [adminGrant "admin-token"]

/-- The service of the concrete runs, over the things of alice and of bob. -/
def memPolicyService : policyService Unit :=
  ⟨memUsers, memThings [aliceThing, bobThing]⟩

/-- A thing whose id is "things", owned by root. -/
def thingsThing : Client := { Client.zero with ID := "things", Owner := "root" }

/-- The service of the concrete runs when the repository also holds a thing
whose id is "things". -/
def memPolicyServiceT : policyService Unit :=
  ⟨memUsers, memThings [aliceThing, bobThing, thingsThing]⟩

end clients

/-! ## things/clients/postgres: page queries, members, and saving -/

namespace postgres

open clients

/-- Modelled from the spec: `postgres.ErrFailedToRetrieveAll` of the package
`internal/postgres`, which is not among the source files. -/
def ErrFailedToRetrieveAll : Error := Error.plain "failed to retrieve all clients"

/-- Modelled from the spec: `postgres.ErrFailedToRetrieveMembers` of the
package `internal/postgres`, which is not among the source files. -/
def ErrFailedToRetrieveMembers : Error := Error.plain "failed to retrieve group members"

/-- `sql.ErrTxDone` of the standard library. -/
def sqlErrTxDone : Error :=
  Error.plain "sql: transaction has already been committed or rolled back"

/-- What the page queries and `Save` need from outside the sources: the
constant `mfclients.AllStatus`, `postgres.CreateMetadataQuery` (query text,
encoded metadata, error), `postgres.HandleError`, `json.Marshal` and the
length of a metadata map, and `pgtype.TextArray.Set`. -/
structure QueryExternals where
  AllStatus : Nat
  CreateMetadataQuery : String → Option String → String × Option String × Option Error
  HandleError : Option Error → Option Error → Option Error
  metadataLen : Option String → Nat
  jsonMarshal : Option String → String × Option Error
  tagsSet : List String → Option Error

/-- `dbClientsPage`. -/
structure dbClientsPage where
  GroupID : String
  Name : String
  Owner : String
  Identity : String
  Metadata : Option String
  Tag : String
  Status : Nat
  Total : Nat
  Limit : Nat
  Offset : Nat
deriving DecidableEq, Repr

/-- The zero value `dbClientsPage{}`. -/
def dbClientsPage.zero : dbClientsPage := ⟨"", "", "", "", none, "", 0, 0, 0, 0⟩

/-- The `postgres.Database` interface, as far as `Members` uses it:
`NamedQueryContext` gives the rows, each with the result of its `StructScan`,
and `postgres.Total` runs the count query. -/
structure SqlDatabase (W : Type) where
  NamedQueryContext : String → dbClientsPage → W →
    (List (dbClient × Option Error) × Option Error) × W
  Total : String → dbClientsPage → W → (Nat × Option Error) × W

/-- The conditions that `pageQuery` adds for the owner and for sharing. -/
def ownerConditions (pm : Page) : List String :=
  (if pm.Owner ≠ "" ∧ pm.SharedBy = "" then ["c.owner_id = '" ++ pm.Owner ++ "'"] else []) ++
  (if pm.Owner ≠ "" ∧ pm.SharedBy ≠ "" then
    ["(c.owner_id = '" ++ pm.Owner ++ "' OR c.id IN (SELECT subject FROM policies WHERE object IN (SELECT object FROM policies WHERE subject = '" ++ pm.SharedBy ++ "' AND '" ++ pm.Action ++ "'=ANY(actions))))"]
   else []) ++
  (if pm.SharedBy ≠ "" ∧ pm.Owner = "" then
    ["c.owner_id != '" ++ pm.SharedBy ++ "' AND (c.id IN (SELECT subject FROM policies WHERE object IN (SELECT object FROM policies WHERE subject = '" ++ pm.SharedBy ++ "' AND '" ++ pm.Action ++ "'=ANY(actions))))"]
   else [])

/-- `func pageQuery(pm clients.Page) (string, error)`. -/
def pageQuery (x : QueryExternals) (pm : Page) : String × Option Error :=
  match x.CreateMetadataQuery "" pm.Metadata with
  | (_, _, some err) => ("", errors.Wrap (some errors.ErrViewEntity) (some err))
  | (mq, _, none) =>
    let query : List String :=
      (if mq ≠ "" then [mq] else []) ++
      (if pm.IDs.length ≠ 0 then ["id IN ('" ++ "','".intercalate pm.IDs ++ "')"] else []) ++
      (if pm.Name ≠ "" then ["c.name = '" ++ pm.Name ++ "'"] else []) ++
      (if pm.Tag ≠ "" then ["'" ++ pm.Tag ++ "' = ANY(c.tags)"] else []) ++
      (if pm.Status ≠ x.AllStatus then ["c.status = " ++ toString pm.Status] else []) ++
      ownerConditions pm
    (if query.length > 0 then "WHERE " ++ " AND ".intercalate query else "", none)

/-- `func toDBClientsPage(pm clients.Page) (dbClientsPage, error)`. -/
def toDBClientsPage (x : QueryExternals) (pm : Page) : dbClientsPage × Option Error :=
  match x.CreateMetadataQuery "" pm.Metadata with
  | (_, _, some err) => (dbClientsPage.zero, errors.Wrap (some errors.ErrViewEntity) (some err))
  | (_, data, none) =>
    ({ dbClientsPage.zero with
        Name := pm.Name, Metadata := data, Owner := pm.Owner, Total := pm.Total,
        Offset := pm.Offset, Limit := pm.Limit, Status := pm.Status, Tag := pm.Tag }, none)

/-- The condition `aq` of `Members`: if not admin, the client needs to have
the action on the group. -/
def membersPolicyCondition (pm : Page) : String :=
  if pm.Subject ≠ "" then
    "AND EXISTS (SELECT 1 FROM policies WHERE policies.subject = '" ++ pm.Subject ++ "' AND policies.object = :group_id AND '" ++ pm.Action ++ "'=ANY(actions))"
  else ""

/-- The query `q` of `Members`, from the page conditions `emq` and the policy
condition `aq`. -/
def membersQuery (emq aq : String) : String :=
  "SELECT c.id, c.name, c.tags, c.metadata, c.identity, c.secret, c.status, c.created_at FROM clients c\n\t\tINNER JOIN policies ON c.id=policies.subject " ++ emq ++ " AND policies.object = :group_id " ++ aq ++ " ORDER BY c.created_at LIMIT :limit OFFSET :offset;"

/-- The count query `cq` of `Members`. -/
def membersCountQuery (emq : String) : String :=
  "SELECT COUNT(*) FROM clients c INNER JOIN policies ON c.id=policies.subject " ++ emq ++ " AND policies.object = :group_id;"

/-- The loop of `Members` over the rows: scan each row and convert it. -/
def scanMembers (x : Externals) : List (dbClient × Option Error) → List Client × Option Error
  | [] => ([], none)
  | (_, some err) :: _ => ([], errors.Wrap (some ErrFailedToRetrieveMembers) (some err))
  | (dbc, none) :: rows =>
    match toClient x dbc with
    | (_, some err) => ([], some err)
    | (c, none) =>
      match scanMembers x rows with
      | (_, some err) => ([], some err)
      | (items, none) => (c :: items, none)

/-- `func (repo clientRepo) Members(ctx, groupID, pm) (clients.MembersPage,
error)`, the repository being given by its database. -/
def clientRepo.Members {W : Type} (db : SqlDatabase W) (x : Externals) (y : QueryExternals)
    (groupID : String) (pm : Page) (w : W) : (MembersPage × Option Error) × W :=
  match pageQuery y pm with
  | (_, some err) => ((MembersPage.zero, some err), w)
  | (emq, none) =>
    match toDBClientsPage y pm with
    | (_, some err) =>
      ((MembersPage.zero, errors.Wrap (some ErrFailedToRetrieveAll) (some err)), w)
    | (dbPage, none) =>
      match db.NamedQueryContext (membersQuery emq (membersPolicyCondition pm))
          { dbPage with GroupID := groupID } w with
      | ((_, some err), w1) =>
        ((MembersPage.zero, errors.Wrap (some ErrFailedToRetrieveMembers) (some err)), w1)
      | ((rows, none), w1) =>
        match scanMembers x rows with
        | (_, some err) => ((MembersPage.zero, some err), w1)
        | (items, none) =>
          match db.Total (membersCountQuery emq) { dbPage with GroupID := groupID } w1 with
          | ((_, some err), w2) =>
            ((MembersPage.zero, errors.Wrap (some ErrFailedToRetrieveMembers) (some err)), w2)
          | ((total, none), w2) =>
            ((⟨{ Page.zero with Total := total, Offset := pm.Offset, Limit := pm.Limit },
              items⟩, none), w2)

/-- `func toDBClient(c clients.Client) (dbClient, error)`. -/
def toDBClient (x : QueryExternals) (c : Client) : dbClient × Option Error :=
  match (if x.metadataLen c.Metadata > 0 then x.jsonMarshal c.Metadata
      else ("\x7b\x7d", none)) with
  | (_, some err) => (dbClient.zero, errors.Wrap (some errors.ErrMalformedEntity) (some err))
  | (data, none) =>
    match x.tagsSet c.Tags with
    | some err => (dbClient.zero, some err)
    | none =>
      ({ ID := c.ID
         Name := c.Name
         Tags := c.Tags
         Owner := c.Owner
         Identity := c.Credentials.Identity
         Secret := c.Credentials.Secret
         Metadata := some data
         CreatedAt := c.CreatedAt
         UpdatedAt := if c.UpdatedAt ≠ 0 then some c.UpdatedAt else none
         UpdatedBy := if c.UpdatedBy ≠ "" then some c.UpdatedBy else none
         Status := c.Status }, none)

/-- What the database does for a transaction: begin it, execute a named
statement in it, roll it back, commit it. -/
structure TxDriver (W : Type) where
  begin : W → Option Error × W
  exec : String → dbClient → W → Option Error × W
  rollback : W → Option Error × W
  commit : W → Option Error × W

/-- The transaction handle `*sqlx.Tx`, a `sql.Tx` of the standard library,
whose documented contract is that after a call to `Commit` or `Rollback` all
operations on the transaction fail with `sql.ErrTxDone`: the handle records
whether it is done. -/
structure Tx where
  done : Bool
deriving DecidableEq, Repr

/-- `tx.NamedExecContext`: on a transaction that is done it fails with
`sql.ErrTxDone` and the database is not reached. -/
def Tx.NamedExecContext {W : Type} (d : TxDriver W) (tx : Tx) (q : String) (arg : dbClient)
    (w : W) : Option Error × W :=
  if tx.done then (some sqlErrTxDone, w) else d.exec q arg w

/-- `tx.Rollback`: on a transaction that is done it fails with
`sql.ErrTxDone`; otherwise the transaction is done from now on, whatever the
database answers. -/
def Tx.Rollback {W : Type} (d : TxDriver W) (tx : Tx) (w : W) : (Option Error × Tx) × W :=
  if tx.done then ((some sqlErrTxDone, tx), w)
  else (((d.rollback w).1, ⟨true⟩), (d.rollback w).2)

/-- `tx.Commit`: on a transaction that is done it fails with `sql.ErrTxDone`;
otherwise the transaction is done from now on, whatever the database
answers. -/
def Tx.Commit {W : Type} (d : TxDriver W) (tx : Tx) (w : W) : (Option Error × Tx) × W :=
  if tx.done then ((some sqlErrTxDone, tx), w)
  else (((d.commit w).1, ⟨true⟩), (d.commit w).2)

/-- The statement of `Save`. -/
def saveQuery : String :=
  "INSERT INTO clients (id, name, tags, owner_id, identity, secret, metadata, created_at, updated_at, updated_by, status)\n        VALUES (:id, :name, :tags, :owner_id, :identity, :secret, :metadata, :created_at, :updated_at, :updated_by, :status)\n        RETURNING id, name, tags, identity, secret, metadata, COALESCE(owner_id, '') AS owner_id, status, created_at, updated_at, updated_by"

/-- The loop of `Save` over the clients: `some err` when the loop returns
`err` from `Save`, `none` when it runs to its end; with the transaction
handle as the loop leaves it. -/
def clientRepo.saveEach {W : Type} (d : TxDriver W) (x : QueryExternals) :
    List Client → Tx → W → (Option (Option Error) × Tx) × W
  | [], tx, w => ((none, tx), w)
  | cli :: rest, tx, w =>
    match toDBClient x cli with
    | (_, some err) => ((some (errors.Wrap (some errors.ErrCreateEntity) (some err)), tx), w)
    | (dbcli, none) =>
      match tx.NamedExecContext d saveQuery dbcli w with
      | (none, w1) => clientRepo.saveEach d x rest tx w1
      | (some _, w1) =>
        match tx.Rollback d w1 with
        | ((some err, tx1), w2) =>
          ((some (x.HandleError (some err) (some errors.ErrCreateEntity)), tx1), w2)
        | ((none, tx1), w2) => clientRepo.saveEach d x rest tx1 w2

/-- `func (repo clientRepo) Save(ctx, cs ...clients.Client) ([]clients.Client,
error)`, the repository being given by what its database does for a
transaction. -/
def clientRepo.Save {W : Type} (d : TxDriver W) (x : QueryExternals) (cs : List Client)
    (w : W) : (List Client × Option Error) × W :=
  match d.begin w with
  | (some err, w1) => (([], errors.Wrap (some errors.ErrCreateEntity) (some err)), w1)
  | (none, w1) =>
    match clientRepo.saveEach d x cs ⟨false⟩ w1 with
    | ((some err, _), w2) => (([], err), w2)
    | ((none, tx), w2) =>
      match tx.Commit d w2 with
      | ((some err, _), w3) => (([], errors.Wrap (some errors.ErrCreateEntity) (some err)), w3)
      | ((none, _), w3) => ((cs, none), w3)

/-- What reaches the database during a transaction, with its answer. -/
inductive TxEvent where
  | begin (r : Option Error)
  | exec (arg : dbClient) (r : Option Error)
  | rollback (r : Option Error)
  | commit (r : Option Error)
deriving DecidableEq, Repr

/-- A database that records what reaches it and otherwise behaves as `d`. -/
def recordingDriver {W : Type} (d : TxDriver W) : TxDriver (W × List TxEvent) where
  begin := fun s => ((d.begin s.1).1, ((d.begin s.1).2, s.2 ++ [TxEvent.begin (d.begin s.1).1]))
  exec := fun q arg s =>
    ((d.exec q arg s.1).1, ((d.exec q arg s.1).2, s.2 ++ [TxEvent.exec arg (d.exec q arg s.1).1]))
  rollback := fun s =>
    ((d.rollback s.1).1, ((d.rollback s.1).2, s.2 ++ [TxEvent.rollback (d.rollback s.1).1]))
  commit := fun s =>
    ((d.commit s.1).1, ((d.commit s.1).2, s.2 ++ [TxEvent.commit (d.commit s.1).1]))

/-- What reached the database during one run of `Save`, in order. -/
def saveEvents {W : Type} (d : TxDriver W) (x : QueryExternals) (cs : List Client) (w : W) :
    List TxEvent :=
  (clientRepo.Save (recordingDriver d) x cs (w, [])).2.2

/-- Whether an event is an insert that the database refused. -/
def TxEvent.isFailedExec : TxEvent → Bool
  | TxEvent.exec _ (some _) => true
  | _ => false

/-- Whether an event is a commit that reached the database. -/
def TxEvent.isCommit : TxEvent → Bool
  | TxEvent.commit _ => true
  | _ => false

/-- The database on the inserts of a batch, asked directly and in order: the
world after them when every client converts and every insert is accepted,
nothing as soon as a conversion fails or an insert is refused.  Not a function
of the repository: it states what the database answers to a batch. -/
def insertAll {W : Type} (d : TxDriver W) (x : QueryExternals) : List Client → W → Option W
  | [], w => some w
  | cli :: rest, w =>
    match toDBClient x cli with
    | (_, some _) => none
    | (dbcli, none) =>
      match d.exec saveQuery dbcli w with
      | (none, w1) => insertAll d x rest w1
      | (some _, _) => none

/-- A database for concrete runs whose world is the table of clients: an
insert of an id that is already in the table, or in the pending inserts, is
refused; rollback drops the pending inserts and commit writes them. -/
structure MemTable where
  rows : List String
  pending : List String
deriving DecidableEq, Repr

/-- The transactions of the database for concrete runs. -/
def memTxDriver : TxDriver MemTable where
  begin := fun t => (none, { t with pending := [] })
  exec := fun _ arg t =>
    if arg.ID ∈ t.rows ∨ arg.ID ∈ t.pending then
      (some (Error.plain "duplicate key value violates unique constraint"), t)
    else (none, { t with pending := t.pending ++ [arg.ID] })
  rollback := fun t => (none, { t with pending := [] })
  commit := fun t => (none, ⟨t.rows ++ t.pending, []⟩)

/-- Externals of the concrete runs: no metadata conditions, statuses
enabled = 0, disabled = 1, all = 2, errors wrapped as they come. -/
def memQueryExternals : QueryExternals where
  AllStatus := 2
  CreateMetadataQuery := fun _ _ => ("", none, none)
  HandleError := fun err wrapper => errors.Wrap wrapper err
  metadataLen := fun m => (m.getD "").length
  jsonMarshal := fun m => (m.getD "", none)
  tagsSet := fun _ => none

/-- A database for concrete runs whose world is the list of the queries it
was asked: every query gives no rows and a total of zero. -/
def memSqlDatabase : SqlDatabase (List String) where
  NamedQueryContext := fun q _ w => (([], none), w ++ [q])
  Total := fun cq _ w => ((0, none), w ++ [cq])

/-- The service of the concrete runs whose repository lists members through
`clientRepo.Members` on the database that keeps the queries. -/
def pgPolicyService : policyService (List String) :=
  ⟨memUsers,
    { (memThings [aliceThing, bobThing, thingsThing] : ThingRepository (List String)) with
      Members := clientRepo.Members memSqlDatabase memExternals memQueryExternals }⟩

/-- A page that asks for clients of any status. -/
def anyStatusPage : Page := { Page.zero with Status := 2 }

end postgres

/-! ## modbus: the register read/write binding -/

namespace modbus

/-- `dataPoint`, a string type. -/
abbrev dataPoint := String

/-- `Coil`. -/
def Coil : dataPoint := "coil"

/-- `HoldingRegister`. -/
def HoldingRegister : dataPoint := "h_register"

/-- `InputRegister`. -/
def InputRegister : dataPoint := "i_register"

/-- `Register`. -/
def Register : dataPoint := "register"

/-- `Discrete`. -/
def Discrete : dataPoint := "discrete"

/-- `FIFO`. -/
def FIFO : dataPoint := "fifo"

/-- `errInvalidInput`. -/
def errInvalidInput : Error := Error.plain "invalid input type"

/-- A `[]byte` result: `none` is the nil slice. -/
abbrev Bytes := Option (List Nat)

/-- The dynamic type of a `value interface{}`: a `uint16`, a `[]byte`, or
anything else (the nil interface included). -/
inductive Value where
  | uint16 (v : Nat)
  | bytes (b : List Nat)
  | other (typeName : String)
deriving DecidableEq, Repr

/-- The operations of the vendor library's `modbus.Client` interface that the
binding calls. -/
structure Client (W : Type) where
  ReadCoils : Nat → Nat → W → (Bytes × Option Error) × W
  ReadDiscreteInputs : Nat → Nat → W → (Bytes × Option Error) × W
  WriteSingleCoil : Nat → Nat → W → (Bytes × Option Error) × W
  WriteMultipleCoils : Nat → Nat → List Nat → W → (Bytes × Option Error) × W
  ReadInputRegisters : Nat → Nat → W → (Bytes × Option Error) × W
  ReadHoldingRegisters : Nat → Nat → W → (Bytes × Option Error) × W
  WriteSingleRegister : Nat → Nat → W → (Bytes × Option Error) × W
  WriteMultipleRegisters : Nat → Nat → List Nat → W → (Bytes × Option Error) × W
  ReadFIFOQueue : Nat → W → (Bytes × Option Error) × W

/-- `serial.RS485Config` of the vendor library. -/
structure RS485Config where
  Enabled : Bool
  DelayRtsBeforeSend : Int
  DelayRtsAfterSend : Int
  RtsHighDuringSend : Bool
  RtsHighAfterSend : Bool
  RxDuringTx : Bool
deriving DecidableEq, Repr

/-- `serial.Config` of the vendor library. -/
structure SerialConfig where
  Address : String
  BaudRate : Int
  DataBits : Int
  StopBits : Int
  Parity : String
  Timeout : Int
  RS485 : RS485Config
deriving DecidableEq, Repr

/-- `TCPHandlerOptions`; the logger pointer is `none` when nil. -/
structure TCPHandlerOptions where
  Address : String
  IdleTimeout : Int
  Logger : Option String
  SlaveId : Nat
  Timeout : Int
deriving DecidableEq, Repr

/-- `RTUHandlerOptions`. -/
structure RTUHandlerOptions where
  Address : String
  BaudRate : Int
  Config : SerialConfig
  DataBits : Int
  IdleTimeout : Int
  Logger : Option String
  Parity : String
  RS485 : RS485Config
  SlaveId : Nat
  StopBits : Int
  Timeout : Int
deriving DecidableEq, Repr

/-- The fields of the vendor library's `modbus.TCPClientHandler`. -/
structure TCPClientHandler where
  Address : String
  Timeout : Int
  IdleTimeout : Int
  Logger : Option String
  SlaveId : Nat
deriving DecidableEq, Repr

/-- The fields of the vendor library's `modbus.RTUClientHandler`; the serial
settings are those of the embedded `serial.Config`. -/
structure RTUClientHandler where
  Config : SerialConfig
  Logger : Option String
  IdleTimeout : Int
  SlaveId : Nat
deriving DecidableEq, Repr

/-- A `modbus.ClientHandler` interface value: a pointer to an RTU handler, to
a TCP handler, to a handler of another type, or nil. -/
inductive ClientHandler where
  | rtu (h : RTUClientHandler)
  | tcp (h : TCPClientHandler)
  | other (typeName : String)
  | nil
deriving DecidableEq, Repr

/-- What the binding takes from the vendor library `goburrow/modbus`: the
handler constructors, `Connect` and `Close` of the two handler types, and
`modbus.NewClient`. -/
structure Library (W : Type) where
  NewTCPClientHandler : String → TCPClientHandler
  NewRTUClientHandler : String → RTUClientHandler
  ConnectTCP : TCPClientHandler → W → Option Error × W
  ConnectRTU : RTUClientHandler → W → Option Error × W
  CloseTCP : TCPClientHandler → W → Option Error × W
  CloseRTU : RTUClientHandler → W → Option Error × W
  NewClient : ClientHandler → Client W

/-- `modbusService`. -/
structure modbusService (W : Type) where
  Client : Client W
  handler : ClientHandler

/-- `Write` writes a value/s on Modbus. -/
def modbusService.Write {W : Type} (s : modbusService W) (address quantity : Nat)
    (value : Value) (iotype : dataPoint) (w : W) : (Bytes × Option Error) × W :=
  if iotype = Coil then
    match value with
    | Value.uint16 val => s.Client.WriteSingleCoil address val w
    | Value.bytes val => s.Client.WriteMultipleCoils address quantity val w
    | Value.other _ => ((none, some errInvalidInput), w)
  else if iotype = Register then
    match value with
    | Value.uint16 val => s.Client.WriteSingleRegister address val w
    | Value.bytes val => s.Client.WriteMultipleRegisters address quantity val w
    | Value.other _ => ((none, some errInvalidInput), w)
  else ((none, some errInvalidInput), w)

/-- `Read` gets data from modbus. -/
def modbusService.Read {W : Type} (s : modbusService W) (address quantity : Nat)
    (iotype : dataPoint) (w : W) : (Bytes × Option Error) × W :=
  if iotype = Coil then s.Client.ReadCoils address quantity w
  else if iotype = Discrete then s.Client.ReadDiscreteInputs address quantity w
  else if iotype = FIFO then s.Client.ReadFIFOQueue address w
  else if iotype = HoldingRegister then s.Client.ReadHoldingRegisters address quantity w
  else if iotype = InputRegister then s.Client.ReadInputRegisters address quantity w
  else ((none, some errInvalidInput), w)

/-- `Close`, by the dynamic type of the stored handler. -/
def modbusService.Close {W : Type} (lib : Library W) (s : modbusService W) (w : W) :
    Option Error × W :=
  match s.handler with
  | ClientHandler.rtu h => lib.CloseRTU h w
  | ClientHandler.tcp h => lib.CloseTCP h w
  | _ => (none, w)

/-- The option block of `NewTCPClient`: each option that is not the zero
value of its type (`isZeroValue`) is copied into the handler. -/
def applyTCPOptions (config : TCPHandlerOptions) (handler : TCPClientHandler) :
    TCPClientHandler :=
  let h1 := if config.IdleTimeout ≠ 0 then { handler with IdleTimeout := config.IdleTimeout }
    else handler
  let h2 := if config.Logger ≠ none then { h1 with Logger := config.Logger } else h1
  let h3 := if config.SlaveId ≠ 0 then { h2 with SlaveId := config.SlaveId } else h2
  if config.Timeout ≠ 0 then { h3 with Timeout := config.Timeout } else h3

/-- `NewTCPClient`: connect, copy the non-zero options into the handler,
connect again, and keep the handler in the service. -/
def NewTCPClient {W : Type} (lib : Library W) (config : TCPHandlerOptions) (w : W) :
    (Option (modbusService W) × Option Error) × W :=
  match lib.ConnectTCP (lib.NewTCPClientHandler config.Address) w with
  | (some err, w1) => ((none, some err), w1)
  | (none, w1) =>
    match lib.ConnectTCP (applyTCPOptions config (lib.NewTCPClientHandler config.Address)) w1 with
    | (some err, w2) => ((none, some err), w2)
    | (none, w2) =>
      ((some ⟨lib.NewClient (ClientHandler.tcp
          (applyTCPOptions config (lib.NewTCPClientHandler config.Address))),
        ClientHandler.tcp (applyTCPOptions config (lib.NewTCPClientHandler config.Address))⟩,
        none), w2)

/-- The zero value of `serial.RS485Config`. -/
def RS485Config.zero : RS485Config := ⟨false, 0, 0, false, false, false⟩

/-- The zero value of `serial.Config`. -/
def SerialConfig.zero : SerialConfig := ⟨"", 0, 0, 0, "", 0, RS485Config.zero⟩

/-- The option block of `NewRTUClient`: each option that is not the zero
value of its type (`isZeroValue`) is copied into the handler, in the order of
the source. -/
def applyRTUOptions (config : RTUHandlerOptions) (handler : RTUClientHandler) :
    RTUClientHandler :=
  let h1 := if config.BaudRate ≠ 0 then
      { handler with Config := { handler.Config with BaudRate := config.BaudRate } }
    else handler
  let h2 := if config.Config ≠ SerialConfig.zero then { h1 with Config := config.Config }
    else h1
  let h3 := if config.DataBits ≠ 0 then
      { h2 with Config := { h2.Config with DataBits := config.DataBits } }
    else h2
  let h4 := if config.IdleTimeout ≠ 0 then { h3 with IdleTimeout := config.IdleTimeout }
    else h3
  let h5 := if config.Logger ≠ none then { h4 with Logger := config.Logger } else h4
  let h6 := if config.Parity ≠ "" then
      { h5 with Config := { h5.Config with Parity := config.Parity } }
    else h5
  let h7 := if config.RS485 ≠ RS485Config.zero then
      { h6 with Config := { h6.Config with RS485 := config.RS485 } }
    else h6
  let h8 := if config.SlaveId ≠ 0 then { h7 with SlaveId := config.SlaveId } else h7
  let h9 := if config.StopBits ≠ 0 then
      { h8 with Config := { h8.Config with StopBits := config.StopBits } }
    else h8
  if config.Timeout ≠ 0 then
    { h9 with Config := { h9.Config with Timeout := config.Timeout } }
  else h9

/-- `NewRTUClient`: connect, copy the non-zero options into the handler,
connect again; the service is built with its `Client` field only, so its
`handler` field is the nil interface. -/
def NewRTUClient {W : Type} (lib : Library W) (config : RTUHandlerOptions) (w : W) :
    (Option (modbusService W) × Option Error) × W :=
  match lib.ConnectRTU (lib.NewRTUClientHandler config.Address) w with
  | (some err, w1) => ((none, some err), w1)
  | (none, w1) =>
    match lib.ConnectRTU (applyRTUOptions config (lib.NewRTUClientHandler config.Address)) w1 with
    | (some err, w2) => ((none, some err), w2)
    | (none, w2) =>
      ((some ⟨lib.NewClient (ClientHandler.rtu
          (applyRTUOptions config (lib.NewRTUClientHandler config.Address))),
        ClientHandler.nil⟩, none), w2)

/-! ### Call recording -/

/-- One call made by the binding to the vendor library. -/
inductive LibCall where
  | readCoils (address quantity : Nat)
  | readDiscreteInputs (address quantity : Nat)
  | writeSingleCoil (address value : Nat)
  | writeMultipleCoils (address quantity : Nat) (value : List Nat)
  | readInputRegisters (address quantity : Nat)
  | readHoldingRegisters (address quantity : Nat)
  | writeSingleRegister (address value : Nat)
  | writeMultipleRegisters (address quantity : Nat) (value : List Nat)
  | readFIFOQueue (address : Nat)
  | connectTCP (h : TCPClientHandler)
  | connectRTU (h : RTUClientHandler)
  | closeTCP (h : TCPClientHandler)
  | closeRTU (h : RTUClientHandler)
deriving DecidableEq, Repr

/-- An operation that appends `c` to the log and otherwise behaves as `f`. -/
def logged {W α : Type} (c : LibCall) (f : W → α × W) (s : W × List LibCall) :
    α × (W × List LibCall) :=
  ((f s.1).1, ((f s.1).2, s.2 ++ [c]))

/-- A client that records its calls and otherwise behaves as `c`. -/
def recordingClient {W : Type} (c : Client W) : Client (W × List LibCall) where
  ReadCoils := fun a q => logged (LibCall.readCoils a q) (c.ReadCoils a q)
  ReadDiscreteInputs := fun a q => logged (LibCall.readDiscreteInputs a q) (c.ReadDiscreteInputs a q)
  WriteSingleCoil := fun a v => logged (LibCall.writeSingleCoil a v) (c.WriteSingleCoil a v)
  WriteMultipleCoils := fun a q v =>
    logged (LibCall.writeMultipleCoils a q v) (c.WriteMultipleCoils a q v)
  ReadInputRegisters := fun a q => logged (LibCall.readInputRegisters a q) (c.ReadInputRegisters a q)
  ReadHoldingRegisters := fun a q =>
    logged (LibCall.readHoldingRegisters a q) (c.ReadHoldingRegisters a q)
  WriteSingleRegister := fun a v => logged (LibCall.writeSingleRegister a v) (c.WriteSingleRegister a v)
  WriteMultipleRegisters := fun a q v =>
    logged (LibCall.writeMultipleRegisters a q v) (c.WriteMultipleRegisters a q v)
  ReadFIFOQueue := fun a => logged (LibCall.readFIFOQueue a) (c.ReadFIFOQueue a)

/-- A library that records its calls and otherwise behaves as `lib`. -/
def recordingLibrary {W : Type} (lib : Library W) : Library (W × List LibCall) where
  NewTCPClientHandler := lib.NewTCPClientHandler
  NewRTUClientHandler := lib.NewRTUClientHandler
  ConnectTCP := fun h => logged (LibCall.connectTCP h) (lib.ConnectTCP h)
  ConnectRTU := fun h => logged (LibCall.connectRTU h) (lib.ConnectRTU h)
  CloseTCP := fun h => logged (LibCall.closeTCP h) (lib.CloseTCP h)
  CloseRTU := fun h => logged (LibCall.closeRTU h) (lib.CloseRTU h)
  NewClient := fun h => recordingClient (lib.NewClient h)

/-- The calls that `Write` makes. -/
def writeCalls {W : Type} (c : Client W) (address quantity : Nat) (value : Value)
    (iotype : dataPoint) (w : W) : List LibCall :=
  ((modbusService.mk (recordingClient c) ClientHandler.nil).Write address quantity value iotype
    (w, [])).2.2

/-- The calls that `Read` makes. -/
def readCalls {W : Type} (c : Client W) (address quantity : Nat) (iotype : dataPoint) (w : W) :
    List LibCall :=
  ((modbusService.mk (recordingClient c) ClientHandler.nil).Read address quantity iotype
    (w, [])).2.2

/-- Build an RTU service and, when that succeeds, close it: the result of
`Close` and the world after it. -/
def rtuThenClose {W : Type} (lib : Library W) (config : RTUHandlerOptions) (w : W) :
    Option (Option Error × W) :=
  match NewRTUClient lib config w with
  | ((some s, _), w1) => some (s.Close lib w1)
  | ((none, _), _) => none

/-- Build a TCP service and, when that succeeds, close it: the result of
`Close` and the world after it. -/
def tcpThenClose {W : Type} (lib : Library W) (config : TCPHandlerOptions) (w : W) :
    Option (Option Error × W) :=
  match NewTCPClient lib config w with
  | ((some s, _), w1) => some (s.Close lib w1)
  | ((none, _), _) => none

/-- The library calls made by building an RTU service and closing it. -/
def rtuThenCloseCalls {W : Type} (lib : Library W) (config : RTUHandlerOptions) (w : W) :
    Option (List LibCall) :=
  (rtuThenClose (recordingLibrary lib) config (w, [])).map (fun r => r.2.2)

/-- The library calls made by building a TCP service and closing it. -/
def tcpThenCloseCalls {W : Type} (lib : Library W) (config : TCPHandlerOptions) (w : W) :
    Option (List LibCall) :=
  (tcpThenClose (recordingLibrary lib) config (w, [])).map (fun r => r.2.2)

/-- Whether a recorded call closes a handler. -/
def LibCall.isClose : LibCall → Bool
  | LibCall.closeTCP _ => true
  | LibCall.closeRTU _ => true
  | _ => false

/-- Options of an RTU client on a serial device, for concrete runs. -/
def rtuOptions : RTUHandlerOptions :=
  ⟨"/dev/ttyUSB0", 9600, SerialConfig.zero, 8, 0, none, "N", RS485Config.zero, 1, 1, 0⟩

/-- Options of a TCP client, for concrete runs. -/
def tcpOptions : TCPHandlerOptions := ⟨"localhost:502", 0, none, 1, 0⟩

/-- A client for concrete runs: every operation answers with the bytes of its
arguments and no error, and counts the operations in the world. -/
def echoClient : Client Nat where
  ReadCoils := fun a q w => ((some [1, a, q], none), w + 1)
  ReadDiscreteInputs := fun a q w => ((some [2, a, q], none), w + 1)
  WriteSingleCoil := fun a v w => ((some [5, a, v], none), w + 1)
  WriteMultipleCoils := fun a q v w => ((some (15 :: a :: q :: v), none), w + 1)
  ReadInputRegisters := fun a q w => ((some [4, a, q], none), w + 1)
  ReadHoldingRegisters := fun a q w => ((some [3, a, q], none), w + 1)
  WriteSingleRegister := fun a v w => ((some [6, a, v], none), w + 1)
  WriteMultipleRegisters := fun a q v w => ((some (16 :: a :: q :: v), none), w + 1)
  ReadFIFOQueue := fun a w => ((some [24, a], none), w + 1)

/-- A library for concrete runs: handlers start from the given address with
the library's default timeouts, `Connect` and `Close` succeed and count the
operations in the world. -/
def echoLibrary : Library Nat where
  NewTCPClientHandler := fun address => ⟨address, 10000000000, 60000000000, none, 0⟩
  NewRTUClientHandler := fun address =>
    ⟨{ SerialConfig.zero with Address := address, Timeout := 5000000000 }, none, 60000000000, 0⟩
  ConnectTCP := fun _ w => (none, w + 1)
  ConnectRTU := fun _ w => (none, w + 1)
  CloseTCP := fun _ w => (none, w + 1)
  CloseRTU := fun _ w => (none, w + 1)
  NewClient := fun _ => echoClient

end modbus

/-! ## users/clients: roles -/

namespace users

/-- `Role` represents Client role: a `uint8`. -/
abbrev Role := Nat

/-- `UserRole`, the first value of the enumeration. -/
def UserRole : Role := 0

/-- `AdminRole`, the second value of the enumeration. -/
def AdminRole : Role := 1

/-- `Admin`, the string representation of the admin role. -/
def Admin : String := "admin"

/-- `User`, the string representation of the user role. -/
def User : String := "user"

/-- Modelled from the spec: `mfclients.Unknown` of the package `pkg/clients`,
which is not among the source files. -/
def Unknown : String := "unknown"

/-- Modelled from the spec: `apiutil.ErrInvalidRole` of the package
`internal/apiutil`, which is not among the source files. -/
def ErrInvalidRole : Error := Error.plain "invalid client role"

/-- `String` converts client role to string literal. -/
def Role.String (cs : Role) : String :=
  if cs = AdminRole then Admin
  else if cs = UserRole then User
  else Unknown

/-- `ToRole` converts string value to a valid Client role. -/
def ToRole (status : String) : Role × Option Error :=
  if status = "" ∨ status = User then (UserRole, none)
  else if status = Admin then (AdminRole, none)
  else (0, some ErrInvalidRole)

end users

/-! ## things/clients: enabling and disabling -/

namespace clients

/-- `deleteRelationKey`. -/
def deleteRelationKey : String := "c_delete"

/-- Modelled from the spec: `EnabledStatus` of the package's status
enumeration, whose declaration is not among the source files: the first
value. -/
def EnabledStatus : Nat := 0

/-- Modelled from the spec: `DisabledStatus` of the package's status
enumeration, whose declaration is not among the source files: the second
value. -/
def DisabledStatus : Nat := 1

/-- Modelled from the spec: `ErrStatusAlreadyAssigned`, declared in a file of
the package that is not among the sources. -/
def ErrStatusAlreadyAssigned : Error := Error.plain "status already assigned"

/-- Modelled from the spec: `mferrors.ErrEnableClient` of the package
`internal/mainflux/clients`, which is not among the source files. -/
def ErrEnableClient : Error := Error.plain "failed to enable client"

/-- Modelled from the spec: `mferrors.ErrDisableClient` of the package
`internal/mainflux/clients`, which is not among the source files. -/
def ErrDisableClient : Error := Error.plain "failed to disable client"

/-- `func (svc service) changeClientStatus(ctx, token, client) (Client, error)`. -/
def policyService.changeClientStatus {W : Type} (svc : policyService W) (token : String)
    (client : Client) (w : W) : (Client × Option Error) × W :=
  match svc.identifyUser token w with
  | ((_, some err), w1) => ((Client.zero, some err), w1)
  | ((userID, none), w1) =>
    match svc.authorize token client.ID deleteRelationKey w1 with
    | (some err, w2) => ((Client.zero, some err), w2)
    | (none, w2) =>
      match svc.clients.RetrieveByID client.ID w2 with
      | ((_, some err), w3) => ((Client.zero, some err), w3)
      | ((dbClient, none), w3) =>
        if dbClient.Status = client.Status then
          ((Client.zero, some ErrStatusAlreadyAssigned), w3)
        else svc.clients.ChangeStatus { client with UpdatedBy := userID } w3

/-- `func (svc service) EnableClient(ctx, token, id) (Client, error)`; `now`
is the clock read by `time.Now()`. -/
def policyService.EnableClient {W : Type} (svc : policyService W) (now : W → Nat)
    (token id : String) (w : W) : (Client × Option Error) × W :=
  match svc.changeClientStatus token
      { Client.zero with ID := id, Status := EnabledStatus, UpdatedAt := now w } w with
  | ((_, some err), w1) => ((Client.zero, errors.Wrap (some ErrEnableClient) (some err)), w1)
  | ((client, none), w1) => ((client, none), w1)

/-- `func (svc service) DisableClient(ctx, token, id) (Client, error)`. -/
def policyService.DisableClient {W : Type} (svc : policyService W) (now : W → Nat)
    (token id : String) (w : W) : (Client × Option Error) × W :=
  match svc.changeClientStatus token
      { Client.zero with ID := id, Status := DisabledStatus, UpdatedAt := now w } w with
  | ((_, some err), w1) => ((Client.zero, errors.Wrap (some ErrDisableClient) (some err)), w1)
  | ((client, none), w1) => ((client, none), w1)

/-- Whether a recorded call is a `ChangeStatus`. -/
def AccessCall.isChangeStatus : AccessCall → Bool
  | AccessCall.changeStatus _ => true
  | _ => false

/-- The calls made by one run of `EnableClient`, in order. -/
def policyService.enableClientCalls {W : Type} (svc : policyService W) (now : W → Nat)
    (token id : String) (w : W) : List AccessCall :=
  (svc.recording.EnableClient (fun s => now s.1) token id (w, [])).2.2

/-- The calls made by one run of `DisableClient`, in order. -/
def policyService.disableClientCalls {W : Type} (svc : policyService W) (now : W → Nat)
    (token id : String) (w : W) : List AccessCall :=
  (svc.recording.DisableClient (fun s => now s.1) token id (w, [])).2.2

/-- Alice's thing, disabled. -/
def aliceDisabledThing : Client :=
  { Client.zero with ID := "thing-d", Owner := "alice", Status := DisabledStatus }

/-- The service of the concrete runs over an enabled and a disabled thing of
alice. -/
def memStatusService : policyService Unit :=
  ⟨memUsers, memThings [aliceThing, aliceDisabledThing]⟩

end clients

/-! ## modbus: the write value -/

namespace modbus

/-- `json.Unmarshal` of the standard library at the two types that
`UnmarshalJSON` decodes into: a `uint16` and a `[]byte`. -/
structure Decoder where
  unmarshalUint16 : String → Nat × Option Error
  unmarshalBytes : String → List Nat × Option Error

/-- `ValueWrapper`. -/
structure ValueWrapper where
  Data : Value
deriving DecidableEq, Repr

/-- `RWOptions`. -/
structure RWOptions where
  Address : Nat
  Quantity : Nat
  Value : ValueWrapper
deriving DecidableEq, Repr

/-- The error of `UnmarshalJSON`, `fmt.Errorf("unable to unmarshal Value")`. -/
def errUnmarshalValue : Error := Error.plain "unable to unmarshal Value"

/-- `func (vw *ValueWrapper) UnmarshalJSON(data []byte) error`: the wrapper
after the call, and the error. -/
def ValueWrapper.UnmarshalJSON (j : Decoder) (vw : ValueWrapper) (data : String) :
    ValueWrapper × Option Error :=
  match j.unmarshalUint16 data with
  | (num, none) => (⟨Value.uint16 num⟩, none)
  | (_, some _) =>
    match j.unmarshalBytes data with
    | (byteArray, none) => (⟨Value.bytes byteArray⟩, none)
    | (_, some _) => (vw, some errUnmarshalValue)

/-- A decoder for concrete runs, given by the inputs it accepts at each
type. -/
def tableDecoder (numbers : List (String × Nat)) (byteArrays : List (String × List Nat)) :
    Decoder where
  unmarshalUint16 := fun data =>
    match numbers.lookup data with
    | some n => (n, none)
    | none => (0, some (Error.plain "json: cannot unmarshal into Go value of type uint16"))
  unmarshalBytes := fun data =>
    match byteArrays.lookup data with
    | some b => (b, none)
    | none => ([], some (Error.plain "json: cannot unmarshal into Go value of type []uint8"))

/-- The decoder of the concrete runs: the numbers 255 and 0, the latter also
written null, and the base64 strings of the bytes 1, 2 and of no bytes, null
being also a byte sequence. -/
def memDecoder : Decoder :=
  tableDecoder [("255", 255), ("0", 0), ("null", 0)]
    [("\"AQI=\"", [1, 2]), ("\"\"", []), ("null", [])]

end modbus

/-! ## things/groups: the repository test double -/

namespace groups

/-- Modelled from the spec: the groups' `Page`, whose declaration is not
among the source files: page metadata. -/
structure Page where
  Total : Nat
  Offset : Nat
  Limit : Nat
deriving DecidableEq, Repr

/-- `Group` represents the group of Clients; the children are kept by their
ids, the metadata as its JSON text, times as instants. -/
structure Group where
  ID : String
  Owner : String
  Parent : String
  Name : String
  Description : String
  Metadata : Option String
  Level : Int
  Path : String
  Children : List String
  CreatedAt : Nat
  UpdatedAt : Nat
  UpdatedBy : String
  Status : Nat
deriving DecidableEq, Repr

/-- The zero value `Group{}`. -/
def Group.zero : Group := ⟨"", "", "", "", "", none, 0, "", [], 0, 0, "", 0⟩

/-- `MembershipsPage` contains page related metadata as well as list of
memberships that belong to this page. -/
structure MembershipsPage where
  Page : Page
  Memberships : List Group
deriving DecidableEq, Repr

/-- `GroupsPage` contains page related metadata as well as list of Groups
that belong to the page. -/
structure GroupsPage where
  Page : Page
  Path : String
  Level : Nat
  ID : String
  Direction : Int
  Groups : List Group
deriving DecidableEq, Repr

/-- The zero value `MembershipsPage{}`. -/
def MembershipsPage.zero : MembershipsPage := ⟨⟨0, 0, 0⟩, []⟩

/-- Modelled from the spec: `mainflux.EnabledStatus` of the package
`internal/mainflux`, which is not among the source files: the first value of
the status enumeration. -/
def EnabledStatus : Nat := 0

/-- Modelled from the spec: `mainflux.DisabledStatus` of the package
`internal/mainflux`, which is not among the source files: the second value of
the status enumeration. -/
def DisabledStatus : Nat := 1

end groups

namespace mocks

open groups

/-- `WrongID`. -/
def WrongID : String := "wrongID"

/-- A call of a method of the test double, as `m.Called` receives it. -/
inductive MockCall where
  | changeStatus (group : Group)
  | memberships (clientID : String) (gm : GroupsPage)
  | retrieveAll (gm : GroupsPage)
  | retrieveByID (id : String)
  | save (g : Group)
  | update (g : Group)
deriving DecidableEq, Repr

/-- A value configured on the mock as a return value, by its dynamic type. -/
inductive RetValue where
  | group (g : Group)
  | membershipsPage (p : MembershipsPage)
  | groupsPage (p : GroupsPage)
  | err (e : Error)
  | nil
  | other (typeName : String)
deriving DecidableEq, Repr

/-- `mock.Arguments` of the testify library: the configured return values. -/
abbrev Arguments := List RetValue

/-- An error as a configured return value. -/
def RetValue.ofError : Option Error → RetValue
  | none => RetValue.nil
  | some e => RetValue.err e

/-- `ret.Get(i).(mfgroups.Group)`; `none` is a panic: no value at the index,
or a value of another type. -/
def getGroup (ret : Arguments) (i : Nat) : Option Group :=
  match ret.get? i with
  | some (RetValue.group g) => some g
  | _ => none

/-- `ret.Get(i).(groups.MembershipsPage)`; `none` is a panic. -/
def getMembershipsPage (ret : Arguments) (i : Nat) : Option MembershipsPage :=
  match ret.get? i with
  | some (RetValue.membershipsPage p) => some p
  | _ => none

/-- `ret.Get(i).(groups.GroupsPage)`; `none` is a panic. -/
def getGroupsPage (ret : Arguments) (i : Nat) : Option GroupsPage :=
  match ret.get? i with
  | some (RetValue.groupsPage p) => some p
  | _ => none

/-- `ret.Error(i)` of the testify library: nil for a nil value, the error
for an error; `none` is a panic: no value at the index, or a value that is
not an error. -/
def getError (ret : Arguments) (i : Nat) : Option (Option Error) :=
  match ret.get? i with
  | some RetValue.nil => some none
  | some (RetValue.err e) => some (some e)
  | _ => none

/-- `GroupRepository`: the embedded `mock.Mock` is given by its `Called`,
which records the call and gives the return values configured for it, or
panics (`none`) when none are. -/
structure GroupRepository (W : Type) where
  Called : MockCall → W → Option Arguments × W

/-- The two results of a method, from the typed value and the error read off
the configured return values; a panic in either is a panic. -/
def results {α : Type} (v : Option α) (e : Option (Option Error)) : Option (α × Option Error) :=
  match v, e with
  | some a, some err => some (a, err)
  | _, _ => none

/-- `func (m *GroupRepository) ChangeStatus(ctx, group) (mfgroups.Group, error)`. -/
def GroupRepository.ChangeStatus {W : Type} (m : GroupRepository W) (group : Group) (w : W) :
    Option (Group × Option Error) × W :=
  match m.Called (MockCall.changeStatus group) w with
  | (none, w1) => (none, w1)
  | (some ret, w1) =>
    if group.ID = WrongID then (some (Group.zero, some errors.ErrNotFound), w1)
    else if group.Status ≠ EnabledStatus ∧ group.Status ≠ DisabledStatus then
      (some (Group.zero, some errors.ErrMalformedEntity), w1)
    else (results (getGroup ret 0) (getError ret 1), w1)

/-- `func (m *GroupRepository) Memberships(ctx, clientID, gm)
(groups.MembershipsPage, error)`. -/
def GroupRepository.Memberships {W : Type} (m : GroupRepository W) (clientID : String)
    (gm : GroupsPage) (w : W) : Option (MembershipsPage × Option Error) × W :=
  match m.Called (MockCall.memberships clientID gm) w with
  | (none, w1) => (none, w1)
  | (some ret, w1) =>
    if clientID = WrongID then (some (MembershipsPage.zero, some errors.ErrNotFound), w1)
    else (results (getMembershipsPage ret 0) (getError ret 1), w1)

/-- `func (m *GroupRepository) RetrieveAll(ctx, gm) (groups.GroupsPage, error)`. -/
def GroupRepository.RetrieveAll {W : Type} (m : GroupRepository W) (gm : GroupsPage) (w : W) :
    Option (GroupsPage × Option Error) × W :=
  match m.Called (MockCall.retrieveAll gm) w with
  | (none, w1) => (none, w1)
  | (some ret, w1) => (results (getGroupsPage ret 0) (getError ret 1), w1)

/-- `func (m *GroupRepository) RetrieveByID(ctx, id) (mfgroups.Group, error)`. -/
def GroupRepository.RetrieveByID {W : Type} (m : GroupRepository W) (id : String) (w : W) :
    Option (Group × Option Error) × W :=
  match m.Called (MockCall.retrieveByID id) w with
  | (none, w1) => (none, w1)
  | (some ret, w1) =>
    if id = WrongID then (some (Group.zero, some errors.ErrNotFound), w1)
    else (results (getGroup ret 0) (getError ret 1), w1)

/-- `func (m *GroupRepository) Save(ctx, g) (mfgroups.Group, error)`. -/
def GroupRepository.Save {W : Type} (m : GroupRepository W) (g : Group) (w : W) :
    Option (Group × Option Error) × W :=
  match m.Called (MockCall.save g) w with
  | (none, w1) => (none, w1)
  | (some ret, w1) =>
    if g.Parent = WrongID then (some (Group.zero, some errors.ErrCreateEntity), w1)
    else if g.Owner = WrongID then (some (Group.zero, some errors.ErrCreateEntity), w1)
    else (results (some g) (getError ret 1), w1)

/-- `func (m *GroupRepository) Update(ctx, g) (mfgroups.Group, error)`. -/
def GroupRepository.Update {W : Type} (m : GroupRepository W) (g : Group) (w : W) :
    Option (Group × Option Error) × W :=
  match m.Called (MockCall.update g) w with
  | (none, w1) => (none, w1)
  | (some ret, w1) =>
    if g.ID = WrongID then (some (Group.zero, some errors.ErrNotFound), w1)
    else (results (getGroup ret 0) (getError ret 1), w1)

/-- A mock for concrete runs: `On(method, mock.Anything).Return(values)` for
each method in the table; the world is the list of the recorded calls. -/
def anythingMock (onRetrieveByID onUpdate onChangeStatus onMemberships : Option Arguments) :
    GroupRepository (List MockCall) where
  Called := fun c w =>
    match c with
    | MockCall.retrieveByID _ => (onRetrieveByID, w ++ [c])
    | MockCall.update _ => (onUpdate, w ++ [c])
    | MockCall.changeStatus _ => (onChangeStatus, w ++ [c])
    | MockCall.memberships _ _ => (onMemberships, w ++ [c])
    | _ => (none, w ++ [c])

/-- A group for concrete runs. -/
def someGroup : Group := { Group.zero with ID := "group-1", Name := "temperature" }

end mocks

open clients postgres coap metrics api main mqtt

/-! ## Theorems: Identify -/

/-- C1: on a cache hit `Identify` returns the cached id with a nil error, and
the only call it makes is the cache lookup: neither `RetrieveBySecret` nor
`Save` is called. -/
theorem identify_cache_hit {W : Type} (svc : service W) (key id : String) (w : W)
    (hit : (svc.clientCache.ID key w).1 = (id, none)) :
    (svc.Identify key w).1 = (id, none) ∧
    svc.identifyCalls key w = [Call.cacheID key] ∧
    (∀ k, Call.retrieveBySecret k ∉ svc.identifyCalls key w) ∧
    (∀ k v, Call.cacheSave k v ∉ svc.identifyCalls key w) := by
  have h1 : (svc.Identify key w).1 = (id, none) := by
    unfold service.Identify
    rcases h : svc.clientCache.ID key w with ⟨⟨i, e⟩, w1⟩
    rw [h] at hit
    cases hit
    rfl
  have h2 : svc.identifyCalls key w = [Call.cacheID key] := by
    unfold service.identifyCalls service.Identify
    simp only [service.recording, ClientCache.recording]
    rw [hit]
    rfl
  refine ⟨h1, h2, ?_, ?_⟩
  · intro k; rw [h2]; simp
  · intro k v; rw [h2]; simp

/-- Witness of C1: a hit on the entry ("abc123", "thing-1"). -/
theorem identify_cache_hit_witness :
    (memService.Identify "abc123" ⟨[("abc123", "thing-1")], true⟩).1 = ("thing-1", none) ∧
    memService.identifyCalls "abc123" ⟨[("abc123", "thing-1")], true⟩ = [Call.cacheID "abc123"] ∧
    (∀ k, Call.retrieveBySecret k ∉ memService.identifyCalls "abc123" ⟨[("abc123", "thing-1")], true⟩) ∧
    (∀ k v, Call.cacheSave k v ∉ memService.identifyCalls "abc123" ⟨[("abc123", "thing-1")], true⟩) :=
  identify_cache_hit memService "abc123" "thing-1" ⟨[("abc123", "thing-1")], true⟩ (by decide)

/-- Result and calls of `Identify` on a cache hit. -/
lemma identify_run_hit {W : Type} (svc : service W) (key id : String) (w w1 : W)
    (h : svc.clientCache.ID key w = ((id, none), w1)) :
    svc.Identify key w = ((id, none), w1) ∧ svc.identifyCalls key w = [Call.cacheID key] := by
  constructor
  · simp [service.Identify, h]
  · simp [service.identifyCalls, service.Identify, service.recording, ClientCache.recording, h]

/-- Result and calls of `Identify` when the cache lookup and the store lookup fail. -/
lemma identify_run_store_failure {W : Type} (svc : service W) (key id : String) (w w1 w2 : W)
    (e0 e : Error) (c : Client)
    (h : svc.clientCache.ID key w = ((id, some e0), w1))
    (hr : svc.clients.RetrieveBySecret key w1 = ((c, some e), w2)) :
    svc.Identify key w = (("", some e), w2) ∧
    svc.identifyCalls key w = [Call.cacheID key, Call.retrieveBySecret key] := by
  constructor
  · simp [service.Identify, h, hr]
  · simp [service.identifyCalls, service.Identify, service.recording, ClientCache.recording,
      Repository.recording, h, hr]

/-- Result and calls of `Identify` when the cache lookup fails and the store lookup succeeds. -/
lemma identify_run_store_success {W : Type} (svc : service W) (key id : String) (w w1 w2 w3 : W)
    (e0 : Error) (c : Client) (r : Option Error)
    (h : svc.clientCache.ID key w = ((id, some e0), w1))
    (hr : svc.clients.RetrieveBySecret key w1 = ((c, none), w2))
    (hs : svc.clientCache.Save key c.ID w2 = (r, w3)) :
    svc.Identify key w = ((if r = none then c.ID else "", r), w3) ∧
    svc.identifyCalls key w =
      [Call.cacheID key, Call.retrieveBySecret key, Call.cacheSave key c.ID] := by
  cases r <;>
  · constructor
    · simp [service.Identify, h, hr, hs]
    · simp [service.identifyCalls, service.Identify, service.recording, ClientCache.recording,
        Repository.recording, h, hr, hs]

/-- C2: when the cache lookup fails and the store lookup fails with error `e`,
`Identify` returns the empty identity together with that non-nil error. -/
theorem identify_fail_closed {W : Type} (svc : service W) (key : String) (w : W)
    (e0 e : Error)
    (miss : (svc.clientCache.ID key w).1.2 = some e0)
    (fail : (svc.clients.RetrieveBySecret key (svc.clientCache.ID key w).2).1.2 = some e) :
    (svc.Identify key w).1 = ("", some e) ∧
    (svc.Identify key w).1.1 = "" ∧ (svc.Identify key w).1.2 ≠ none := by
  rcases h : svc.clientCache.ID key w with ⟨⟨i, r⟩, w1⟩
  rw [h] at miss fail
  simp only at miss fail
  subst miss
  rcases hr : svc.clients.RetrieveBySecret key w1 with ⟨⟨c, r2⟩, w2⟩
  rw [hr] at fail
  simp only at fail
  subst fail
  have := (identify_run_store_failure svc key i w w1 w2 e0 e c h hr).1
  rw [this]
  simp

/-- Witness of C2: the secret "nope" is in neither the cache nor the store. -/
theorem identify_fail_closed_witness :
    (memService.Identify "nope" ⟨[], true⟩).1
      = ("", some (Error.wrapped "entity not found" (Error.plain "sql: no rows in result set"))) ∧
    (memService.Identify "nope" ⟨[], true⟩).1.1 = "" ∧
    (memService.Identify "nope" ⟨[], true⟩).1.2 ≠ none :=
  identify_fail_closed memService "nope" ⟨[], true⟩ errors.ErrNotFound
    (Error.wrapped "entity not found" (Error.plain "sql: no rows in result set"))
    (by decide) (by decide)

/-- C3, as stated, fails: with an empty cache whose backend rejects writes and
a store that resolves "abc123" to `thing1`, the cache lookup fails, the store
lookup succeeds, the cache write fails, and `Identify` returns the empty
identity with the write's error instead of "thing-1". -/
theorem identify_save_failure_counterexample :
    (memService.clientCache.ID "abc123" ⟨[], false⟩).1.2 ≠ none ∧
    (memService.clients.RetrieveBySecret "abc123" ⟨[], false⟩).1 = (thing1, none) ∧
    (memService.clientCache.Save "abc123" thing1.ID ⟨[], false⟩).1
      = some (Error.plain "cache unavailable") ∧
    (memService.Identify "abc123" ⟨[], false⟩).1 = ("", some (Error.plain "cache unavailable")) ∧
    (memService.Identify "abc123" ⟨[], false⟩).1 ≠ (thing1.ID, none) := by
  decide

/-- C3, amended: when the cache lookup fails with any error and the store
lookup succeeds with client `c`, `Identify` returns `c.ID` with a nil error if
the cache write succeeds, and the empty identity with the write's error if the
write fails; so in that case it returns an error exactly when the write failed. -/
theorem identify_store_success {W : Type} (svc : service W) (key : String) (w : W)
    (e0 : Error) (c : Client)
    (miss : (svc.clientCache.ID key w).1.2 = some e0)
    (found : (svc.clients.RetrieveBySecret key (svc.clientCache.ID key w).2).1 = (c, none)) :
    ((svc.clientCache.Save key c.ID
        (svc.clients.RetrieveBySecret key (svc.clientCache.ID key w).2).2).1 = none →
      (svc.Identify key w).1 = (c.ID, none)) ∧
    (∀ e, (svc.clientCache.Save key c.ID
        (svc.clients.RetrieveBySecret key (svc.clientCache.ID key w).2).2).1 = some e →
      (svc.Identify key w).1 = ("", some e)) ∧
    ((svc.Identify key w).1.2 ≠ none ↔
      (svc.clientCache.Save key c.ID
        (svc.clients.RetrieveBySecret key (svc.clientCache.ID key w).2).2).1 ≠ none) := by
  rcases h : svc.clientCache.ID key w with ⟨⟨i, r⟩, w1⟩
  rw [h] at miss found
  simp only at miss found
  subst miss
  rcases hr : svc.clients.RetrieveBySecret key w1 with ⟨⟨c2, r2⟩, w2⟩
  rw [hr] at found
  simp only [Prod.mk.injEq] at found
  obtain ⟨rfl, rfl⟩ := found
  rcases hs : svc.clientCache.Save key c2.ID w2 with ⟨r3, w3⟩
  have := (identify_run_store_success svc key i w w1 w2 w3 e0 c2 r3 h hr hs).1
  rw [this]
  cases r3 <;> simp

/-- Witness of C3 amended: scenario 1, the first lookup of "abc123" with a
writable cache. -/
theorem identify_store_success_witness :
    ((memService.clientCache.Save "abc123" thing1.ID
        (memService.clients.RetrieveBySecret "abc123"
          (memService.clientCache.ID "abc123" ⟨[], true⟩).2).2).1 = none →
      (memService.Identify "abc123" ⟨[], true⟩).1 = (thing1.ID, none)) ∧
    (∀ e, (memService.clientCache.Save "abc123" thing1.ID
        (memService.clients.RetrieveBySecret "abc123"
          (memService.clientCache.ID "abc123" ⟨[], true⟩).2).2).1 = some e →
      (memService.Identify "abc123" ⟨[], true⟩).1 = ("", some e)) ∧
    ((memService.Identify "abc123" ⟨[], true⟩).1.2 ≠ none ↔
      (memService.clientCache.Save "abc123" thing1.ID
        (memService.clients.RetrieveBySecret "abc123"
          (memService.clientCache.ID "abc123" ⟨[], true⟩).2).2).1 ≠ none) :=
  identify_store_success memService "abc123" ⟨[], true⟩ errors.ErrNotFound thing1
    (by decide) (by decide)

/-- C4: in every run of `Identify` the cache is written at most once; a write
happens only when the cache lookup failed and the store lookup succeeded with
some client `c`, it comes after that lookup and carries exactly `(key, c.ID)`;
a run that hits the cache, or whose store lookup fails, writes nothing. -/
theorem identify_save_discipline {W : Type} (svc : service W) (key : String) (w : W) :
    (svc.identifyCalls key w).countP Call.isSave ≤ 1 ∧
    (∀ k v, Call.cacheSave k v ∈ svc.identifyCalls key w →
      (svc.clientCache.ID key w).1.2 ≠ none ∧
      ∃ c, (svc.clients.RetrieveBySecret key (svc.clientCache.ID key w).2).1 = (c, none) ∧
        k = key ∧ v = c.ID ∧
        svc.identifyCalls key w
          = [Call.cacheID key, Call.retrieveBySecret key, Call.cacheSave key c.ID]) ∧
    ((svc.clientCache.ID key w).1.2 = none →
      ∀ k v, Call.cacheSave k v ∉ svc.identifyCalls key w) ∧
    ((svc.clients.RetrieveBySecret key (svc.clientCache.ID key w).2).1.2 ≠ none →
      ∀ k v, Call.cacheSave k v ∉ svc.identifyCalls key w) := by
  rcases h : svc.clientCache.ID key w with ⟨⟨i, r⟩, w1⟩
  cases r with
  | none =>
    have hc := (identify_run_hit svc key i w w1 h).2
    rw [hc]
    simp [Call.isSave]
  | some e0 =>
    rcases hr : svc.clients.RetrieveBySecret key w1 with ⟨⟨c, r2⟩, w2⟩
    cases r2 with
    | some e =>
      have hc := (identify_run_store_failure svc key i w w1 w2 e0 e c h hr).2
      rw [hc]
      simp [Call.isSave]
    | none =>
      rcases hs : svc.clientCache.Save key c.ID w2 with ⟨r3, w3⟩
      have hc := (identify_run_store_success svc key i w w1 w2 w3 e0 c r3 h hr hs).2
      rw [hc]
      simp [Call.isSave]

/-- C5: if a first `Identify` of `key` misses the cache, the store resolves
the key to client `c`, the cache write succeeds, and the written entry is
still valid (a lookup in the resulting cache yields it), then the first run
returns `c.ID`, and a second run from the resulting world returns the same
`c.ID` making the cache lookup as its only call: no `RetrieveBySecret`. -/
theorem identify_second_call_cached {W : Type} (svc : service W) (key : String) (w : W)
    (e0 : Error) (c : Client)
    (miss : (svc.clientCache.ID key w).1.2 = some e0)
    (found : (svc.clients.RetrieveBySecret key (svc.clientCache.ID key w).2).1 = (c, none))
    (saved : (svc.clientCache.Save key c.ID
        (svc.clients.RetrieveBySecret key (svc.clientCache.ID key w).2).2).1 = none)
    (valid : (svc.clientCache.ID key (svc.clientCache.Save key c.ID
        (svc.clients.RetrieveBySecret key (svc.clientCache.ID key w).2).2).2).1 = (c.ID, none)) :
    (svc.Identify key w).1 = (c.ID, none) ∧
    (svc.Identify key (svc.Identify key w).2).1 = (c.ID, none) ∧
    svc.identifyCalls key (svc.Identify key w).2 = [Call.cacheID key] ∧
    (∀ k, Call.retrieveBySecret k ∉ svc.identifyCalls key (svc.Identify key w).2) := by
  rcases h : svc.clientCache.ID key w with ⟨⟨i, r⟩, w1⟩
  rw [h] at miss found saved valid
  simp only at miss found saved valid
  subst miss
  rcases hr : svc.clients.RetrieveBySecret key w1 with ⟨⟨c2, r2⟩, w2⟩
  rw [hr] at found saved valid
  simp only [Prod.mk.injEq] at found saved valid
  obtain ⟨rfl, rfl⟩ := found
  rcases hs : svc.clientCache.Save key c2.ID w2 with ⟨r3, w3⟩
  rw [hs] at saved valid
  simp only at saved valid
  subst saved
  have h1 := (identify_run_store_success svc key i w w1 w2 w3 e0 c2 none h hr hs).1
  rw [h1]
  rcases h2 : svc.clientCache.ID key w3 with ⟨⟨j, r4⟩, w4⟩
  rw [h2] at valid
  simp only [Prod.mk.injEq] at valid
  obtain ⟨rfl, rfl⟩ := valid
  have h3 := identify_run_hit svc key c2.ID w3 w4 h2
  simp only [if_true]
  rw [h3.1, h3.2]
  simp

/-- Witness of C5: scenario 1, "abc123" resolved to "thing-1" and looked up again. -/
theorem identify_second_call_cached_witness :
    (memService.Identify "abc123" ⟨[], true⟩).1 = (thing1.ID, none) ∧
    (memService.Identify "abc123" (memService.Identify "abc123" ⟨[], true⟩).2).1
      = (thing1.ID, none) ∧
    memService.identifyCalls "abc123" (memService.Identify "abc123" ⟨[], true⟩).2
      = [Call.cacheID "abc123"] ∧
    (∀ k, Call.retrieveBySecret k ∉
      memService.identifyCalls "abc123" (memService.Identify "abc123" ⟨[], true⟩).2) :=
  identify_second_call_cached memService "abc123" ⟨[], true⟩ errors.ErrNotFound thing1
    (by decide) (by decide) (by decide) (by decide)

/-! ## Theorems: the identity store's errors -/

/-- C6, as stated, fails: with an empty cache and an unreachable database the
query error is not `sql.ErrNoRows`, and the error that `RetrieveBySecret`
produces and `Identify` returns is that error under `ErrViewEntity`; it does
not contain `ErrNotFound`. -/
theorem identify_unreachable_store_counterexample :
    ((pgService [] false).clientCache.ID "abc123" ⟨[], true⟩).1.2 ≠ none ∧
    ((pgService [] false).Identify "abc123" ⟨[], true⟩).1
      = ("", some (Error.wrapped "view entity failed"
          (Error.plain "dial tcp: connection refused"))) ∧
    errors.Contains ((pgService [] false).Identify "abc123" ⟨[], true⟩).1.2
      (some errors.ErrNotFound) = false := by
  decide

/-- C6, amended: when the cache lookup fails and the store's query fails with
`err`, `Identify` returns the empty identity with exactly the error that
`RetrieveBySecret` produces; for `sql.ErrNoRows` that error is `err` under
`ErrNotFound` and contains `ErrNotFound`, for any other query error it is
`err` under `ErrViewEntity` and contains `ErrViewEntity`. -/
theorem identify_store_error_kind {W : Type} (cache : ClientCache W) (repo : clientRepo W)
    (x : Externals) (key : String) (w : W) (e0 err : Error)
    (miss : (cache.ID key w).1.2 = some e0)
    (qfail : (repo.db.QueryRowxContext (retrieveBySecretQuery x) key
        { dbClient.zero with Secret := key } (cache.ID key w).2).1.2 = some err) :
    ((service.mk (repo.toRepository x) cache).Identify key w).1
      = ("", (repo.RetrieveBySecret x key (cache.ID key w).2).1.2) ∧
    (err = sqlErrNoRows →
      ((service.mk (repo.toRepository x) cache).Identify key w).1
        = ("", some (Error.wrapped errors.ErrNotFound.Msg err)) ∧
      errors.Contains ((service.mk (repo.toRepository x) cache).Identify key w).1.2
        (some errors.ErrNotFound) = true) ∧
    (err ≠ sqlErrNoRows →
      ((service.mk (repo.toRepository x) cache).Identify key w).1
        = ("", some (Error.wrapped errors.ErrViewEntity.Msg err)) ∧
      errors.Contains ((service.mk (repo.toRepository x) cache).Identify key w).1.2
        (some errors.ErrViewEntity) = true) := by
  rcases h : cache.ID key w with ⟨⟨i, r⟩, w1⟩
  rw [h] at miss qfail
  simp only at miss qfail
  subst miss
  rcases hq : repo.db.QueryRowxContext (retrieveBySecretQuery x) key
      { dbClient.zero with Secret := key } w1 with ⟨⟨d, r2⟩, w2⟩
  rw [hq] at qfail
  simp only at qfail
  subst qfail
  by_cases hn : err = sqlErrNoRows
  · have hr : (repo.toRepository x).RetrieveBySecret key w1
        = ((Client.zero, some (Error.wrapped errors.ErrNotFound.Msg err)), w2) := by
      simp [clientRepo.toRepository, clientRepo.RetrieveBySecret, hq, hn, errors.Wrap]
    have hi := (identify_run_store_failure (service.mk (repo.toRepository x) cache) key i w w1 w2
      e0 _ Client.zero h hr).1
    have hr2 : repo.RetrieveBySecret x key w1
        = ((Client.zero, some (Error.wrapped errors.ErrNotFound.Msg err)), w2) := hr
    rw [hi, hr2]
    simp [hn, errors.Contains, errors.containsMsg, errors.ErrNotFound, Error.Msg]
  · have hr : (repo.toRepository x).RetrieveBySecret key w1
        = ((Client.zero, some (Error.wrapped errors.ErrViewEntity.Msg err)), w2) := by
      simp [clientRepo.toRepository, clientRepo.RetrieveBySecret, hq, hn, errors.Wrap]
    have hi := (identify_run_store_failure (service.mk (repo.toRepository x) cache) key i w w1 w2
      e0 _ Client.zero h hr).1
    have hr2 : repo.RetrieveBySecret x key w1
        = ((Client.zero, some (Error.wrapped errors.ErrViewEntity.Msg err)), w2) := hr
    rw [hi, hr2]
    simp [hn, errors.Contains, errors.containsMsg, errors.ErrViewEntity, Error.Msg]

/-- Witness of C6 amended: an empty cache and a reachable database with no
enabled client for the secret. -/
theorem identify_store_error_kind_witness :
    ((service.mk ((clientRepo.mk (memDatabase [] true)).toRepository memExternals)
        memCache).Identify "abc123" ⟨[], true⟩).1
      = ("", ((clientRepo.mk (memDatabase [] true)).RetrieveBySecret memExternals "abc123"
          (memCache.ID "abc123" ⟨[], true⟩).2).1.2) ∧
    (sqlErrNoRows = sqlErrNoRows →
      ((service.mk ((clientRepo.mk (memDatabase [] true)).toRepository memExternals)
          memCache).Identify "abc123" ⟨[], true⟩).1
        = ("", some (Error.wrapped errors.ErrNotFound.Msg sqlErrNoRows)) ∧
      errors.Contains ((service.mk ((clientRepo.mk (memDatabase [] true)).toRepository
          memExternals) memCache).Identify "abc123" ⟨[], true⟩).1.2
        (some errors.ErrNotFound) = true) ∧
    (sqlErrNoRows ≠ sqlErrNoRows →
      ((service.mk ((clientRepo.mk (memDatabase [] true)).toRepository memExternals)
          memCache).Identify "abc123" ⟨[], true⟩).1
        = ("", some (Error.wrapped errors.ErrViewEntity.Msg sqlErrNoRows)) ∧
      errors.Contains ((service.mk ((clientRepo.mk (memDatabase [] true)).toRepository
          memExternals) memCache).Identify "abc123" ⟨[], true⟩).1.2
        (some errors.ErrViewEntity) = true) :=
  identify_store_error_kind memCache (clientRepo.mk (memDatabase [] true)) memExternals
    "abc123" ⟨[], true⟩ errors.ErrNotFound sqlErrNoRows (by decide) (by decide)

/-! ## Theorems: the metrics decorator -/

/-- A chain with one more layer is the decorator around the shorter chain. -/
lemma chain_cons {W κ : Type} (now : W → Int) (m : Counter W × Histogram W)
    (layers : List (Counter W × Histogram W)) (svc : Service W κ) :
    chain now (m :: layers) svc = MetricsMiddleware now (chain now layers svc) m.1 m.2 := rfl

/-- The error returned by a chain's `Subscribe` is the innermost service's. -/
lemma chain_subscribe_result {W κ : Type} (now : W → Int)
    (layers : List (Counter W × Histogram W)) (svc : Service W κ)
    (key chanID subtopic : String) (c : κ) (w : W) :
    ((chain now layers svc).Subscribe key chanID subtopic c w).1
      = (svc.Subscribe key chanID subtopic c w).1 := by
  induction layers with
  | nil => rfl
  | cons m ls ih =>
    rw [chain_cons]
    simpa [MetricsMiddleware, metricsMiddleware.Subscribe] using ih

/-- The error returned by a chain's `Unsubscribe` is the innermost service's. -/
lemma chain_unsubscribe_result {W κ : Type} (now : W → Int)
    (layers : List (Counter W × Histogram W)) (svc : Service W κ)
    (key chanID subtopic token : String) (w : W) :
    ((chain now layers svc).Unsubscribe key chanID subtopic token w).1
      = (svc.Unsubscribe key chanID subtopic token w).1 := by
  induction layers with
  | nil => rfl
  | cons m ls ih =>
    rw [chain_cons]
    simpa [MetricsMiddleware, metricsMiddleware.Unsubscribe] using ih

/-- A chain's `Subscribe` adds to the log of calls exactly one call of the
innermost service, with the arguments it was given. -/
lemma chain_subscribe_log {W κ : Type} (now : W → Int)
    (layers : List (Counter W × Histogram W)) (svc : Service W κ)
    (key chanID subtopic : String) (c : κ) (s : W × List (Event κ)) :
    ((chain (fun t => now t.1) (liftLayers κ layers) (recordingService svc)).Subscribe
        key chanID subtopic c s).2.2
      = s.2 ++ [Event.subscribe key chanID subtopic c] := by
  induction layers with
  | nil => rfl
  | cons m ls ih =>
    simp only [liftLayers, List.map_cons] at ih ⊢
    rw [chain_cons]
    simpa [MetricsMiddleware, metricsMiddleware.Subscribe, liftCounter, liftHistogram] using ih

/-- A chain's `Unsubscribe` adds to the log of calls exactly one call of the
innermost service, with the arguments it was given. -/
lemma chain_unsubscribe_log {W κ : Type} (now : W → Int)
    (layers : List (Counter W × Histogram W)) (svc : Service W κ)
    (key chanID subtopic token : String) (s : W × List (Event κ)) :
    ((chain (fun t => now t.1) (liftLayers κ layers) (recordingService svc)).Unsubscribe
        key chanID subtopic token s).2.2
      = s.2 ++ [Event.unsubscribe key chanID subtopic token] := by
  induction layers with
  | nil => rfl
  | cons m ls ih =>
    simp only [liftLayers, List.map_cons] at ih ⊢
    rw [chain_cons]
    simpa [MetricsMiddleware, metricsMiddleware.Unsubscribe, liftCounter, liftHistogram] using ih

/-- C7: the metrics decorator is transparent.  `Subscribe` and `Unsubscribe`
of `MetricsMiddleware svc counter latency` return exactly the error that the
wrapped method returns on the same arguments, and the wrapped service, when
it records its calls, is seen to be called exactly once, with the same
arguments in the same order; the same holds for a chain of any number of
decorators around the innermost service. -/
theorem metrics_decorator_transparent {W κ : Type} (now : W → Int) (svc : Service W κ)
    (counter : Counter W) (latency : Histogram W) (layers : List (Counter W × Histogram W))
    (key chanID subtopic token : String) (c : κ) (w : W) :
    ((MetricsMiddleware now svc counter latency).Subscribe key chanID subtopic c w).1
      = (svc.Subscribe key chanID subtopic c w).1 ∧
    ((MetricsMiddleware now svc counter latency).Unsubscribe key chanID subtopic token w).1
      = (svc.Unsubscribe key chanID subtopic token w).1 ∧
    ((MetricsMiddleware (fun t => now t.1) (recordingService svc) (liftCounter κ counter)
        (liftHistogram κ latency)).Subscribe key chanID subtopic c (w, [])).2.2
      = [Event.subscribe key chanID subtopic c] ∧
    ((MetricsMiddleware (fun t => now t.1) (recordingService svc) (liftCounter κ counter)
        (liftHistogram κ latency)).Unsubscribe key chanID subtopic token (w, [])).2.2
      = [Event.unsubscribe key chanID subtopic token] ∧
    ((chain now layers svc).Subscribe key chanID subtopic c w).1
      = (svc.Subscribe key chanID subtopic c w).1 ∧
    ((chain now layers svc).Unsubscribe key chanID subtopic token w).1
      = (svc.Unsubscribe key chanID subtopic token w).1 ∧
    ((chain (fun t => now t.1) (liftLayers κ layers) (recordingService svc)).Subscribe
        key chanID subtopic c (w, [])).2.2
      = [Event.subscribe key chanID subtopic c] ∧
    ((chain (fun t => now t.1) (liftLayers κ layers) (recordingService svc)).Unsubscribe
        key chanID subtopic token (w, [])).2.2
      = [Event.unsubscribe key chanID subtopic token] := by
  refine ⟨rfl, rfl, rfl, rfl, ?_, ?_, ?_, ?_⟩
  · exact chain_subscribe_result now layers svc key chanID subtopic c w
  · exact chain_unsubscribe_result now layers svc key chanID subtopic token w
  · simpa using chain_subscribe_log now layers svc key chanID subtopic c (w, [])
  · simpa using chain_unsubscribe_log now layers svc key chanID subtopic token (w, [])

/-- C8: with the wrapped service and both metrics recording into one log, a
call of `Subscribe` (resp. `Unsubscribe`) produces, in this order, the one
wrapped call, one `Add(1)` on the counter under method=subscribe (resp.
method=unsubscribe) and one latency observation under the same label, whatever
error the wrapped call returns; so the total added under that label is 1,
one observation is recorded under it, and nothing under any other label. -/
theorem metrics_recorded_once {W κ : Type} (now : W → Int) (svc : Service W κ)
    (counter : Counter W) (latency : Histogram W)
    (key chanID subtopic token : String) (c : κ) (w : W) (other : List String) :
    ((MetricsMiddleware (fun t => now t.1) (recordingService svc) (recordingCounter κ counter)
        (recordingHistogram κ latency)).Subscribe key chanID subtopic c (w, [])).2.2
      = [Event.subscribe key chanID subtopic c,
         Event.counterAdd ["method", "subscribe"] 1,
         Event.observe ["method", "subscribe"]
          (now (counter.Add ["method", "subscribe"] 1 (svc.Subscribe key chanID subtopic c w).2)
            - now w)] ∧
    ((MetricsMiddleware (fun t => now t.1) (recordingService svc) (recordingCounter κ counter)
        (recordingHistogram κ latency)).Unsubscribe key chanID subtopic token (w, [])).2.2
      = [Event.unsubscribe key chanID subtopic token,
         Event.counterAdd ["method", "unsubscribe"] 1,
         Event.observe ["method", "unsubscribe"]
          (now (counter.Add ["method", "unsubscribe"] 1
            (svc.Unsubscribe key chanID subtopic token w).2) - now w)] ∧
    addedTo ["method", "subscribe"]
      ((MetricsMiddleware (fun t => now t.1) (recordingService svc) (recordingCounter κ counter)
        (recordingHistogram κ latency)).Subscribe key chanID subtopic c (w, [])).2.2 = 1 ∧
    observedUnder ["method", "subscribe"]
      ((MetricsMiddleware (fun t => now t.1) (recordingService svc) (recordingCounter κ counter)
        (recordingHistogram κ latency)).Subscribe key chanID subtopic c (w, [])).2.2 = 1 ∧
    addedTo ["method", "unsubscribe"]
      ((MetricsMiddleware (fun t => now t.1) (recordingService svc) (recordingCounter κ counter)
        (recordingHistogram κ latency)).Unsubscribe key chanID subtopic token (w, [])).2.2 = 1 ∧
    observedUnder ["method", "unsubscribe"]
      ((MetricsMiddleware (fun t => now t.1) (recordingService svc) (recordingCounter κ counter)
        (recordingHistogram κ latency)).Unsubscribe key chanID subtopic token (w, [])).2.2 = 1 ∧
    (other ≠ ["method", "subscribe"] →
      addedTo other
        ((MetricsMiddleware (fun t => now t.1) (recordingService svc)
          (recordingCounter κ counter) (recordingHistogram κ latency)).Subscribe
            key chanID subtopic c (w, [])).2.2 = 0 ∧
      observedUnder other
        ((MetricsMiddleware (fun t => now t.1) (recordingService svc)
          (recordingCounter κ counter) (recordingHistogram κ latency)).Subscribe
            key chanID subtopic c (w, [])).2.2 = 0) ∧
    (other ≠ ["method", "unsubscribe"] →
      addedTo other
        ((MetricsMiddleware (fun t => now t.1) (recordingService svc)
          (recordingCounter κ counter) (recordingHistogram κ latency)).Unsubscribe
            key chanID subtopic token (w, [])).2.2 = 0 ∧
      observedUnder other
        ((MetricsMiddleware (fun t => now t.1) (recordingService svc)
          (recordingCounter κ counter) (recordingHistogram κ latency)).Unsubscribe
            key chanID subtopic token (w, [])).2.2 = 0) := by
  have hs : ((MetricsMiddleware (fun t => now t.1) (recordingService svc)
        (recordingCounter κ counter) (recordingHistogram κ latency)).Subscribe
          key chanID subtopic c (w, [])).2.2
      = [Event.subscribe key chanID subtopic c,
         Event.counterAdd ["method", "subscribe"] 1,
         Event.observe ["method", "subscribe"]
          (now (counter.Add ["method", "subscribe"] 1 (svc.Subscribe key chanID subtopic c w).2)
            - now w)] := rfl
  have hu : ((MetricsMiddleware (fun t => now t.1) (recordingService svc)
        (recordingCounter κ counter) (recordingHistogram κ latency)).Unsubscribe
          key chanID subtopic token (w, [])).2.2
      = [Event.unsubscribe key chanID subtopic token,
         Event.counterAdd ["method", "unsubscribe"] 1,
         Event.observe ["method", "unsubscribe"]
          (now (counter.Add ["method", "unsubscribe"] 1
            (svc.Unsubscribe key chanID subtopic token w).2) - now w)] := rfl
  rw [hs, hu]
  refine ⟨rfl, rfl, ?_, ?_, ?_, ?_, ?_, ?_⟩
  · simp [addedTo]
  · simp [observedUnder]
  · simp [addedTo]
  · simp [observedUnder]
  · intro h
    simp [addedTo, observedUnder, Ne.symm h]
  · intro h
    simp [addedTo, observedUnder, Ne.symm h]

/-- Witness of C8: a wrapped service that fails, and the label
method=publish, under which nothing is recorded. -/
theorem metrics_recorded_once_witness :
    addedTo ["method", "publish"]
      ((MetricsMiddleware (fun t => (fun _ => 0) t.1)
        (recordingService (constService (some (Error.plain "unauthorized"))))
        (recordingCounter String nullCounter) (recordingHistogram String nullHistogram)).Subscribe
          "key" "chan" "sub" "tok" ((), [])).2.2 = 0 ∧
    observedUnder ["method", "publish"]
      ((MetricsMiddleware (fun t => (fun _ => 0) t.1)
        (recordingService (constService (some (Error.plain "unauthorized"))))
        (recordingCounter String nullCounter) (recordingHistogram String nullHistogram)).Subscribe
          "key" "chan" "sub" "tok" ((), [])).2.2 = 0 :=
  (metrics_recorded_once (fun _ => 0) (constService (some (Error.plain "unauthorized")))
    nullCounter nullHistogram "key" "chan" "sub" "tok" "tok" ()
    ["method", "publish"]).2.2.2.2.2.2.1 (by decide)

/-! ## Theorems: the listener tasks -/

/-- C9, as stated, fails: when `Listen` has returned nil while the context is
not cancelled, the listener has stopped and both tasks return nil, so no error
reaches the task group. -/
theorem proxy_listener_stopped_counterexample :
    proxyMQTT defaultConfig ⟨false, some none⟩ Pick.errCh = some (none, []) ∧
    proxyMQTT defaultConfig ⟨false, some none⟩ Pick.done = some (none, []) ∧
    proxyWS defaultConfig ⟨false, some none⟩ Pick.errCh = some (none, []) ∧
    proxyWS defaultConfig ⟨false, some none⟩ Pick.done = some (none, []) := by
  decide

/-- C9, amended: when the context is cancelled while the listener is still
running, `proxyMQTT` and `proxyWS` return nil, logging the shutdown; when the
listener has stopped with result `r` while the context is not cancelled they
return `r` unchanged, so a listener that stopped with an error `e` is
reported to the task group as the error `e`. -/
theorem proxy_shutdown_or_listener_result (cfg : config) (pick : Pick) (r : Option Error)
    (e : Error) :
    proxyMQTT cfg ⟨true, none⟩ pick
      = some (none, ["proxy MQTT shutdown at " ++ (cfg.MqttTargetHost ++ ":" ++ cfg.MqttTargetPort)]) ∧
    proxyWS cfg ⟨true, none⟩ pick
      = some (none, ["proxy MQTT WS shutdown at " ++ (cfg.HttpTargetHost ++ ":" ++ cfg.HttpTargetPort)]) ∧
    proxyMQTT cfg ⟨false, some r⟩ pick = some (r, []) ∧
    proxyWS cfg ⟨false, some r⟩ pick = some (r, []) ∧
    proxyMQTT cfg ⟨false, some (some e)⟩ pick = some (some e, []) ∧
    proxyWS cfg ⟨false, some (some e)⟩ pick = some (some e, []) ∧
    (proxyMQTT cfg ⟨false, some (some e)⟩ pick).map Prod.fst ≠ some none ∧
    (proxyWS cfg ⟨false, some (some e)⟩ pick).map Prod.fst ≠ some none := by
  simp [proxyMQTT, proxyWS]

/-! ## Theorems: the topic translator -/

/-- A topic is its first segment followed, when there is a slash, by the
slash and the rest; the segment has no slash. -/
lemma segment_decompose (t : List Char) :
    '/' ∉ (topicSegment t).1 ∧
    t = (topicSegment t).1 ++ (match (topicSegment t).2 with
      | none => []
      | some r => '/' :: r) := by
  induction t with
  | nil => simp [topicSegment]
  | cons c cs ih =>
    by_cases h : c = '/'
    · simp [topicSegment, h]
    · simp only [topicSegment, h, if_false]
      refine ⟨?_, ?_⟩
      · simp only [List.mem_cons, not_or]
        exact ⟨fun hc => h hc.symm, ih.1⟩
      · simp only [List.cons_append, List.cons.injEq, true_and]
        exact ih.2

/-- The first segment of a slash-free list followed by a slash. -/
lemma segment_append_slash (seg rest : List Char) (h : '/' ∉ seg) :
    topicSegment (seg ++ '/' :: rest) = (seg, some rest) := by
  induction seg with
  | nil => simp [topicSegment]
  | cons c cs ih =>
    simp only [List.mem_cons, not_or] at h
    have hc : c ≠ '/' := fun e => h.1 e.symm
    simp [topicSegment, hc, ih h.2]

/-- The first segment of a slash-free list. -/
lemma segment_no_slash (seg : List Char) (h : '/' ∉ seg) : topicSegment seg = (seg, none) := by
  induction seg with
  | nil => simp [topicSegment]
  | cons c cs ih =>
    simp only [List.mem_cons, not_or] at h
    have hc : c ≠ '/' := fun e => h.1 e.symm
    simp [topicSegment, hc, ih h.2]

/-- The grammar on characters, exactly. -/
lemma parseChars_eq_some (validID : String → Bool) (t id rem : List Char) :
    parseChars validID t = some (id, rem) ↔
      validID (String.mk id) = true ∧ '/' ∉ id ∧
      ((t = "channels/".toList ++ id ++ "/messages".toList ∧ rem = []) ∨
        t = "channels/".toList ++ id ++ "/messages/".toList ++ rem) := by
  constructor
  · intro h
    unfold parseChars at h
    have d0 := segment_decompose t
    rcases h0 : topicSegment t with ⟨seg0, o0⟩
    rw [h0] at h d0
    cases o0 with
    | none => simp at h
    | some rest0 =>
      simp only at h d0
      by_cases hc : seg0 = "channels".toList
      · simp only [hc, if_true] at h
        have d1 := segment_decompose rest0
        rcases h1 : topicSegment rest0 with ⟨id1, o1⟩
        rw [h1] at h d1
        cases o1 with
        | none => simp at h
        | some rest1 =>
          simp only at h d1
          by_cases hv : validID (String.mk id1) = true
          · simp only [hv, if_true] at h
            have d2 := segment_decompose rest1
            by_cases hm : (topicSegment rest1).1 = "messages".toList
            · simp only [hm, if_true, Option.some.injEq, Prod.mk.injEq] at h
              obtain ⟨rfl, hr⟩ := h
              refine ⟨hv, d1.1, ?_⟩
              rcases h2 : (topicSegment rest1).2 with _ | r
              · left
                rw [h2] at hr d2
                simp only [Option.getD_none] at hr
                refine ⟨?_, hr.symm⟩
                rw [d0.2, d1.2, d2.2, hc, hm]
                simp
              · right
                rw [h2] at hr d2
                simp only [Option.getD_some] at hr
                subst hr
                rw [d0.2, d1.2, d2.2, hc, hm]
                simp
            · rw [if_neg hm] at h
              exact absurd h (by simp)
          · rw [if_neg hv] at h
            exact absurd h (by simp)
      · rw [if_neg hc] at h
        exact absurd h (by simp)
  · rintro ⟨hv, hid, h | h⟩
    · obtain ⟨rfl, rfl⟩ := h
      have e0 : "channels/".toList ++ id ++ "/messages".toList
          = "channels".toList ++ '/' :: (id ++ '/' :: "messages".toList) := by simp
      rw [e0]
      unfold parseChars
      rw [segment_append_slash _ _ (by decide)]
      simp only [if_true]
      rw [segment_append_slash _ _ hid]
      simp only [hv, if_true]
      rw [segment_no_slash _ (by decide)]
      simp
    · subst h
      have e0 : "channels/".toList ++ id ++ "/messages/".toList ++ rem
          = "channels".toList ++ '/' :: (id ++ '/' :: ("messages".toList ++ '/' :: rem)) := by
        simp
      rw [e0]
      unfold parseChars
      rw [segment_append_slash _ _ (by decide)]
      simp only [if_true]
      rw [segment_append_slash _ _ hid]
      simp only [hv, if_true]
      rw [segment_append_slash _ _ (by decide)]
      simp

/-- The grammar on strings, exactly: `Parse` succeeds with `(id, rem)` on the
topics `channels/id/messages` (with `rem` empty) and `channels/id/messages/rem`
whose `id` is a slash-free valid identifier, and on no other topic. -/
lemma parse_eq_some (validID : String → Bool) (topic id rem : String) :
    Parse validID topic = some (id, rem) ↔
      validID id = true ∧ '/' ∉ id.toList ∧
      ((topic = "channels/" ++ id ++ "/messages" ∧ rem = "") ∨
        topic = "channels/" ++ id ++ "/messages/" ++ rem) := by
  have key := parseChars_eq_some validID topic.toList id.toList rem.toList
  have hid : String.mk id.toList = id := rfl
  rw [hid] at key
  have e1 : Parse validID topic = some (id, rem) ↔
      parseChars validID topic.toList = some (id.toList, rem.toList) := by
    unfold Parse
    constructor
    · intro h
      rcases hp : parseChars validID topic.toList with _ | ⟨a, b⟩
      · rw [hp] at h; simp at h
      · rw [hp] at h
        simp only [Option.map_some', Option.some.injEq, Prod.mk.injEq] at h
        obtain ⟨rfl, rfl⟩ := h
        rfl
    · intro h
      rw [h]
      rfl
  rw [e1, key]
  simp only [String.ext_iff, String.data_append, String.toList]

/-- `Parse` fails exactly when the grammar on characters fails. -/
lemma parse_eq_none (validID : String → Bool) (topic : String) :
    Parse validID topic = none ↔ parseChars validID topic.toList = none := by
  unfold Parse
  simp

/-- The characters of a topic with a channels segment and more. -/
lemma toList_channels_more (seg rest : String) :
    ("channels/" ++ seg ++ "/" ++ rest).toList
      = "channels".toList ++ '/' :: (seg.toList ++ '/' :: rest.toList) := by
  simp [String.toList, String.data_append]

/-- The characters of a topic with a channels segment and one more segment. -/
lemma toList_channels_only (seg : String) :
    ("channels/" ++ seg).toList = "channels".toList ++ '/' :: seg.toList := by
  simp [String.toList, String.data_append]

/-- C10: `Parse` is a total function, and exact for the grammar.  For every
slash-free identifier `id` of the platform's shape and every remainder,
`channels/id/messages` parses to `(id, "")` and `channels/id/messages/rem` to
`(id, rem)`, and only such topics parse; a topic that does not begin with
`channels/`, whose channel segment is not of the identifier shape, whose
segment after the channel is not `messages`, or that ends with the channel
segment, fails; and when `Parse` fails the parse+authorize sequence and
`Publish` deny with no policy or bus interaction. -/
theorem parse_total_exact (validID : String → Bool)
    (policy : String → String → String → Option Error)
    (publisher : String → String → String → Option Error)
    (clientID payload action topic id rem seg rest : String) :
    (validID id = true → '/' ∉ id.toList →
      Parse validID ("channels/" ++ id ++ "/messages") = some (id, "") ∧
      Parse validID ("channels/" ++ id ++ "/messages/" ++ rem) = some (id, rem)) ∧
    (Parse validID topic = some (id, rem) →
      validID id = true ∧ '/' ∉ id.toList ∧
      ((topic = "channels/" ++ id ++ "/messages" ∧ rem = "") ∨
        topic = "channels/" ++ id ++ "/messages/" ++ rem)) ∧
    (¬ ("channels/".toList <+: topic.toList) → Parse validID topic = none) ∧
    ('/' ∉ seg.toList → validID seg = false →
      Parse validID ("channels/" ++ seg ++ "/" ++ rest) = none) ∧
    ('/' ∉ seg.toList → rest ≠ "messages" → ¬ ("messages/".toList <+: rest.toList) →
      Parse validID ("channels/" ++ seg ++ "/" ++ rest) = none) ∧
    ('/' ∉ seg.toList → Parse validID ("channels/" ++ seg) = none) ∧
    (Parse validID topic = none →
      authorizeTopic validID policy clientID topic action = (none, []) ∧
      Publish validID policy publisher clientID topic payload = (Verdict.denied, [])) := by
  refine ⟨?_, ?_, ?_, ?_, ?_, ?_, ?_⟩
  · intro hv hs
    exact ⟨(parse_eq_some validID _ id "").2 ⟨hv, hs, Or.inl ⟨rfl, rfl⟩⟩,
      (parse_eq_some validID _ id rem).2 ⟨hv, hs, Or.inr rfl⟩⟩
  · exact (parse_eq_some validID topic id rem).1
  · intro hp
    rcases h : Parse validID topic with _ | ⟨a, b⟩
    · rfl
    · exfalso
      apply hp
      rcases (parse_eq_some validID topic a b).1 h with ⟨_, _, ⟨rfl, _⟩ | rfl⟩
      · exact ⟨a.toList ++ "/messages".toList, by simp [String.toList, String.data_append]⟩
      · exact ⟨a.toList ++ "/messages/".toList ++ b.toList,
          by simp [String.toList, String.data_append]⟩
  · intro hs hv
    rw [parse_eq_none, toList_channels_more]
    unfold parseChars
    rw [segment_append_slash _ _ (by decide)]
    simp only [if_true]
    rw [segment_append_slash _ _ hs]
    have hid : String.mk seg.toList = seg := rfl
    simp [hid, hv]
  · intro hs hne hpre
    rw [parse_eq_none, toList_channels_more]
    unfold parseChars
    rw [segment_append_slash _ _ (by decide)]
    simp only [if_true]
    rw [segment_append_slash _ _ hs]
    have hm : (topicSegment rest.toList).1 ≠ "messages".toList := by
      intro hm
      have d := (segment_decompose rest.toList).2
      rw [hm] at d
      rcases h2 : (topicSegment rest.toList).2 with _ | r
      · rw [h2] at d
        apply hne
        apply String.ext
        simpa [String.toList] using d
      · rw [h2] at d
        apply hpre
        exact ⟨r, by rw [d]; simp⟩
    simp only [if_neg hm]
    split <;> rfl
  · intro hs
    rw [parse_eq_none, toList_channels_only]
    unfold parseChars
    rw [segment_append_slash _ _ (by decide)]
    simp only [if_true]
    rw [segment_no_slash _ hs]
  · intro h
    have h1 : authorizeTopic validID policy clientID topic action = (none, []) := by
      simp [authorizeTopic, h]
    have h2 : authorizeTopic validID policy clientID topic "publish" = (none, []) := by
      simp [authorizeTopic, h]
    exact ⟨h1, by simp [Publish, h2]⟩

/-- Witness of C10: the topics of scenario 2, and malformed topics. -/
theorem parse_total_exact_witness :
    (Parse idShape ("channels/" ++ "3fae21-uuid" ++ "/messages") = some ("3fae21-uuid", "") ∧
      Parse idShape ("channels/" ++ "3fae21-uuid" ++ "/messages/" ++ "temp")
        = some ("3fae21-uuid", "temp")) ∧
    Parse idShape ("channels/" ++ "3fae21_uuid" ++ "/" ++ "message") = none ∧
    Parse idShape ("channels/" ++ "3fae21-uuid" ++ "/" ++ "message") = none ∧
    Parse idShape ("channels/" ++ "3fae21-uuid") = none ∧
    Parse idShape "channel/3fae21-uuid/messages" = none ∧
    (authorizeTopic idShape (fun _ _ _ => none) "thing-1" "channel/3fae21-uuid/messages"
        "subscribe" = (none, []) ∧
      Publish idShape (fun _ _ _ => none) (fun _ _ _ => none) "thing-1"
        "channel/3fae21-uuid/messages" "payload" = (Verdict.denied, [])) :=
  have t := parse_total_exact idShape (fun _ _ _ => none) (fun _ _ _ => none) "thing-1" "payload"
    "subscribe" "channel/3fae21-uuid/messages" "3fae21-uuid" "temp" "3fae21-uuid" "message"
  have u := parse_total_exact idShape (fun _ _ _ => none) (fun _ _ _ => none) "thing-1" "payload"
    "subscribe" "channel/3fae21-uuid/messages" "3fae21-uuid" "temp" "3fae21_uuid" "message"
  ⟨t.1 (by decide) (by decide),
   u.2.2.2.1 (by decide) (by decide),
   t.2.2.2.2.1 (by decide) (by decide) (by decide),
   t.2.2.2.2.2.1 (by decide),
   t.2.2.1 (by decide),
   t.2.2.2.2.2.2 (t.2.2.1 (by decide))⟩

/-! ## Theorems: the modbus binding -/

section ModbusBinding

open modbus

/-- C11: `Write` is a thin dispatch.  For (coil, uint16), (coil, bytes),
(register, uint16) and (register, bytes) it returns exactly what
`WriteSingleCoil(address, value)`, `WriteMultipleCoils(address, quantity,
value)`, `WriteSingleRegister(address, value)` and
`WriteMultipleRegisters(address, quantity, value)` return, and that call is
the only one made; for every other iotype (h_register, i_register, discrete
and fifo among them) and for a value of any other kind it returns
`errInvalidInput` with a nil result, leaves the world as it was and makes no
call. -/
theorem write_dispatch {W : Type} (c : modbus.Client W) (h : ClientHandler)
    (address quantity v : Nat) (b : List Nat) (t : String) (value : Value) (iotype : dataPoint)
    (w : W) :
    ((modbusService.mk c h).Write address quantity (Value.uint16 v) Coil w
        = c.WriteSingleCoil address v w ∧
      writeCalls c address quantity (Value.uint16 v) Coil w
        = [LibCall.writeSingleCoil address v]) ∧
    ((modbusService.mk c h).Write address quantity (Value.bytes b) Coil w
        = c.WriteMultipleCoils address quantity b w ∧
      writeCalls c address quantity (Value.bytes b) Coil w
        = [LibCall.writeMultipleCoils address quantity b]) ∧
    ((modbusService.mk c h).Write address quantity (Value.uint16 v) Register w
        = c.WriteSingleRegister address v w ∧
      writeCalls c address quantity (Value.uint16 v) Register w
        = [LibCall.writeSingleRegister address v]) ∧
    ((modbusService.mk c h).Write address quantity (Value.bytes b) Register w
        = c.WriteMultipleRegisters address quantity b w ∧
      writeCalls c address quantity (Value.bytes b) Register w
        = [LibCall.writeMultipleRegisters address quantity b]) ∧
    (iotype ≠ Coil → iotype ≠ Register →
      (modbusService.mk c h).Write address quantity value iotype w
        = ((none, some errInvalidInput), w) ∧
      writeCalls c address quantity value iotype w = []) ∧
    (∀ io ∈ [HoldingRegister, InputRegister, Discrete, FIFO],
      (modbusService.mk c h).Write address quantity value io w
        = ((none, some errInvalidInput), w) ∧
      writeCalls c address quantity value io w = []) ∧
    ((modbusService.mk c h).Write address quantity (Value.other t) iotype w
        = ((none, some errInvalidInput), w) ∧
      writeCalls c address quantity (Value.other t) iotype w = []) := by
  have other : ∀ io : dataPoint, io ≠ Coil → io ≠ Register →
      (modbusService.mk c h).Write address quantity value io w
        = ((none, some errInvalidInput), w) ∧
      writeCalls c address quantity value io w = [] := by
    intro io h1 h2
    simp [modbusService.Write, writeCalls, h1, h2]
  refine ⟨⟨rfl, rfl⟩, ⟨rfl, rfl⟩, ⟨rfl, rfl⟩, ⟨rfl, rfl⟩, other iotype, ?_, ?_⟩
  · intro io hio
    simp only [List.mem_cons, List.mem_singleton, List.not_mem_nil, or_false] at hio
    rcases hio with rfl | rfl | rfl | rfl <;> exact other _ (by decide) (by decide)
  · by_cases h1 : iotype = Coil
    · simp [modbusService.Write, writeCalls, h1]
    · by_cases h2 : iotype = Register
      · simp [modbusService.Write, writeCalls, h2, Register, Coil]
      · simp [modbusService.Write, writeCalls, h1, h2]

/-- Witness of C11: a write of a holding register, which `Write` rejects. -/
theorem write_dispatch_witness :
    (modbusService.mk echoClient ClientHandler.nil).Write 7 1 (Value.uint16 255) "h_register" 0
        = ((none, some errInvalidInput), 0) ∧
    writeCalls echoClient 7 1 (Value.uint16 255) "h_register" 0 = [] :=
  (write_dispatch echoClient ClientHandler.nil 7 1 255 [] "string" (Value.uint16 255)
    "h_register" 0).2.2.2.2.1 (by decide) (by decide)

/-- C12: `Read` makes exactly one client read chosen by the iotype and returns
its result unchanged: `ReadCoils(address, quantity)` for coil,
`ReadDiscreteInputs(address, quantity)` for discrete,
`ReadHoldingRegisters(address, quantity)` for h_register,
`ReadInputRegisters(address, quantity)` for i_register and
`ReadFIFOQueue(address)` for fifo, where the quantity plays no part; for every
other iotype, register among them, it returns `errInvalidInput` with a nil
result, leaves the world as it was and makes no call. -/
theorem read_dispatch {W : Type} (c : modbus.Client W) (h : ClientHandler)
    (address quantity quantity2 : Nat) (iotype : dataPoint) (w : W) :
    ((modbusService.mk c h).Read address quantity Coil w = c.ReadCoils address quantity w ∧
      readCalls c address quantity Coil w = [LibCall.readCoils address quantity]) ∧
    ((modbusService.mk c h).Read address quantity Discrete w
        = c.ReadDiscreteInputs address quantity w ∧
      readCalls c address quantity Discrete w = [LibCall.readDiscreteInputs address quantity]) ∧
    ((modbusService.mk c h).Read address quantity HoldingRegister w
        = c.ReadHoldingRegisters address quantity w ∧
      readCalls c address quantity HoldingRegister w
        = [LibCall.readHoldingRegisters address quantity]) ∧
    ((modbusService.mk c h).Read address quantity InputRegister w
        = c.ReadInputRegisters address quantity w ∧
      readCalls c address quantity InputRegister w
        = [LibCall.readInputRegisters address quantity]) ∧
    ((modbusService.mk c h).Read address quantity FIFO w = c.ReadFIFOQueue address w ∧
      readCalls c address quantity FIFO w = [LibCall.readFIFOQueue address] ∧
      (modbusService.mk c h).Read address quantity FIFO w
        = (modbusService.mk c h).Read address quantity2 FIFO w) ∧
    (iotype ≠ Coil → iotype ≠ Discrete → iotype ≠ FIFO → iotype ≠ HoldingRegister →
        iotype ≠ InputRegister →
      (modbusService.mk c h).Read address quantity iotype w
        = ((none, some errInvalidInput), w) ∧
      readCalls c address quantity iotype w = []) ∧
    ((modbusService.mk c h).Read address quantity Register w
        = ((none, some errInvalidInput), w) ∧
      readCalls c address quantity Register w = []) := by
  have other : ∀ io : dataPoint, io ≠ Coil → io ≠ Discrete → io ≠ FIFO → io ≠ HoldingRegister →
      io ≠ InputRegister →
      (modbusService.mk c h).Read address quantity io w = ((none, some errInvalidInput), w) ∧
      readCalls c address quantity io w = [] := by
    intro io h1 h2 h3 h4 h5
    simp [modbusService.Read, readCalls, h1, h2, h3, h4, h5]
  refine ⟨⟨rfl, rfl⟩, ⟨rfl, rfl⟩, ⟨rfl, rfl⟩, ⟨rfl, rfl⟩, ⟨rfl, rfl, rfl⟩, other iotype, ?_⟩
  exact other Register (by decide) (by decide) (by decide) (by decide) (by decide)

/-- Witness of C12: a read of an iotype that does not exist. -/
theorem read_dispatch_witness :
    (modbusService.mk echoClient ClientHandler.nil).Read 7 2 "analog" 0
        = ((none, some errInvalidInput), 0) ∧
    readCalls echoClient 7 2 "analog" 0 = [] :=
  (read_dispatch echoClient ClientHandler.nil 7 2 3 "analog" 0).2.2.2.2.2.1
    (by decide) (by decide) (by decide) (by decide) (by decide)

/-- A service built by `NewRTUClient` has the nil handler. -/
lemma new_rtu_client_handler {W : Type} (lib : Library W) (config : RTUHandlerOptions) (w w1 : W)
    (s : modbusService W) (e : Option Error)
    (h : NewRTUClient lib config w = ((some s, e), w1)) : s.handler = ClientHandler.nil := by
  unfold NewRTUClient at h
  split at h
  · simp at h
  · split at h
    · simp at h
    · simp only [Prod.mk.injEq, Option.some.injEq] at h
      rw [← h.1.1]

/-- A service built by `NewTCPClient` keeps the handler with the options
applied. -/
lemma new_tcp_client_service {W : Type} (lib : Library W) (config : TCPHandlerOptions)
    (w w1 : W) (s : modbusService W) (e : Option Error)
    (h : NewTCPClient lib config w = ((some s, e), w1)) :
    s.handler = ClientHandler.tcp (applyTCPOptions config (lib.NewTCPClientHandler config.Address)) := by
  unfold NewTCPClient at h
  split at h
  · simp at h
  · split at h
    · simp at h
    · simp only [Prod.mk.injEq, Option.some.injEq] at h
      rw [← h.1.1]

/-- A service built by `NewTCPClient` keeps, as its handler, the TCP handler
that the constructor connected last. -/
lemma new_tcp_client_handler {W : Type} (lib : Library W) (config : TCPHandlerOptions)
    (w : W) (l : List LibCall) (w1 : W × List LibCall)
    (s : modbusService (W × List LibCall)) (e : Option Error)
    (h : NewTCPClient (recordingLibrary lib) config (w, l) = ((some s, e), w1)) :
    ∃ h4, s.handler = ClientHandler.tcp h4 ∧
      w1.2 = l ++ [LibCall.connectTCP (lib.NewTCPClientHandler config.Address),
        LibCall.connectTCP h4] := by
  unfold NewTCPClient at h
  split at h
  · simp at h
  · rename_i w2 h1
    split at h
    · simp at h
    · rename_i w3 h2
      simp only [Prod.mk.injEq, Option.some.injEq] at h
      obtain ⟨⟨hs, _⟩, hw⟩ := h
      refine ⟨_, by rw [← hs], ?_⟩
      rw [← hw]
      simp only [recordingLibrary, logged, Prod.mk.injEq] at h1 h2
      rw [← h2.2, ← h1.2]
      simp [recordingLibrary]

/-- The calls recorded while `NewRTUClient` builds a service are two
`Connect` calls. -/
lemma new_rtu_client_calls {W : Type} (lib : Library W) (config : RTUHandlerOptions)
    (w : W) (l : List LibCall) (w1 : W × List LibCall)
    (s : modbusService (W × List LibCall)) (e : Option Error)
    (h : NewRTUClient (recordingLibrary lib) config (w, l) = ((some s, e), w1)) :
    ∃ h0 h10, w1.2 = l ++ [LibCall.connectRTU h0, LibCall.connectRTU h10] := by
  unfold NewRTUClient at h
  split at h
  · simp at h
  · rename_i w2 h1
    split at h
    · simp at h
    · rename_i w3 h2
      simp only [Prod.mk.injEq, Option.some.injEq] at h
      obtain ⟨_, hw⟩ := h
      rw [← hw]
      simp only [recordingLibrary, logged, Prod.mk.injEq] at h1 h2
      refine ⟨lib.NewRTUClientHandler config.Address,
        applyRTUOptions config (lib.NewRTUClientHandler config.Address), ?_⟩
      rw [← h2.2, ← h1.2]
      simp

/-- C13 on the code: a service built by `NewTCPClient` keeps the handler that
the constructor connected, and `Close` calls `Close` on that handler and
returns its result; a service built by `NewRTUClient` has no handler, and
`Close` on it returns nil, leaves the world as it was and closes nothing. -/
theorem close_after_new_client {W : Type} (lib : Library W) (tcp : TCPHandlerOptions)
    (rtu : RTUHandlerOptions) (w : W) :
    (∀ l, tcpThenCloseCalls lib tcp w = some l →
      ∃ h, l = [LibCall.connectTCP (lib.NewTCPClientHandler tcp.Address),
        LibCall.connectTCP h, LibCall.closeTCP h]) ∧
    (∀ r, tcpThenClose lib tcp w = some r →
      ∃ h, r = lib.CloseTCP h (NewTCPClient lib tcp w).2) ∧
    (∀ r, rtuThenClose lib rtu w = some r → r = (none, (NewRTUClient lib rtu w).2)) ∧
    (∀ l, rtuThenCloseCalls lib rtu w = some l → l.countP LibCall.isClose = 0) := by
  refine ⟨?_, ?_, ?_, ?_⟩
  · intro l hl
    unfold tcpThenCloseCalls tcpThenClose at hl
    rcases hn : NewTCPClient (recordingLibrary lib) tcp (w, []) with ⟨⟨os, e⟩, w1⟩
    rw [hn] at hl
    cases os with
    | none => simp at hl
    | some s =>
      obtain ⟨h4, hh, hw⟩ := new_tcp_client_handler lib tcp w [] w1 s e hn
      refine ⟨h4, ?_⟩
      simp only [Option.map_some', Option.some.injEq] at hl
      rw [← hl]
      simp [modbusService.Close, hh, recordingLibrary, logged, hw]
  · intro r hr
    unfold tcpThenClose at hr
    rcases hn : NewTCPClient lib tcp w with ⟨⟨os, e⟩, w1⟩
    rw [hn] at hr
    cases os with
    | none => simp at hr
    | some s =>
      have hh := new_tcp_client_service lib tcp w w1 s e hn
      simp only [Option.some.injEq] at hr
      refine ⟨applyTCPOptions tcp (lib.NewTCPClientHandler tcp.Address), ?_⟩
      rw [← hr]
      simp [modbusService.Close, hh]
  · intro r hr
    unfold rtuThenClose at hr
    rcases hn : NewRTUClient lib rtu w with ⟨⟨os, e⟩, w1⟩
    rw [hn] at hr
    cases os with
    | none => simp at hr
    | some s =>
      have hh := new_rtu_client_handler lib rtu w w1 s e hn
      simp only [Option.some.injEq] at hr
      rw [← hr]
      simp [modbusService.Close, hh]
  · intro l hl
    unfold rtuThenCloseCalls rtuThenClose at hl
    rcases hn : NewRTUClient (recordingLibrary lib) rtu (w, []) with ⟨⟨os, e⟩, w1⟩
    rw [hn] at hl
    cases os with
    | none => simp at hl
    | some s =>
      have hh := new_rtu_client_handler (recordingLibrary lib) rtu (w, []) w1 s e hn
      obtain ⟨h0, h10, hw⟩ := new_rtu_client_calls lib rtu w [] w1 s e hn
      simp only [Option.map_some', Option.some.injEq] at hl
      rw [← hl]
      simp [modbusService.Close, hh, hw, LibCall.isClose]

/-- C13 at the failing input: an RTU service on the serial device, built and
then closed.  The constructor connects the handler twice; `Close` returns nil,
the world is the one the constructor left, and no `Close` reaches the
handler. -/
theorem close_after_new_client_witness :
    rtuThenClose echoLibrary rtuOptions 0 = some (none, 2) ∧
    rtuThenCloseCalls echoLibrary rtuOptions 0
      = some [LibCall.connectRTU (echoLibrary.NewRTUClientHandler "/dev/ttyUSB0"),
          LibCall.connectRTU
            (applyRTUOptions rtuOptions (echoLibrary.NewRTUClientHandler "/dev/ttyUSB0"))] ∧
    (some (none, 2) = some ((none : Option Error), (NewRTUClient echoLibrary rtuOptions 0).2)) ∧
    ([LibCall.connectRTU (echoLibrary.NewRTUClientHandler "/dev/ttyUSB0"),
      LibCall.connectRTU
        (applyRTUOptions rtuOptions (echoLibrary.NewRTUClientHandler "/dev/ttyUSB0"))].countP
        LibCall.isClose = 0) :=
  ⟨by decide, by decide,
   congrArg some ((close_after_new_client echoLibrary tcpOptions rtuOptions 0).2.2.1
     (none, 2) (by decide)),
   (close_after_new_client echoLibrary tcpOptions rtuOptions 0).2.2.2 _ (by decide)⟩

end ModbusBinding

/-! ## Theorems: roles -/

section Roles

open users

/-- C14: role conversion round-trips: for `UserRole` and for `AdminRole`,
`ToRole` of the role's string gives the role back with a nil error. -/
theorem role_round_trip (r : Role) (h : r = UserRole ∨ r = AdminRole) :
    ToRole (Role.String r) = (r, none) := by
  rcases h with rfl | rfl <;> decide

/-- Witness of C14: the admin role. -/
theorem role_round_trip_witness : ToRole (Role.String AdminRole) = (AdminRole, none) :=
  role_round_trip AdminRole (Or.inr rfl)

/-- C15: `ToRole` succeeds exactly on "", "user" and "admin", compared as
they are written: "" and "user" give `UserRole`, "admin" gives `AdminRole`,
and every other string gives the zero role with `apiutil.ErrInvalidRole`. -/
theorem to_role_valid_or_rejected (s : String) :
    ((ToRole s).2 = none ↔ (s = "" ∨ s = "user" ∨ s = "admin")) ∧
    ToRole "" = (UserRole, none) ∧
    ToRole "user" = (UserRole, none) ∧
    ToRole "admin" = (AdminRole, none) ∧
    (s ≠ "" → s ≠ "user" → s ≠ "admin" → ToRole s = (0, some ErrInvalidRole)) ∧
    ToRole "Admin" = (0, some ErrInvalidRole) ∧
    ToRole "USER" = (0, some ErrInvalidRole) := by
  refine ⟨?_, by decide, by decide, by decide, ?_, by decide, by decide⟩
  · unfold ToRole
    by_cases h1 : s = ""
    · simp [h1]
    · by_cases h2 : s = "user"
      · simp [h2, User]
      · by_cases h3 : s = "admin"
        · simp [h3, User, Admin]
        · simp [h1, h2, h3, User, Admin]
  · intro h1 h2 h3
    simp [ToRole, h1, h2, h3, User, Admin]

/-- Witness of C15: the string "root" is not a role. -/
theorem to_role_valid_or_rejected_witness : ToRole "root" = (0, some ErrInvalidRole) :=
  (to_role_valid_or_rejected "root").2.2.2.2.1 (by decide) (by decide) (by decide)

end Roles

/-! ## Theorems: authorization and listing -/

/-- C19: `authorize(token, object, relation)` returns nil exactly when the
token identifies a user, `RetrieveByID` finds the object, and the user is the
stored owner of the object or the policy service answers Authorized, with no
error, to the request (token, object, relation, entity type "group").  When the
user is the owner the calls are the identification and the lookup only, the
policy service is not consulted; otherwise it is consulted once, with exactly
that request.  A failed identification, and a denial (an error or an answer
that is not Authorized), give an error that contains `ErrAuthorization`. -/
theorem authorize_iff {W : Type} (svc : policyService W) (token object relation : String)
    (w w1 w2 w3 : W) (ri : String × Option Error) (rr : Client × Option Error)
    (ra : Bool × Option Error)
    (hI : svc.auth.Identify token w = (ri, w1))
    (hR : svc.clients.RetrieveByID object w1 = (rr, w2))
    (hA : svc.auth.Authorize ⟨token, object, relation, "group"⟩ w2 = (ra, w3)) :
    ((svc.authorize token object relation w).1 = none ↔
      ri.2 = none ∧ rr.2 = none ∧ (rr.1.Owner = ri.1 ∨ ra = (true, none))) ∧
    (ri.2 = none → rr.2 = none → rr.1.Owner = ri.1 →
      svc.authorizeCalls token object relation w
        = [AccessCall.identify token, AccessCall.retrieveByID object]) ∧
    (ri.2 = none → rr.2 = none → rr.1.Owner ≠ ri.1 →
      svc.authorizeCalls token object relation w
        = [AccessCall.identify token, AccessCall.retrieveByID object,
           AccessCall.authorize ⟨token, object, relation, "group"⟩]) ∧
    (ri.2 ≠ none →
      errors.Contains (svc.authorize token object relation w).1
        (some errors.ErrAuthorization) = true) ∧
    (ri.2 = none → rr.2 = none → rr.1.Owner ≠ ri.1 → ra ≠ (true, none) →
      errors.Contains (svc.authorize token object relation w).1
        (some errors.ErrAuthorization) = true) := by
  rcases ri with ⟨userID, ei⟩
  rcases rr with ⟨thing, er⟩
  rcases ra with ⟨ok, ea⟩
  cases ei with
  | some e =>
    simp [policyService.authorize, policyService.identifyUser, hI, errors.Wrap, errors.Contains,
      errors.containsMsg, errors.ErrAuthorization, Error.Msg]
  | none =>
    cases er with
    | some e =>
      simp [policyService.authorize, policyService.identifyUser, hI, hR]
    | none =>
      by_cases ho : thing.Owner = userID
      · simp [policyService.authorize, policyService.identifyUser, policyService.authorizeCalls,
          policyService.recording, AuthServiceClient.recording, ThingRepository.recording,
          hI, hR, ho]
      · cases ea with
        | some e =>
          simp [policyService.authorize, policyService.identifyUser,
            policyService.authorizeCalls, policyService.recording, AuthServiceClient.recording,
            ThingRepository.recording, hI, hR, hA, ho, errors.Wrap, errors.Contains,
            errors.containsMsg, errors.ErrAuthorization, Error.Msg, entityType]
        | none =>
          cases ok <;>
          simp [policyService.authorize, policyService.identifyUser,
            policyService.authorizeCalls, policyService.recording, AuthServiceClient.recording,
            ThingRepository.recording, hI, hR, hA, ho, errors.Contains,
            errors.containsMsg, errors.ErrAuthorization, Error.Msg, entityType]

/-- Witness of C19: bob asks to update alice's thing and is denied. -/
theorem authorize_iff_witness :
    ((memPolicyService.authorize "bob-token" "thing-a" "c_update" ()).1 = none ↔
      (none : Option Error) = none ∧ (none : Option Error) = none ∧
        (aliceThing.Owner = "bob" ∨ (false, (none : Option Error)) = (true, none))) ∧
    memPolicyService.authorizeCalls "bob-token" "thing-a" "c_update" ()
      = [AccessCall.identify "bob-token", AccessCall.retrieveByID "thing-a",
         AccessCall.authorize ⟨"bob-token", "thing-a", "c_update", "group"⟩] ∧
    errors.Contains (memPolicyService.authorize "bob-token" "thing-a" "c_update" ()).1
      (some errors.ErrAuthorization) = true :=
  have t := authorize_iff memPolicyService "bob-token" "thing-a" "c_update" () () () ()
    ("bob", none) (aliceThing, none) (false, none) (by decide) (by decide) (by decide)
  ⟨t.1, t.2.2.1 rfl rfl (by decide), t.2.2.2.2 rfl rfl (by decide) (by decide)⟩

/-- `ListClients` for a caller whom `authorize` accepts as admin. -/
lemma list_clients_admin_path {W : Type} (svc : policyService W) (token : String) (pm : Page)
    (w w1 w2 : W) (res : String)
    (hI : svc.auth.Identify token w = ((res, none), w1))
    (hZ : svc.authorize token thingsObjectKey listRelationKey w1 = (none, w2)) :
    svc.ListClients token pm w
      = svc.clients.RetrieveAll { pm with Owner := "", SharedBy := "" } w2 := by
  simp [policyService.ListClients, hI, hZ]

/-- `ListClients` for a caller whom `authorize` does not accept as admin. -/
lemma list_clients_other_path {W : Type} (svc : policyService W) (token : String) (pm : Page)
    (w w1 w2 : W) (res : String) (e : Error)
    (hI : svc.auth.Identify token w = ((res, none), w1))
    (hZ : svc.authorize token thingsObjectKey listRelationKey w1 = (some e, w2)) :
    svc.ListClients token pm w = svc.clients.RetrieveAll (nonAdminPage res pm) w2 := by
  simp [policyService.ListClients, hI, hZ]

/-- C16 on the code: when the token is identified but `RetrieveByID` finds no
thing whose id is "things", the admin check of `ListClients` fails with the
lookup's error, whatever the policy service would answer, and `RetrieveAll`
is called with the page of a caller who is not admin: Owner and SharedBy are
not cleared. -/
theorem list_clients_admin_needs_thing {W : Type} (svc : policyService W) (token : String)
    (pm : Page) (w w1 w1' w2 : W) (res userID : String) (c : Client) (e : Error)
    (hI : svc.auth.Identify token w = ((res, none), w1))
    (hI2 : svc.auth.Identify token w1 = ((userID, none), w1'))
    (hR : svc.clients.RetrieveByID "things" w1' = ((c, some e), w2)) :
    svc.authorize token "things" "c_list" w1 = (some e, w2) ∧
    svc.ListClients token pm w = svc.clients.RetrieveAll (nonAdminPage res pm) w2 := by
  have hZ : svc.authorize token thingsObjectKey listRelationKey w1 = (some e, w2) := by
    simp [policyService.authorize, policyService.identifyUser, hI2, thingsObjectKey, hR]
  exact ⟨hZ, list_clients_other_path svc token pm w w1 w2 res e hI hZ⟩

/-- C16 at the failing input: the admin's token is granted c_list on
"things", the repository holds the things of alice and of bob and no thing
whose id is "things", and the page asks for the things of alice.  The policy
service is never consulted, `RetrieveAll` receives the page with Owner still
"alice", and the admin gets the things of alice only. -/
theorem list_clients_admin_needs_thing_witness :
    (memUsers.Authorize (adminGrant "admin-token") ()).1 = (true, none) ∧
    memPolicyService.recording.authorize "admin-token" "things" "c_list"
        ((), [AccessCall.identify "admin-token"])
      = (some (Error.wrapped "entity not found" (Error.plain "sql: no rows in result set")),
          ((), [AccessCall.identify "admin-token", AccessCall.identify "admin-token",
            AccessCall.retrieveByID "things"])) ∧
    memPolicyService.recording.ListClients "admin-token" { Page.zero with Owner := "alice" }
        ((), [])
      = memPolicyService.recording.clients.RetrieveAll
          (nonAdminPage "admin" { Page.zero with Owner := "alice" })
          ((), [AccessCall.identify "admin-token", AccessCall.identify "admin-token",
            AccessCall.retrieveByID "things"]) ∧
    memPolicyService.listClientsCalls "admin-token" { Page.zero with Owner := "alice" } ()
      = [AccessCall.identify "admin-token", AccessCall.identify "admin-token",
         AccessCall.retrieveByID "things",
         AccessCall.retrieveAll { Page.zero with Owner := "alice", Action := "c_list" }] ∧
    (memPolicyService.ListClients "admin-token" { Page.zero with Owner := "alice" } ()).1
      = (⟨Page.zero, [aliceThing]⟩, none) :=
  have t := list_clients_admin_needs_thing memPolicyService.recording "admin-token"
    { Page.zero with Owner := "alice" } ((), []) ((), [AccessCall.identify "admin-token"])
    ((), [AccessCall.identify "admin-token", AccessCall.identify "admin-token"])
    ((), [AccessCall.identify "admin-token", AccessCall.identify "admin-token",
      AccessCall.retrieveByID "things"])
    "admin" "admin" Client.zero
    (Error.wrapped "entity not found" (Error.plain "sql: no rows in result set"))
    (by decide) (by decide) (by decide)
  ⟨by decide, t.1, t.2, by decide, by decide⟩

/-- C17, as stated, fails: bob is not admin (the policy service denies him
c_list on "things") and asks for a page that names neither an owner nor a
sharer.  The page handed to `RetrieveAll` has Owner and SharedBy empty, so
bob's identity is not in it, no owner condition is put in the query, and the
result holds the thing of alice. -/
theorem list_clients_isolation_counterexample :
    memPolicyServiceT.listClientsCalls "bob-token" Page.zero ()
      = [AccessCall.identify "bob-token", AccessCall.identify "bob-token",
         AccessCall.retrieveByID "things",
         AccessCall.authorize ⟨"bob-token", "things", "c_list", "group"⟩,
         AccessCall.retrieveAll { Page.zero with Action := "c_list" }] ∧
    ¬ (({ Page.zero with Action := "c_list" } : Page).Owner = "bob" ∨
       ({ Page.zero with Action := "c_list" } : Page).SharedBy = "bob") ∧
    ownerConditions { Page.zero with Action := "c_list" } = [] ∧
    pageQuery memQueryExternals { Page.zero with Action := "c_list" }
      = ("WHERE c.status = 0", none) ∧
    (memPolicyServiceT.ListClients "bob-token" Page.zero ()).1
      = (⟨Page.zero, [aliceThing, bobThing, thingsThing]⟩, none) := by
  decide

/-- The owner and sharing conditions of a page query are absent exactly when
the page names neither an owner nor a sharer. -/
lemma owner_conditions_nil (pm : Page) :
    ownerConditions pm = [] ↔ pm.Owner = "" ∧ pm.SharedBy = "" := by
  unfold ownerConditions
  by_cases ho : pm.Owner = "" <;> by_cases hs : pm.SharedBy = "" <;> simp [ho, hs]

/-- Joining one more condition after a non-empty list of conditions. -/
lemma intercalate_go_append (sep c : String) (l : List String) (acc : String) :
    String.intercalate.go acc sep (l ++ [c]) = String.intercalate.go acc sep l ++ sep ++ c := by
  induction l generalizing acc with
  | nil => simp [String.intercalate.go]
  | cons a as ih => simp [String.intercalate.go, ih]

/-- What `pageQuery` answers, once the metadata condition is built. -/
lemma page_query_conditions (x : QueryExternals) (pm : Page) (mq : String)
    (data : Option String) (hM : x.CreateMetadataQuery "" pm.Metadata = (mq, data, none)) :
    ∃ base : List String, ∀ o s : String,
      pageQuery x { pm with Owner := o, SharedBy := s }
        = (if (base ++ ownerConditions { pm with Owner := o, SharedBy := s }).length > 0
            then "WHERE " ++ " AND ".intercalate
              (base ++ ownerConditions { pm with Owner := o, SharedBy := s })
            else "", none) := by
  refine ⟨(if mq ≠ "" then [mq] else []) ++
      (if pm.IDs.length ≠ 0 then ["id IN ('" ++ "','".intercalate pm.IDs ++ "')"] else []) ++
      (if pm.Name ≠ "" then ["c.name = '" ++ pm.Name ++ "'"] else []) ++
      (if pm.Tag ≠ "" then ["'" ++ pm.Tag ++ "' = ANY(c.tags)"] else []) ++
      (if pm.Status ≠ x.AllStatus then ["c.status = " ++ toString pm.Status] else []), ?_⟩
  intro o s
  simp only [pageQuery, hM]

/-- The text of a query with one more condition ends with that condition and
differs from the text without it. -/
lemma where_append_singleton (base : List String) (c : String) :
    (∃ pre : String,
      (if (base ++ [c]).length > 0 then "WHERE " ++ " AND ".intercalate (base ++ [c]) else "")
        = pre ++ c) ∧
    (if (base ++ [c]).length > 0 then "WHERE " ++ " AND ".intercalate (base ++ [c]) else "")
      ≠ (if (base ++ []).length > 0 then "WHERE " ++ " AND ".intercalate (base ++ []) else "") := by
  cases base with
  | nil =>
    refine ⟨⟨"WHERE ", by simp [String.intercalate, String.intercalate.go]⟩, ?_⟩
    intro h
    have h2 := congrArg String.length h
    simp [String.intercalate, String.intercalate.go, String.length_append] at h2
    exact absurd h2.1 (by decide)
  | cons a as =>
    have hj : " AND ".intercalate (a :: (as ++ [c]))
        = " AND ".intercalate (a :: as) ++ " AND " ++ c := by
      simp [String.intercalate, intercalate_go_append]
    have hl : (" AND ".intercalate (a :: (as ++ [c]))).length
        = (" AND ".intercalate (a :: as)).length + 5 + c.length := by
      rw [hj, String.length_append, String.length_append]
      rfl
    refine ⟨⟨"WHERE " ++ " AND ".intercalate (a :: as) ++ " AND ", ?_⟩, ?_⟩
    · simp [hj, String.append_assoc]
    · intro h
      have h2 := congrArg String.length h
      simp [String.length_append, hl] at h2
      omega

/-- C17 on the query: `pageQuery` on a page. -/
lemma page_query_owner (x : QueryExternals) (pm : Page) (mq : String)
    (data : Option String) (hM : x.CreateMetadataQuery "" pm.Metadata = (mq, data, none)) :
    (pageQuery x pm = pageQuery x { pm with Owner := "", SharedBy := "" } ↔
      pm.Owner = "" ∧ pm.SharedBy = "") ∧
    (∀ c ∈ ownerConditions pm, ∃ pre : String, (pageQuery x pm).1 = pre ++ c) ∧
    (pageQuery x pm).2 = none := by
  obtain ⟨base, hb⟩ := page_query_conditions x pm mq data hM
  have h1 := hb pm.Owner pm.SharedBy
  have h0 := hb "" ""
  have e1 : ({ pm with Owner := pm.Owner, SharedBy := pm.SharedBy } : Page) = pm := rfl
  rw [e1] at h1
  have hnil : ownerConditions { pm with Owner := "", SharedBy := "" } = [] :=
    (owner_conditions_nil _).2 ⟨rfl, rfl⟩
  rw [hnil] at h0
  by_cases hos : pm.Owner = "" ∧ pm.SharedBy = ""
  · have hn := (owner_conditions_nil pm).2 hos
    refine ⟨⟨fun _ => hos, fun _ => ?_⟩, ?_, ?_⟩
    · rw [h1, h0, hn]
    · rw [hn]; simp
    · rw [h1]
  · have hs : ∃ c, ownerConditions pm = [c] := by
      unfold ownerConditions
      by_cases ho : pm.Owner = "" <;> by_cases hs : pm.SharedBy = "" <;> simp [ho, hs]
      exact hos ⟨ho, hs⟩
    obtain ⟨c, hc⟩ := hs
    obtain ⟨⟨pre, hpre⟩, hne⟩ := where_append_singleton base c
    refine ⟨⟨fun h => ?_, fun h => absurd h hos⟩, ?_, ?_⟩
    · exfalso
      rw [h1, h0, hc] at h
      exact hne (congrArg Prod.fst h)
    · intro c' hc'
      rw [hc] at hc'
      simp at hc'
      subst hc'
      refine ⟨pre, ?_⟩
      rw [h1, hc]
      exact hpre
    · rw [h1]

/-- The owner and sharing conditions of `pageQuery`, case by case. -/
lemma page_query_owner_cases (x : QueryExternals) (pm : Page) (mq : String)
    (data : Option String) (hM : x.CreateMetadataQuery "" pm.Metadata = (mq, data, none)) :
    (pm.Owner ≠ "" → pm.SharedBy = "" →
      ∃ pre : String, (pageQuery x pm).1 = pre ++ ("c.owner_id = '" ++ pm.Owner ++ "'")) ∧
    (pm.Owner ≠ "" → pm.SharedBy ≠ "" →
      ∃ pre : String, (pageQuery x pm).1 = pre ++
        ("(c.owner_id = '" ++ pm.Owner ++ "' OR c.id IN (SELECT subject FROM policies WHERE object IN (SELECT object FROM policies WHERE subject = '" ++ pm.SharedBy ++ "' AND '" ++ pm.Action ++ "'=ANY(actions))))")) ∧
    (pm.Owner = "" → pm.SharedBy ≠ "" →
      ∃ pre : String, (pageQuery x pm).1 = pre ++
        ("c.owner_id != '" ++ pm.SharedBy ++ "' AND (c.id IN (SELECT subject FROM policies WHERE object IN (SELECT object FROM policies WHERE subject = '" ++ pm.SharedBy ++ "' AND '" ++ pm.Action ++ "'=ANY(actions))))")) := by
  have h := (page_query_owner x pm mq data hM).2.1
  refine ⟨fun ho hs => h _ ?_, fun ho hs => h _ ?_, fun ho hs => h _ ?_⟩ <;>
    simp [ownerConditions, ho, hs]

/-- C17, amended: for a caller for whom the admin check fails, `ListClients`
hands to `RetrieveAll`, and returns the result for, the requested page in
which "mine" as Owner and "mine" as SharedBy are replaced by the caller's
identity and the action is c_list; any other Owner or SharedBy is passed on as
requested.  So the caller's identity is in the filter whenever the request
said "mine".  On that page `pageQuery`, once the metadata condition is built
without error, returns no error and a text that ends with the owner condition
when only Owner is set, with the owner-or-shared condition when both are set,
and with the shared-only condition when only SharedBy is set; the text is that
of the page with Owner and SharedBy cleared exactly when both are empty. -/
theorem list_clients_non_admin_page {W : Type} (svc : policyService W) (x : QueryExternals)
    (token : String) (pm : Page) (w w1 w2 : W) (res : String) (e : Error)
    (hI : svc.auth.Identify token w = ((res, none), w1))
    (hZ : svc.authorize token thingsObjectKey listRelationKey w1 = (some e, w2)) :
    svc.ListClients token pm w = svc.clients.RetrieveAll (nonAdminPage res pm) w2 ∧
    nonAdminPage res pm
      = { pm with
          Owner := if pm.Owner = "mine" then res else pm.Owner,
          SharedBy := if pm.SharedBy = "mine" then res else pm.SharedBy,
          Action := "c_list" } ∧
    (pm.Owner = "mine" ∨ pm.SharedBy = "mine" →
      (nonAdminPage res pm).Owner = res ∨ (nonAdminPage res pm).SharedBy = res) ∧
    (ownerConditions (nonAdminPage res pm) = [] ↔
      (nonAdminPage res pm).Owner = "" ∧ (nonAdminPage res pm).SharedBy = "") ∧
    (∀ (mq : String) (data : Option String),
      x.CreateMetadataQuery "" (nonAdminPage res pm).Metadata = (mq, data, none) →
      (pageQuery x (nonAdminPage res pm)).2 = none ∧
      (pageQuery x (nonAdminPage res pm)
          = pageQuery x { nonAdminPage res pm with Owner := "", SharedBy := "" } ↔
        (nonAdminPage res pm).Owner = "" ∧ (nonAdminPage res pm).SharedBy = "") ∧
      ((nonAdminPage res pm).Owner ≠ "" → (nonAdminPage res pm).SharedBy = "" →
        ∃ pre : String, (pageQuery x (nonAdminPage res pm)).1
          = pre ++ ("c.owner_id = '" ++ (nonAdminPage res pm).Owner ++ "'")) ∧
      ((nonAdminPage res pm).Owner ≠ "" → (nonAdminPage res pm).SharedBy ≠ "" →
        ∃ pre : String, (pageQuery x (nonAdminPage res pm)).1
          = pre ++ ("(c.owner_id = '" ++ (nonAdminPage res pm).Owner ++ "' OR c.id IN (SELECT subject FROM policies WHERE object IN (SELECT object FROM policies WHERE subject = '" ++ (nonAdminPage res pm).SharedBy ++ "' AND '" ++ (nonAdminPage res pm).Action ++ "'=ANY(actions))))")) ∧
      ((nonAdminPage res pm).Owner = "" → (nonAdminPage res pm).SharedBy ≠ "" →
        ∃ pre : String, (pageQuery x (nonAdminPage res pm)).1
          = pre ++ ("c.owner_id != '" ++ (nonAdminPage res pm).SharedBy ++ "' AND (c.id IN (SELECT subject FROM policies WHERE object IN (SELECT object FROM policies WHERE subject = '" ++ (nonAdminPage res pm).SharedBy ++ "' AND '" ++ (nonAdminPage res pm).Action ++ "'=ANY(actions))))"))) := by
  have hp : nonAdminPage res pm
      = { pm with
          Owner := if pm.Owner = "mine" then res else pm.Owner,
          SharedBy := if pm.SharedBy = "mine" then res else pm.SharedBy,
          Action := "c_list" } := by
    unfold nonAdminPage
    by_cases h1 : pm.SharedBy = "mine" <;> by_cases h2 : pm.Owner = "mine" <;>
      simp [h1, h2, MyKey]
  refine ⟨list_clients_other_path svc token pm w w1 w2 res e hI hZ, hp, ?_,
    owner_conditions_nil _, ?_⟩
  · rw [hp]
    rintro (h | h)
    · left; simp [h]
    · right; simp [h]
  · intro mq data hM
    have h1 := page_query_owner x (nonAdminPage res pm) mq data hM
    have h2 := page_query_owner_cases x (nonAdminPage res pm) mq data hM
    exact ⟨h1.2.2, h1.1, h2.1, h2.2.1, h2.2.2⟩

/-- Witness of C17 amended: bob asks for his own things, and the query for the
page that reaches the repository names him as the owner. -/
theorem list_clients_non_admin_page_witness :
    memPolicyServiceT.ListClients "bob-token" { Page.zero with Owner := "mine" } ()
      = memPolicyServiceT.clients.RetrieveAll
          (nonAdminPage "bob" { Page.zero with Owner := "mine" }) () ∧
    nonAdminPage "bob" { Page.zero with Owner := "mine" }
      = { Page.zero with Owner := "bob", Action := "c_list" } ∧
    (memPolicyServiceT.ListClients "bob-token" { Page.zero with Owner := "mine" } ()).1
      = (⟨Page.zero, [bobThing]⟩, none) ∧
    pageQuery memQueryExternals (nonAdminPage "bob" { Page.zero with Owner := "mine" })
      = ("WHERE c.status = 0 AND c.owner_id = 'bob'", none) ∧
    pageQuery memQueryExternals (nonAdminPage "bob" { Page.zero with Owner := "mine" })
      ≠ pageQuery memQueryExternals
          { nonAdminPage "bob" { Page.zero with Owner := "mine" } with
            Owner := "", SharedBy := "" } ∧
    (∃ pre : String,
      (pageQuery memQueryExternals (nonAdminPage "bob" { Page.zero with Owner := "mine" })).1
        = pre ++ ("c.owner_id = '" ++
            (nonAdminPage "bob" { Page.zero with Owner := "mine" }).Owner ++ "'")) :=
  have t := list_clients_non_admin_page memPolicyServiceT memQueryExternals "bob-token"
    { Page.zero with Owner := "mine" } () () () "bob" errors.ErrAuthorization
    (by decide) (by decide)
  have q := t.2.2.2.2 "" none rfl
  ⟨t.1, by decide, by decide, by decide,
    fun h => absurd (q.2.1.1 h).1 (by decide), q.2.2.1 (by decide) (by decide)⟩

/-- C18 on the code: for a caller who is identified and for whom the admin
check fails, `ListClientsByGroup` hands to `Members` the requested page with
the caller as Owner; the page's Subject is left as requested, and when it is
empty the policy condition of the members query is empty: the query carries
no EXISTS condition on (caller, group, action). -/
theorem list_clients_by_group_page {W : Type} (svc : policyService W) (token groupID : String)
    (pm : Page) (w w1 w2 : W) (userID : String) (e : Error)
    (hI : svc.identifyUser token w = ((userID, none), w1))
    (hZ : svc.authorize token thingsObjectKey listRelationKey w1 = (some e, w2)) :
    svc.ListClientsByGroup token groupID pm w
      = svc.clients.Members groupID { pm with Owner := userID } w2 ∧
    ({ pm with Owner := userID } : Page).Subject = pm.Subject ∧
    (pm.Subject = "" → membersPolicyCondition { pm with Owner := userID } = "") := by
  refine ⟨by simp [policyService.ListClientsByGroup, hI, hZ], rfl, ?_⟩
  intro h
  simp [membersPolicyCondition, h]

/-- C18 at the failing input: bob, who is not admin, lists the members of
"group-1" with a page of any status.  `Members` receives the page with Owner
"bob" and an empty Subject, and the two queries that reach the database are
the members query, with an owner condition and no EXISTS condition, and the
count query. -/
theorem list_clients_by_group_page_witness :
    pgPolicyService.ListClientsByGroup "bob-token" "group-1" anyStatusPage []
      = pgPolicyService.clients.Members "group-1" { anyStatusPage with Owner := "bob" } [] ∧
    membersPolicyCondition { anyStatusPage with Owner := "bob" } = "" ∧
    (pgPolicyService.ListClientsByGroup "bob-token" "group-1" anyStatusPage []).2
      = ["SELECT c.id, c.name, c.tags, c.metadata, c.identity, c.secret, c.status, c.created_at FROM clients c\n\t\tINNER JOIN policies ON c.id=policies.subject WHERE c.owner_id = 'bob' AND policies.object = :group_id  ORDER BY c.created_at LIMIT :limit OFFSET :offset;",
         "SELECT COUNT(*) FROM clients c INNER JOIN policies ON c.id=policies.subject WHERE c.owner_id = 'bob' AND policies.object = :group_id;"] :=
  have t := list_clients_by_group_page pgPolicyService "bob-token" "group-1" anyStatusPage
    [] [] [] "bob" errors.ErrAuthorization (by decide) (by decide)
  ⟨t.1, t.2.2 (by decide), rfl⟩

/-! ## Theorems: saving clients -/

/-- The loop of `Save` on a client that cannot be converted. -/
lemma save_each_convert_error {W : Type} (d : TxDriver W) (x : QueryExternals) (cli : Client)
    (rest : List Client) (tx : Tx) (s : W) (dc : dbClient) (e : Error)
    (hc : toDBClient x cli = (dc, some e)) :
    clientRepo.saveEach d x (cli :: rest) tx s
      = ((some (errors.Wrap (some errors.ErrCreateEntity) (some e)), tx), s) := by
  simp [clientRepo.saveEach, hc]

/-- The loop of `Save` on a transaction that is done. -/
lemma save_each_tx_done {W : Type} (d : TxDriver W) (x : QueryExternals) (cli : Client)
    (rest : List Client) (s : W) (dc : dbClient)
    (hc : toDBClient x cli = (dc, none)) :
    clientRepo.saveEach d x (cli :: rest) ⟨true⟩ s
      = ((some (x.HandleError (some sqlErrTxDone) (some errors.ErrCreateEntity)), ⟨true⟩), s) := by
  simp [clientRepo.saveEach, hc, Tx.NamedExecContext, Tx.Rollback]

/-- The loop of `Save` when the insert succeeds. -/
lemma save_each_exec_ok {W : Type} (d : TxDriver W) (x : QueryExternals) (cli : Client)
    (rest : List Client) (s w1 : W) (dc : dbClient)
    (hc : toDBClient x cli = (dc, none)) (he : d.exec saveQuery dc s = (none, w1)) :
    clientRepo.saveEach d x (cli :: rest) ⟨false⟩ s = clientRepo.saveEach d x rest ⟨false⟩ w1 := by
  simp [clientRepo.saveEach, hc, Tx.NamedExecContext, he]

/-- The loop of `Save` when the insert fails and the rollback fails. -/
lemma save_each_rollback_error {W : Type} (d : TxDriver W) (x : QueryExternals) (cli : Client)
    (rest : List Client) (s w1 w2 : W) (dc : dbClient) (e e2 : Error)
    (hc : toDBClient x cli = (dc, none)) (he : d.exec saveQuery dc s = (some e, w1))
    (hr : d.rollback w1 = (some e2, w2)) :
    clientRepo.saveEach d x (cli :: rest) ⟨false⟩ s
      = ((some (x.HandleError (some e2) (some errors.ErrCreateEntity)), ⟨true⟩), w2) := by
  simp [clientRepo.saveEach, hc, Tx.NamedExecContext, Tx.Rollback, he, hr]

/-- The loop of `Save` when the insert fails and the rollback succeeds: the
loop goes on with the transaction done. -/
lemma save_each_rollback_ok {W : Type} (d : TxDriver W) (x : QueryExternals) (cli : Client)
    (rest : List Client) (s w1 w2 : W) (dc : dbClient) (e : Error)
    (hc : toDBClient x cli = (dc, none)) (he : d.exec saveQuery dc s = (some e, w1))
    (hr : d.rollback w1 = (none, w2)) :
    clientRepo.saveEach d x (cli :: rest) ⟨false⟩ s = clientRepo.saveEach d x rest ⟨true⟩ w2 := by
  simp [clientRepo.saveEach, hc, Tx.NamedExecContext, Tx.Rollback, he, hr]

/-- On a transaction that is done the loop reaches the database no more and
leaves the transaction done. -/
lemma save_each_done {W : Type} (d : TxDriver W) (x : QueryExternals) (cs : List Client) (s : W) :
    (clientRepo.saveEach d x cs ⟨true⟩ s).2 = s ∧
    (clientRepo.saveEach d x cs ⟨true⟩ s).1.2 = ⟨true⟩ := by
  cases cs with
  | nil => simp [clientRepo.saveEach]
  | cons c rest =>
    rcases hc : toDBClient x c with ⟨dc, eo⟩
    cases eo with
    | some e => rw [save_each_convert_error d x c rest ⟨true⟩ s dc e hc]; simp
    | none => rw [save_each_tx_done d x c rest s dc hc]; simp

/-- An error that the loop of `Save` returns is not nil. -/
lemma save_each_error_ne_none {W : Type} (d : TxDriver W) (x : QueryExternals)
    (hH : ∀ e wr, x.HandleError (some e) (some wr) ≠ none) (cs : List Client) :
    ∀ (tx : Tx) (s : W) (err : Option Error),
      (clientRepo.saveEach d x cs tx s).1.1 = some err → err ≠ none := by
  induction cs with
  | nil => intro tx s err h; simp [clientRepo.saveEach] at h
  | cons c rest ih =>
    intro tx s err h
    rcases hc : toDBClient x c with ⟨dc, eo⟩
    cases eo with
    | some e =>
      rw [save_each_convert_error d x c rest tx s dc e hc] at h
      simp only [Option.some.injEq] at h
      rw [← h]
      simp [errors.Wrap, errors.ErrCreateEntity]
    | none =>
      rcases tx with ⟨b⟩
      cases b with
      | true =>
        rw [save_each_tx_done d x c rest s dc hc] at h
        simp only [Option.some.injEq] at h
        rw [← h]
        exact hH _ _
      | false =>
        rcases he : d.exec saveQuery dc s with ⟨r, w1⟩
        cases r with
        | none =>
          rw [save_each_exec_ok d x c rest s w1 dc hc he] at h
          exact ih _ _ _ h
        | some e =>
          rcases hr : d.rollback w1 with ⟨r2, w2⟩
          cases r2 with
          | some e2 =>
            rw [save_each_rollback_error d x c rest s w1 w2 dc e e2 hc he hr] at h
            simp only [Option.some.injEq] at h
            rw [← h]
            exact hH _ _
          | none =>
            rw [save_each_rollback_ok d x c rest s w1 w2 dc e hc he hr] at h
            exact ih _ _ _ h

/-- The loop of `Save` over a recording database behaves as over the
database itself. -/
lemma save_each_recording {W : Type} (d : TxDriver W) (x : QueryExternals) (cs : List Client) :
    ∀ (tx : Tx) (w : W) (l : List TxEvent),
      (clientRepo.saveEach (recordingDriver d) x cs tx (w, l)).1
        = (clientRepo.saveEach d x cs tx w).1 ∧
      (clientRepo.saveEach (recordingDriver d) x cs tx (w, l)).2.1
        = (clientRepo.saveEach d x cs tx w).2 := by
  induction cs with
  | nil => intro tx w l; simp [clientRepo.saveEach]
  | cons c rest ih =>
    intro tx w l
    rcases hc : toDBClient x c with ⟨dc, eo⟩
    cases eo with
    | some e =>
      rw [save_each_convert_error d x c rest tx w dc e hc,
        save_each_convert_error (recordingDriver d) x c rest tx (w, l) dc e hc]
      simp
    | none =>
      rcases tx with ⟨b⟩
      cases b with
      | true =>
        rw [save_each_tx_done d x c rest w dc hc,
          save_each_tx_done (recordingDriver d) x c rest (w, l) dc hc]
        simp
      | false =>
        rcases he : d.exec saveQuery dc w with ⟨r, w1⟩
        cases r with
        | none =>
          have he2 : (recordingDriver d).exec saveQuery dc (w, l)
              = (none, (w1, l ++ [TxEvent.exec dc none])) := by
            simp [recordingDriver, he]
          rw [save_each_exec_ok d x c rest w w1 dc hc he,
            save_each_exec_ok (recordingDriver d) x c rest (w, l) _ dc hc he2]
          exact ih _ _ _
        | some e =>
          have he2 : (recordingDriver d).exec saveQuery dc (w, l)
              = (some e, (w1, l ++ [TxEvent.exec dc (some e)])) := by
            simp [recordingDriver, he]
          rcases hr : d.rollback w1 with ⟨r2, w2⟩
          cases r2 with
          | some e2 =>
            have hr2 : (recordingDriver d).rollback (w1, l ++ [TxEvent.exec dc (some e)])
                = (some e2, (w2, l ++ [TxEvent.exec dc (some e)]
                    ++ [TxEvent.rollback (some e2)])) := by
              simp [recordingDriver, hr]
            rw [save_each_rollback_error d x c rest w w1 w2 dc e e2 hc he hr,
              save_each_rollback_error (recordingDriver d) x c rest (w, l) _ _ dc e e2 hc he2 hr2]
            simp
          | none =>
            have hr2 : (recordingDriver d).rollback (w1, l ++ [TxEvent.exec dc (some e)])
                = (none, (w2, l ++ [TxEvent.exec dc (some e)] ++ [TxEvent.rollback none])) := by
              simp [recordingDriver, hr]
            rw [save_each_rollback_ok d x c rest w w1 w2 dc e hc he hr,
              save_each_rollback_ok (recordingDriver d) x c rest (w, l) _ _ dc e hc he2 hr2]
            exact ih _ _ _

/-- The loop of `Save` sends no commit to the database. -/
lemma save_each_no_commit {W : Type} (d : TxDriver W) (x : QueryExternals) (cs : List Client) :
    ∀ (tx : Tx) (w : W) (l : List TxEvent),
      (clientRepo.saveEach (recordingDriver d) x cs tx (w, l)).2.2.countP TxEvent.isCommit
        = l.countP TxEvent.isCommit := by
  induction cs with
  | nil => intro tx w l; simp [clientRepo.saveEach]
  | cons c rest ih =>
    intro tx w l
    rcases hc : toDBClient x c with ⟨dc, eo⟩
    cases eo with
    | some e =>
      rw [save_each_convert_error (recordingDriver d) x c rest tx (w, l) dc e hc]
    | none =>
      rcases tx with ⟨b⟩
      cases b with
      | true => rw [save_each_tx_done (recordingDriver d) x c rest (w, l) dc hc]
      | false =>
        rcases he : d.exec saveQuery dc w with ⟨r, w1⟩
        cases r with
        | none =>
          have he2 : (recordingDriver d).exec saveQuery dc (w, l)
              = (none, (w1, l ++ [TxEvent.exec dc none])) := by
            simp [recordingDriver, he]
          rw [save_each_exec_ok (recordingDriver d) x c rest (w, l) _ dc hc he2, ih]
          simp [TxEvent.isCommit]
        | some e =>
          have he2 : (recordingDriver d).exec saveQuery dc (w, l)
              = (some e, (w1, l ++ [TxEvent.exec dc (some e)])) := by
            simp [recordingDriver, he]
          rcases hr : d.rollback w1 with ⟨r2, w2⟩
          cases r2 with
          | some e2 =>
            have hr2 : (recordingDriver d).rollback (w1, l ++ [TxEvent.exec dc (some e)])
                = (some e2, (w2, l ++ [TxEvent.exec dc (some e)]
                    ++ [TxEvent.rollback (some e2)])) := by
              simp [recordingDriver, hr]
            rw [save_each_rollback_error (recordingDriver d) x c rest (w, l) _ _ dc e e2
              hc he2 hr2]
            simp [TxEvent.isCommit]
          | none =>
            have hr2 : (recordingDriver d).rollback (w1, l ++ [TxEvent.exec dc (some e)])
                = (none, (w2, l ++ [TxEvent.exec dc (some e)] ++ [TxEvent.rollback none])) := by
              simp [recordingDriver, hr]
            rw [save_each_rollback_ok (recordingDriver d) x c rest (w, l) _ _ dc e hc he2 hr2,
              ih]
            simp [TxEvent.isCommit]

/-- When the loop of `Save` leaves the transaction open, no insert was
refused, and if the loop ran to its end every client was inserted, in order. -/
lemma save_each_open {W : Type} (d : TxDriver W) (x : QueryExternals) (cs : List Client) :
    ∀ (w : W) (l : List TxEvent),
      (clientRepo.saveEach (recordingDriver d) x cs ⟨false⟩ (w, l)).1.2 = ⟨false⟩ →
      (clientRepo.saveEach (recordingDriver d) x cs ⟨false⟩ (w, l)).2.2.countP
          TxEvent.isFailedExec = l.countP TxEvent.isFailedExec ∧
      ((clientRepo.saveEach (recordingDriver d) x cs ⟨false⟩ (w, l)).1.1 = none →
        (clientRepo.saveEach (recordingDriver d) x cs ⟨false⟩ (w, l)).2.2
          = l ++ cs.map (fun c => TxEvent.exec (toDBClient x c).1 none)) := by
  induction cs with
  | nil => intro w l _; simp [clientRepo.saveEach]
  | cons c rest ih =>
    intro w l h
    rcases hc : toDBClient x c with ⟨dc, eo⟩
    cases eo with
    | some e =>
      rw [save_each_convert_error (recordingDriver d) x c rest ⟨false⟩ (w, l) dc e hc]
      simp
    | none =>
      rcases he : d.exec saveQuery dc w with ⟨r, w1⟩
      cases r with
      | none =>
        have he2 : (recordingDriver d).exec saveQuery dc (w, l)
            = (none, (w1, l ++ [TxEvent.exec dc none])) := by
          simp [recordingDriver, he]
        rw [save_each_exec_ok (recordingDriver d) x c rest (w, l) _ dc hc he2] at h ⊢
        have := ih w1 (l ++ [TxEvent.exec dc none]) h
        refine ⟨?_, ?_⟩
        · rw [this.1]; simp [TxEvent.isFailedExec]
        · intro hn; rw [this.2 hn]; simp [hc]
      | some e =>
        exfalso
        have he2 : (recordingDriver d).exec saveQuery dc (w, l)
            = (some e, (w1, l ++ [TxEvent.exec dc (some e)])) := by
          simp [recordingDriver, he]
        rcases hr : d.rollback w1 with ⟨r2, w2⟩
        cases r2 with
        | some e2 =>
          have hr2 : (recordingDriver d).rollback (w1, l ++ [TxEvent.exec dc (some e)])
              = (some e2, (w2, l ++ [TxEvent.exec dc (some e)]
                  ++ [TxEvent.rollback (some e2)])) := by
            simp [recordingDriver, hr]
          rw [save_each_rollback_error (recordingDriver d) x c rest (w, l) _ _ dc e e2
            hc he2 hr2] at h
          simp at h
        | none =>
          have hr2 : (recordingDriver d).rollback (w1, l ++ [TxEvent.exec dc (some e)])
              = (none, (w2, l ++ [TxEvent.exec dc (some e)] ++ [TxEvent.rollback none])) := by
            simp [recordingDriver, hr]
          rw [save_each_rollback_ok (recordingDriver d) x c rest (w, l) _ _ dc e hc he2 hr2,
            (save_each_done (recordingDriver d) x rest _).2] at h
          simp at h

/-- `Save` when the transaction cannot be begun. -/
lemma save_begin_error {W : Type} (d : TxDriver W) (x : QueryExternals) (cs : List Client)
    (w wb : W) (e : Error) (hb : d.begin w = (some e, wb)) :
    clientRepo.Save d x cs w
      = (([], errors.Wrap (some errors.ErrCreateEntity) (some e)), wb) := by
  simp [clientRepo.Save, hb]

/-- `Save` when the loop returns an error. -/
lemma save_loop_error {W : Type} (d : TxDriver W) (x : QueryExternals) (cs : List Client)
    (w wb w2 : W) (err : Option Error) (tx : Tx) (hb : d.begin w = (none, wb))
    (hl : clientRepo.saveEach d x cs ⟨false⟩ wb = ((some err, tx), w2)) :
    clientRepo.Save d x cs w = (([], err), w2) := by
  simp [clientRepo.Save, hb, hl]

/-- `Save` when the loop ends with the transaction done. -/
lemma save_commit_done {W : Type} (d : TxDriver W) (x : QueryExternals) (cs : List Client)
    (w wb w2 : W) (hb : d.begin w = (none, wb))
    (hl : clientRepo.saveEach d x cs ⟨false⟩ wb = ((none, ⟨true⟩), w2)) :
    clientRepo.Save d x cs w
      = (([], errors.Wrap (some errors.ErrCreateEntity) (some sqlErrTxDone)), w2) := by
  simp [clientRepo.Save, hb, hl, Tx.Commit]

/-- `Save` when the loop ends with the transaction open: the commit decides. -/
lemma save_commit_open {W : Type} (d : TxDriver W) (x : QueryExternals) (cs : List Client)
    (w wb w2 w3 : W) (rc : Option Error) (hb : d.begin w = (none, wb))
    (hl : clientRepo.saveEach d x cs ⟨false⟩ wb = ((none, ⟨false⟩), w2))
    (hc : d.commit w2 = (rc, w3)) :
    clientRepo.Save d x cs w
      = (match rc with
        | some err => (([], errors.Wrap (some errors.ErrCreateEntity) (some err)), w3)
        | none => ((cs, none), w3)) := by
  cases rc <;> simp [clientRepo.Save, hb, hl, Tx.Commit, hc]

/-- On the events that reach the database, for a `HandleError` that gives an
error for an error: a commit that succeeds gives the clients back after one
accepted insert per client, and a refused insert gives an empty list, an error
and no commit. -/
lemma save_events_all_or_nothing {W : Type} (d : TxDriver W) (x : QueryExternals)
    (hH : ∀ e wr, x.HandleError (some e) (some wr) ≠ none) (cs : List Client) (w : W) :
    (TxEvent.commit none ∈ saveEvents d x cs w →
      (clientRepo.Save d x cs w).1 = (cs, none) ∧
      saveEvents d x cs w
        = TxEvent.begin none :: cs.map (fun c => TxEvent.exec (toDBClient x c).1 none)
          ++ [TxEvent.commit none]) ∧
    ((∃ arg e, TxEvent.exec arg (some e) ∈ saveEvents d x cs w) →
      (clientRepo.Save d x cs w).1.1 = [] ∧ (clientRepo.Save d x cs w).1.2 ≠ none ∧
      ∀ r, TxEvent.commit r ∉ saveEvents d x cs w) := by
  rcases hb : d.begin w with ⟨rb, wb⟩
  cases rb with
  | some e =>
    have hb2 : (recordingDriver d).begin (w, []) = (some e, (wb, [TxEvent.begin (some e)])) := by
      simp [recordingDriver, hb]
    have hev : saveEvents d x cs w = [TxEvent.begin (some e)] := by
      unfold saveEvents
      rw [save_begin_error (recordingDriver d) x cs (w, []) _ e hb2]
    rw [hev]
    simp
  | none =>
    have hb2 : (recordingDriver d).begin (w, []) = (none, (wb, [TxEvent.begin none])) := by
      simp [recordingDriver, hb]
    have hsim := save_each_recording d x cs ⟨false⟩ wb [TxEvent.begin none]
    have hnc := save_each_no_commit d x cs ⟨false⟩ wb [TxEvent.begin none]
    rcases hl : clientRepo.saveEach (recordingDriver d) x cs ⟨false⟩ (wb, [TxEvent.begin none])
      with ⟨⟨oe, tx⟩, ⟨w2, l2⟩⟩
    rw [hl] at hsim hnc
    simp only [List.countP_cons, List.countP_nil, TxEvent.isCommit] at hnc
    have hnc2 : ∀ a ∈ l2, ¬ TxEvent.isCommit a = true := by
      have : l2.countP TxEvent.isCommit = 0 := by simpa using hnc
      exact List.countP_eq_zero.1 this
    have hld : clientRepo.saveEach d x cs ⟨false⟩ wb = ((oe, tx), w2) := by
      apply Prod.ext
      · exact hsim.1.symm
      · exact hsim.2.symm
    cases oe with
    | some err =>
      have hne := save_each_error_ne_none d x hH cs ⟨false⟩ wb err (by rw [hld])
      have hev : saveEvents d x cs w = l2 := by
        unfold saveEvents
        rw [save_loop_error (recordingDriver d) x cs (w, []) _ _ err tx hb2 hl]
      rw [hev, save_loop_error d x cs w wb w2 err tx hb hld]
      refine ⟨?_, ?_⟩
      · intro h
        exact absurd rfl (hnc2 _ h)
      · intro _
        exact ⟨rfl, hne, fun r h => absurd rfl (hnc2 _ h)⟩
    | none =>
      rcases tx with ⟨b⟩
      cases b with
      | true =>
        have hev : saveEvents d x cs w = l2 := by
          unfold saveEvents
          rw [save_commit_done (recordingDriver d) x cs (w, []) _ _ hb2 hl]
        rw [hev, save_commit_done d x cs w wb w2 hb hld]
        refine ⟨?_, ?_⟩
        · intro h
          exact absurd rfl (hnc2 _ h)
        · intro _
          exact ⟨rfl, by simp [errors.Wrap], fun r h => absurd rfl (hnc2 _ h)⟩
      | false =>
        have hop := save_each_open d x cs wb [TxEvent.begin none] (by rw [hl])
        rw [hl] at hop
        simp only [List.countP_cons, List.countP_nil, TxEvent.isFailedExec] at hop
        have hl2 : l2 = TxEvent.begin none
            :: cs.map (fun c => TxEvent.exec (toDBClient x c).1 none) := by
          simpa using hop.2 trivial
        have hnf : ∀ a ∈ l2, ¬ TxEvent.isFailedExec a = true := by
          have : l2.countP TxEvent.isFailedExec = 0 := by simpa using hop.1
          exact List.countP_eq_zero.1 this
        rcases hc : d.commit w2 with ⟨rc, w3⟩
        have hc2 : (recordingDriver d).commit (w2, l2) = (rc, (w3, l2 ++ [TxEvent.commit rc])) := by
          simp [recordingDriver, hc]
        have hev : saveEvents d x cs w = l2 ++ [TxEvent.commit rc] := by
          unfold saveEvents
          rw [save_commit_open (recordingDriver d) x cs (w, []) _ _ _ rc hb2 hl hc2]
          cases rc <;> rfl
        rw [hev, save_commit_open d x cs w wb w2 w3 rc hb hld hc]
        refine ⟨?_, ?_⟩
        · intro h
          rw [List.mem_append] at h
          rcases h with h | h
          · exact absurd rfl (hnc2 _ h)
          · simp only [List.mem_singleton, TxEvent.commit.injEq] at h
            subst h
            exact ⟨rfl, by rw [hl2]⟩
        · rintro ⟨arg, e, h⟩
          rw [List.mem_append] at h
          rcases h with h | h
          · exact absurd rfl (hnf _ h)
          · simp at h


/-- A batch that the database accepts starts with a client that converts and
whose insert is accepted. -/
lemma insert_all_cons {W : Type} (d : TxDriver W) (x : QueryExternals) (cli : Client)
    (rest : List Client) (w wk : W) (h : insertAll d x (cli :: rest) w = some wk) :
    ∃ dc w1, toDBClient x cli = (dc, none) ∧ d.exec saveQuery dc w = (none, w1) ∧
      insertAll d x rest w1 = some wk := by
  rcases hc : toDBClient x cli with ⟨dc, eo⟩
  cases eo with
  | some e => simp [insertAll, hc] at h
  | none =>
    rcases he : d.exec saveQuery dc w with ⟨r, w1⟩
    cases r with
    | some e => simp [insertAll, hc, he] at h
    | none =>
      simp [insertAll, hc, he] at h
      exact ⟨dc, w1, rfl, he, h⟩

/-- Over the clients that the database accepts the loop of `Save` goes on with
the transaction open. -/
lemma save_each_accepted {W : Type} (d : TxDriver W) (x : QueryExternals) (pre rest : List Client) :
    ∀ (w wk : W), insertAll d x pre w = some wk →
      clientRepo.saveEach d x (pre ++ rest) ⟨false⟩ w
        = clientRepo.saveEach d x rest ⟨false⟩ wk := by
  induction pre with
  | nil =>
    intro w wk h
    simp [insertAll] at h
    subst h
    rfl
  | cons c cs ih =>
    intro w wk h
    obtain ⟨dc, w1, hc, he, h2⟩ := insert_all_cons d x c cs w wk h
    rw [List.cons_append, save_each_exec_ok d x c (cs ++ rest) w w1 dc hc he]
    exact ih w1 wk h2

/-- What the recording database holds after a batch that the database
accepts. -/
lemma insert_all_recording {W : Type} (d : TxDriver W) (x : QueryExternals) (cs : List Client) :
    ∀ (w wk : W) (l : List TxEvent), insertAll d x cs w = some wk →
      insertAll (recordingDriver d) x cs (w, l)
        = some (wk, l ++ cs.map (fun c => TxEvent.exec (toDBClient x c).1 none)) := by
  induction cs with
  | nil =>
    intro w wk l h
    simp [insertAll] at h ⊢
    exact h
  | cons c cs ih =>
    intro w wk l h
    obtain ⟨dc, w1, hc, he, h2⟩ := insert_all_cons d x c cs w wk h
    have he2 : (recordingDriver d).exec saveQuery dc (w, l)
        = (none, (w1, l ++ [TxEvent.exec dc none])) := by
      simp [recordingDriver, he]
    have h3 := ih w1 wk (l ++ [TxEvent.exec dc none]) h2
    simp [insertAll, hc, he2, h3]

/-- A database that accepts the insert of every client of a batch in every
state accepts the batch. -/
lemma insert_all_total {W : Type} (d : TxDriver W) (x : QueryExternals) (cs : List Client)
    (hc : ∀ c ∈ cs, (toDBClient x c).2 = none)
    (he : ∀ c ∈ cs, ∀ v, (d.exec saveQuery (toDBClient x c).1 v).1 = none) :
    ∀ w : W, ∃ wk, insertAll d x cs w = some wk := by
  induction cs with
  | nil => intro w; exact ⟨w, rfl⟩
  | cons c cs ih =>
    intro w
    have hc1 := hc c (List.mem_cons_self _ _)
    have he1 := he c (List.mem_cons_self _ _) w
    rcases hcc : toDBClient x c with ⟨dc, eo⟩
    rw [hcc] at hc1 he1
    simp only at hc1 he1
    subst hc1
    rcases hee : d.exec saveQuery dc w with ⟨r, w1⟩
    rw [hee] at he1
    simp only at he1
    subst he1
    obtain ⟨wk, hk⟩ := ih (fun c2 h2 => hc c2 (List.mem_cons_of_mem _ h2))
      (fun c2 h2 => he c2 (List.mem_cons_of_mem _ h2)) w1
    exact ⟨wk, by simp [insertAll, hcc, hee, hk]⟩

/-- `Save` when the transaction begins, the database accepts the batch and the
commit succeeds. -/
lemma save_accepted {W : Type} (d : TxDriver W) (x : QueryExternals) (cs : List Client)
    (w wb wk wc : W) (hb : d.begin w = (none, wb)) (hi : insertAll d x cs wb = some wk)
    (hc : d.commit wk = (none, wc)) :
    clientRepo.Save d x cs w = ((cs, none), wc) := by
  have hl := save_each_accepted d x cs [] wb wk hi
  rw [List.append_nil] at hl
  have hl2 : clientRepo.saveEach d x cs ⟨false⟩ wb = ((none, ⟨false⟩), wk) := by
    rw [hl]; rfl
  rw [save_commit_open d x cs w wb wk wc none hb hl2 hc]

/-- The events of the loop of `Save` are among the events of `Save`. -/
lemma save_events_of_loop {W : Type} (d : TxDriver W) (x : QueryExternals) (cs : List Client)
    (w wb : W) (hb : d.begin w = (none, wb)) :
    ∀ ev ∈ (clientRepo.saveEach (recordingDriver d) x cs ⟨false⟩
        (wb, [TxEvent.begin none])).2.2, ev ∈ saveEvents d x cs w := by
  have hb2 : (recordingDriver d).begin (w, []) = (none, (wb, [TxEvent.begin none])) := by
    simp [recordingDriver, hb]
  rcases hl : clientRepo.saveEach (recordingDriver d) x cs ⟨false⟩ (wb, [TxEvent.begin none])
    with ⟨⟨oe, tx⟩, ⟨w2, l2⟩⟩
  intro ev hev
  simp only at hev
  cases oe with
  | some err =>
    unfold saveEvents
    rw [save_loop_error (recordingDriver d) x cs (w, []) _ _ err tx hb2 hl]
    exact hev
  | none =>
    rcases tx with ⟨b⟩
    cases b with
    | true =>
      unfold saveEvents
      rw [save_commit_done (recordingDriver d) x cs (w, []) _ _ hb2 hl]
      exact hev
    | false =>
      rcases hc : d.commit w2 with ⟨rc, w3⟩
      have hc2 : (recordingDriver d).commit (w2, l2)
          = (rc, (w3, l2 ++ [TxEvent.commit rc])) := by
        simp [recordingDriver, hc]
      have hev2 : saveEvents d x cs w = l2 ++ [TxEvent.commit rc] := by
        unfold saveEvents
        rw [save_commit_open (recordingDriver d) x cs (w, []) _ _ _ rc hb2 hl hc2]
        cases rc <;> rfl
      rw [hev2]
      exact List.mem_append_left _ hev

/-- An insert that the database refuses, after the inserts it accepted, is among
the events of `Save`. -/
lemma save_refused_event {W : Type} (d : TxDriver W) (x : QueryExternals)
    (pre post : List Client) (c : Client) (dc : dbClient) (e : Error) (w wb wk wf : W)
    (hb : d.begin w = (none, wb)) (hi : insertAll d x pre wb = some wk)
    (hc : toDBClient x c = (dc, none)) (he : d.exec saveQuery dc wk = (some e, wf)) :
    TxEvent.exec dc (some e) ∈ saveEvents d x (pre ++ c :: post) w := by
  apply save_events_of_loop d x (pre ++ c :: post) w wb hb
  have hi2 := insert_all_recording d x pre wb wk [TxEvent.begin none] hi
  rw [save_each_accepted (recordingDriver d) x pre (c :: post) _ _ hi2]
  have he2 : (recordingDriver d).exec saveQuery dc
        (wk, [TxEvent.begin none] ++ pre.map (fun c => TxEvent.exec (toDBClient x c).1 none))
      = (some e, (wf, [TxEvent.begin none]
          ++ pre.map (fun c => TxEvent.exec (toDBClient x c).1 none)
          ++ [TxEvent.exec dc (some e)])) := by
    simp [recordingDriver, he]
  rcases hr : d.rollback wf with ⟨r2, w2⟩
  cases r2 with
  | some e2 =>
    have hr2 : (recordingDriver d).rollback (wf, [TxEvent.begin none]
          ++ pre.map (fun c => TxEvent.exec (toDBClient x c).1 none)
          ++ [TxEvent.exec dc (some e)])
        = (some e2, (w2, [TxEvent.begin none]
          ++ pre.map (fun c => TxEvent.exec (toDBClient x c).1 none)
          ++ [TxEvent.exec dc (some e)] ++ [TxEvent.rollback (some e2)])) := by
      simp [recordingDriver, hr]
    rw [save_each_rollback_error (recordingDriver d) x c post _ _ _ dc e e2 hc he2 hr2]
    simp
  | none =>
    have hr2 : (recordingDriver d).rollback (wf, [TxEvent.begin none]
          ++ pre.map (fun c => TxEvent.exec (toDBClient x c).1 none)
          ++ [TxEvent.exec dc (some e)])
        = (none, (w2, [TxEvent.begin none]
          ++ pre.map (fun c => TxEvent.exec (toDBClient x c).1 none)
          ++ [TxEvent.exec dc (some e)] ++ [TxEvent.rollback none])) := by
      simp [recordingDriver, hr]
    rw [save_each_rollback_ok (recordingDriver d) x c post _ _ _ dc e hc he2 hr2,
      (save_each_done (recordingDriver d) x post _).1]
    simp

/-- C20: `Save` is all-or-nothing, for a transaction handle of the standard
library.  If the transaction begins, every client converts, the database
accepts every insert, and the commit succeeds, `Save` returns the input
clients unchanged with a nil error, and what reached the database is the
begin, one insert per client, in order, and the commit; the same result holds
for a database that accepts these inserts and the commit in every state.  If
the transaction begins and the database refuses an insert after the inserts it
accepted, then, for a `HandleError` that gives an error for an error, `Save`
returns an empty list with an error that is not nil, and no commit reaches the
database.  The same two facts hold read off the events that reached the
database: a commit that succeeded, and an insert that was refused. -/
theorem save_all_or_nothing {W : Type} (d : TxDriver W) (x : QueryExternals)
    (cs : List Client) (w : W) :
    (∀ wb wk wc : W, d.begin w = (none, wb) → insertAll d x cs wb = some wk →
      d.commit wk = (none, wc) →
      clientRepo.Save d x cs w = ((cs, none), wc) ∧
      saveEvents d x cs w
        = TxEvent.begin none :: cs.map (fun c => TxEvent.exec (toDBClient x c).1 none)
          ++ [TxEvent.commit none]) ∧
    ((d.begin w).1 = none → (∀ c ∈ cs, (toDBClient x c).2 = none) →
      (∀ c ∈ cs, ∀ v, (d.exec saveQuery (toDBClient x c).1 v).1 = none) →
      (∀ v, (d.commit v).1 = none) →
      (clientRepo.Save d x cs w).1 = (cs, none)) ∧
    ((∀ e wr, x.HandleError (some e) (some wr) ≠ none) →
      ∀ (pre post : List Client) (c : Client) (dc : dbClient) (e : Error) (wb wk wf : W),
        cs = pre ++ c :: post → d.begin w = (none, wb) → insertAll d x pre wb = some wk →
        toDBClient x c = (dc, none) → d.exec saveQuery dc wk = (some e, wf) →
        (clientRepo.Save d x cs w).1.1 = [] ∧ (clientRepo.Save d x cs w).1.2 ≠ none ∧
        ∀ r, TxEvent.commit r ∉ saveEvents d x cs w) ∧
    ((∀ e wr, x.HandleError (some e) (some wr) ≠ none) →
      (TxEvent.commit none ∈ saveEvents d x cs w →
        (clientRepo.Save d x cs w).1 = (cs, none) ∧
        saveEvents d x cs w
          = TxEvent.begin none :: cs.map (fun c => TxEvent.exec (toDBClient x c).1 none)
            ++ [TxEvent.commit none]) ∧
      ((∃ arg e, TxEvent.exec arg (some e) ∈ saveEvents d x cs w) →
        (clientRepo.Save d x cs w).1.1 = [] ∧ (clientRepo.Save d x cs w).1.2 ≠ none ∧
        ∀ r, TxEvent.commit r ∉ saveEvents d x cs w)) := by
  refine ⟨?_, ?_, ?_, fun hH => save_events_all_or_nothing d x hH cs w⟩
  · intro wb wk wc hb hi hc
    refine ⟨save_accepted d x cs w wb wk wc hb hi hc, ?_⟩
    have hb2 : (recordingDriver d).begin (w, []) = (none, (wb, [TxEvent.begin none])) := by
      simp [recordingDriver, hb]
    have hi2 := insert_all_recording d x cs wb wk [TxEvent.begin none] hi
    have hc2 : (recordingDriver d).commit
          (wk, [TxEvent.begin none] ++ cs.map (fun c => TxEvent.exec (toDBClient x c).1 none))
        = (none, (wc, [TxEvent.begin none]
            ++ cs.map (fun c => TxEvent.exec (toDBClient x c).1 none)
            ++ [TxEvent.commit none])) := by
      simp [recordingDriver, hc]
    unfold saveEvents
    rw [save_accepted (recordingDriver d) x cs (w, []) _ _ _ hb2 hi2 hc2]
    simp
  · intro hb hc he hm
    rcases hbb : d.begin w with ⟨rb, wb⟩
    rw [hbb] at hb
    simp only at hb
    subst hb
    obtain ⟨wk, hk⟩ := insert_all_total d x cs hc he wb
    rcases hcc : d.commit wk with ⟨rc, wc⟩
    have hm2 := hm wk
    rw [hcc] at hm2
    simp only at hm2
    subst hm2
    rw [save_accepted d x cs w wb wk wc hbb hk hcc]
  · intro hH pre post c dc e wb wk wf hcs hb hi hc he
    subst hcs
    exact (save_events_all_or_nothing d x hH (pre ++ c :: post) w).2
      ⟨dc, e, save_refused_event d x pre post c dc e w wb wk wf hb hi hc he⟩

/-- Witness of C20: alice's and bob's things saved into an empty table, and
into a table that already holds bob's thing, where the second insert is
refused, the rollback succeeds, and the commit fails on the transaction that
is done without reaching the database. -/
theorem save_all_or_nothing_witness :
    (clientRepo.Save memTxDriver memQueryExternals [aliceThing, bobThing] ⟨[], []⟩
        = (([aliceThing, bobThing], none), ⟨["thing-a", "thing-b"], []⟩) ∧
      saveEvents memTxDriver memQueryExternals [aliceThing, bobThing] ⟨[], []⟩
        = TxEvent.begin none
          :: [aliceThing, bobThing].map
            (fun c => TxEvent.exec (toDBClient memQueryExternals c).1 none)
          ++ [TxEvent.commit none]) ∧
    ((clientRepo.Save memTxDriver memQueryExternals [aliceThing, bobThing]
          ⟨["thing-b"], []⟩).1.1 = [] ∧
      (clientRepo.Save memTxDriver memQueryExternals [aliceThing, bobThing]
          ⟨["thing-b"], []⟩).1.2 ≠ none ∧
      ∀ r, TxEvent.commit r ∉
        saveEvents memTxDriver memQueryExternals [aliceThing, bobThing] ⟨["thing-b"], []⟩) ∧
    clientRepo.Save memTxDriver memQueryExternals [aliceThing, bobThing] ⟨["thing-b"], []⟩
      = (([], some (Error.wrapped "failed to create entity in the db" sqlErrTxDone)),
          ⟨["thing-b"], []⟩) ∧
    saveEvents memTxDriver memQueryExternals [aliceThing, bobThing] ⟨["thing-b"], []⟩
      = [TxEvent.begin none,
         TxEvent.exec (toDBClient memQueryExternals aliceThing).1 none,
         TxEvent.exec (toDBClient memQueryExternals bobThing).1
           (some (Error.plain "duplicate key value violates unique constraint")),
         TxEvent.rollback none] :=
  ⟨(save_all_or_nothing memTxDriver memQueryExternals [aliceThing, bobThing] ⟨[], []⟩).1
      ⟨[], []⟩ ⟨[], ["thing-a", "thing-b"]⟩ ⟨["thing-a", "thing-b"], []⟩
      (by decide) (by decide) (by decide),
   (save_all_or_nothing memTxDriver memQueryExternals [aliceThing, bobThing]
      ⟨["thing-b"], []⟩).2.2.1
      (by intro e wr; simp [memQueryExternals, errors.Wrap])
      [aliceThing] [] bobThing (toDBClient memQueryExternals bobThing).1
      (Error.plain "duplicate key value violates unique constraint")
      ⟨["thing-b"], []⟩ ⟨["thing-b"], ["thing-a"]⟩ ⟨["thing-b"], ["thing-a"]⟩
      (by decide) (by decide) (by decide) (by decide) (by decide),
   by decide, by decide⟩

/-! ## Theorems: enabling and disabling -/

/-- `identifyUser` over recording collaborators behaves as `identifyUser`
and records the identification. -/
lemma identify_user_recording {W : Type} (svc : policyService W) (token : String) (w : W)
    (l : List AccessCall) :
    svc.recording.identifyUser token (w, l)
      = ((svc.identifyUser token w).1,
          ((svc.identifyUser token w).2, l ++ [AccessCall.identify token])) := by
  rcases h : svc.auth.Identify token w with ⟨⟨id, e⟩, w1⟩
  cases e <;>
    simp [policyService.identifyUser, policyService.recording, AuthServiceClient.recording, h]

/-- `authorize` over recording collaborators behaves as `authorize` and
records no `ChangeStatus`. -/
lemma authorize_recording {W : Type} (svc : policyService W) (subject object relation : String)
    (w : W) (l : List AccessCall) :
    (svc.recording.authorize subject object relation (w, l)).1
      = (svc.authorize subject object relation w).1 ∧
    (svc.recording.authorize subject object relation (w, l)).2.1
      = (svc.authorize subject object relation w).2 ∧
    (svc.recording.authorize subject object relation (w, l)).2.2.filter
        AccessCall.isChangeStatus = l.filter AccessCall.isChangeStatus := by
  rcases hI : svc.auth.Identify subject w with ⟨⟨userID, ei⟩, w1⟩
  cases ei with
  | some e =>
    simp [policyService.authorize, policyService.identifyUser, policyService.recording,
      AuthServiceClient.recording, hI, AccessCall.isChangeStatus, errors.Wrap]
  | none =>
    rcases hR : svc.clients.RetrieveByID object w1 with ⟨⟨thing, er⟩, w2⟩
    cases er with
    | some e =>
      simp [policyService.authorize, policyService.identifyUser, policyService.recording,
        AuthServiceClient.recording, ThingRepository.recording, hI, hR,
        AccessCall.isChangeStatus, errors.Wrap]
    | none =>
      by_cases ho : thing.Owner = userID
      · simp [policyService.authorize, policyService.identifyUser, policyService.recording,
          AuthServiceClient.recording, ThingRepository.recording, hI, hR, ho,
          AccessCall.isChangeStatus, errors.Wrap]
      · rcases hA : svc.auth.Authorize ⟨subject, object, relation, entityType⟩ w2
          with ⟨⟨ok, ea⟩, w3⟩
        cases ea with
        | some e =>
          simp [policyService.authorize, policyService.identifyUser, policyService.recording,
            AuthServiceClient.recording, ThingRepository.recording, hI, hR, ho, hA,
            AccessCall.isChangeStatus, errors.Wrap]
        | none =>
          cases ok <;>
          simp [policyService.authorize, policyService.identifyUser, policyService.recording,
            AuthServiceClient.recording, ThingRepository.recording, hI, hR, ho, hA,
            AccessCall.isChangeStatus, errors.Wrap]

/-- `changeClientStatus` for an identified and authorized caller and a stored
client: nothing is changed when the stored status is the requested one, and
otherwise `ChangeStatus` is the one call of its kind, with the requested client
updated by the caller. -/
lemma change_client_status_run {W : Type} (svc : policyService W) (token : String)
    (client : Client) (w w1 w2 w3 : W) (userID : String) (stored : Client)
    (hU : svc.identifyUser token w = ((userID, none), w1))
    (hZ : svc.authorize token client.ID deleteRelationKey w1 = (none, w2))
    (hR : svc.clients.RetrieveByID client.ID w2 = ((stored, none), w3)) :
    svc.changeClientStatus token client w
      = (if stored.Status = client.Status then
          ((Client.zero, some ErrStatusAlreadyAssigned), w3)
        else svc.clients.ChangeStatus { client with UpdatedBy := userID } w3) ∧
    (svc.recording.changeClientStatus token client (w, [])).2.2.filter
        AccessCall.isChangeStatus
      = (if stored.Status = client.Status then []
        else [AccessCall.changeStatus { client with UpdatedBy := userID }]) := by
  constructor
  · by_cases hs : stored.Status = client.Status <;>
      simp [policyService.changeClientStatus, hU, hZ, hR, hs]
  · have hU2 := identify_user_recording svc token w []
    rw [hU] at hU2
    simp only [List.nil_append] at hU2
    have hZ2 := authorize_recording svc token client.ID deleteRelationKey w1
      [AccessCall.identify token]
    rw [hZ] at hZ2
    rcases hZ3 : svc.recording.authorize token client.ID deleteRelationKey
      (w1, [AccessCall.identify token]) with ⟨r, ⟨w2', l2⟩⟩
    rw [hZ3] at hZ2
    simp only [List.filter_cons, List.filter_nil, AccessCall.isChangeStatus] at hZ2
    obtain ⟨rfl, rfl, hl2⟩ := hZ2
    have hR2 : svc.recording.clients.RetrieveByID client.ID (w2', l2)
        = ((stored, none), (w3, l2 ++ [AccessCall.retrieveByID client.ID])) := by
      simp [policyService.recording, ThingRepository.recording, hR]
    have hl3 : List.filter AccessCall.isChangeStatus l2 = [] := by simpa using hl2
    by_cases hs : stored.Status = client.Status
    · simp [policyService.changeClientStatus, hU2, hZ3, hR2, hs, hl3, AccessCall.isChangeStatus]
    · have hC : svc.recording.clients.ChangeStatus { client with UpdatedBy := userID }
          (w3, l2 ++ [AccessCall.retrieveByID client.ID])
          = ((svc.clients.ChangeStatus { client with UpdatedBy := userID } w3).1,
              ((svc.clients.ChangeStatus { client with UpdatedBy := userID } w3).2,
                l2 ++ [AccessCall.retrieveByID client.ID]
                  ++ [AccessCall.changeStatus { client with UpdatedBy := userID }])) := by
        simp [policyService.recording, ThingRepository.recording]
      simp [policyService.changeClientStatus, hU2, hZ3, hR2, hs, hC, hl3,
        AccessCall.isChangeStatus]

/-- The world after `EnableClient` is the world after `changeClientStatus`. -/
lemma enable_client_world {W : Type} (svc : policyService W) (now : W → Nat) (token id : String)
    (w : W) :
    (svc.EnableClient now token id w).2
      = (svc.changeClientStatus token
          { Client.zero with ID := id, Status := EnabledStatus, UpdatedAt := now w } w).2 := by
  unfold policyService.EnableClient
  rcases svc.changeClientStatus token
    { Client.zero with ID := id, Status := EnabledStatus, UpdatedAt := now w } w
    with ⟨⟨c, e⟩, w1⟩
  cases e <;> rfl

/-- The world after `DisableClient` is the world after `changeClientStatus`. -/
lemma disable_client_world {W : Type} (svc : policyService W) (now : W → Nat) (token id : String)
    (w : W) :
    (svc.DisableClient now token id w).2
      = (svc.changeClientStatus token
          { Client.zero with ID := id, Status := DisabledStatus, UpdatedAt := now w } w).2 := by
  unfold policyService.DisableClient
  rcases svc.changeClientStatus token
    { Client.zero with ID := id, Status := DisabledStatus, UpdatedAt := now w } w
    with ⟨⟨c, e⟩, w1⟩
  cases e <;> rfl

/-- C21: for a caller who is identified and authorized and a client that the
repository finds, `EnableClient` (resp. `DisableClient`) on a client whose
stored status is already enabled (resp. disabled) returns the empty client
with `ErrStatusAlreadyAssigned` wrapped in `ErrEnableClient` (resp.
`ErrDisableClient`), an error that contains both, and makes no call of
`ChangeStatus`; when the stored status differs, `ChangeStatus` is called
exactly once, with the client of the given id, the requested status, the time
of the request and `UpdatedBy` set to the identified user. -/
theorem enable_disable_status_check {W : Type} (svc : policyService W) (now : W → Nat)
    (token id : String) (w w1 w2 w3 : W) (userID : String) (stored : Client)
    (hU : svc.identifyUser token w = ((userID, none), w1))
    (hZ : svc.authorize token id deleteRelationKey w1 = (none, w2))
    (hR : svc.clients.RetrieveByID id w2 = ((stored, none), w3)) :
    (stored.Status = EnabledStatus →
      svc.EnableClient now token id w
        = ((Client.zero, some (Error.wrapped ErrEnableClient.Msg ErrStatusAlreadyAssigned)), w3) ∧
      errors.Contains (svc.EnableClient now token id w).1.2 (some ErrStatusAlreadyAssigned)
        = true ∧
      errors.Contains (svc.EnableClient now token id w).1.2 (some ErrEnableClient) = true ∧
      (svc.enableClientCalls now token id w).filter AccessCall.isChangeStatus = []) ∧
    (stored.Status = DisabledStatus →
      svc.DisableClient now token id w
        = ((Client.zero, some (Error.wrapped ErrDisableClient.Msg ErrStatusAlreadyAssigned)),
            w3) ∧
      errors.Contains (svc.DisableClient now token id w).1.2 (some ErrStatusAlreadyAssigned)
        = true ∧
      errors.Contains (svc.DisableClient now token id w).1.2 (some ErrDisableClient) = true ∧
      (svc.disableClientCalls now token id w).filter AccessCall.isChangeStatus = []) ∧
    (stored.Status ≠ EnabledStatus →
      (svc.enableClientCalls now token id w).filter AccessCall.isChangeStatus
        = [AccessCall.changeStatus
            { Client.zero with
              ID := id, Status := EnabledStatus, UpdatedAt := now w, UpdatedBy := userID }]) ∧
    (stored.Status ≠ DisabledStatus →
      (svc.disableClientCalls now token id w).filter AccessCall.isChangeStatus
        = [AccessCall.changeStatus
            { Client.zero with
              ID := id, Status := DisabledStatus, UpdatedAt := now w, UpdatedBy := userID }]) := by
  have he := change_client_status_run svc token
    { Client.zero with ID := id, Status := EnabledStatus, UpdatedAt := now w }
    w w1 w2 w3 userID stored hU hZ hR
  have hd := change_client_status_run svc token
    { Client.zero with ID := id, Status := DisabledStatus, UpdatedAt := now w }
    w w1 w2 w3 userID stored hU hZ hR
  have hce : svc.enableClientCalls now token id w
      = (svc.recording.changeClientStatus token
          { Client.zero with ID := id, Status := EnabledStatus, UpdatedAt := now w }
          (w, [])).2.2 := by
    unfold policyService.enableClientCalls
    rw [enable_client_world]
  have hcd : svc.disableClientCalls now token id w
      = (svc.recording.changeClientStatus token
          { Client.zero with ID := id, Status := DisabledStatus, UpdatedAt := now w }
          (w, [])).2.2 := by
    unfold policyService.disableClientCalls
    rw [disable_client_world]
  refine ⟨?_, ?_, ?_, ?_⟩
  · intro hs
    have h1 : svc.EnableClient now token id w
        = ((Client.zero, some (Error.wrapped ErrEnableClient.Msg ErrStatusAlreadyAssigned)),
            w3) := by
      unfold policyService.EnableClient
      rw [he.1]
      simp [hs, errors.Wrap]
    refine ⟨h1, ?_, ?_, ?_⟩
    · rw [h1]; rfl
    · rw [h1]; rfl
    · rw [hce, he.2]; simp [hs]
  · intro hs
    have h1 : svc.DisableClient now token id w
        = ((Client.zero, some (Error.wrapped ErrDisableClient.Msg ErrStatusAlreadyAssigned)),
            w3) := by
      unfold policyService.DisableClient
      rw [hd.1]
      simp [hs, errors.Wrap]
    refine ⟨h1, ?_, ?_, ?_⟩
    · rw [h1]; rfl
    · rw [h1]; rfl
    · rw [hcd, hd.2]; simp [hs]
  · intro hs
    rw [hce, he.2]
    simp [hs]
  · intro hs
    rw [hcd, hd.2]
    simp [hs]

/-- Witness of C21: alice enables her thing that is enabled already, and her
thing that is disabled, at time 7. -/
theorem enable_disable_status_check_witness :
    (memStatusService.EnableClient (fun _ => 7) "alice-token" "thing-a" ()
        = ((Client.zero, some (Error.wrapped ErrEnableClient.Msg ErrStatusAlreadyAssigned)),
            ()) ∧
      errors.Contains (memStatusService.EnableClient (fun _ => 7) "alice-token" "thing-a" ()).1.2
        (some ErrStatusAlreadyAssigned) = true ∧
      errors.Contains (memStatusService.EnableClient (fun _ => 7) "alice-token" "thing-a" ()).1.2
        (some ErrEnableClient) = true ∧
      (memStatusService.enableClientCalls (fun _ => 7) "alice-token" "thing-a" ()).filter
        AccessCall.isChangeStatus = []) ∧
    (memStatusService.enableClientCalls (fun _ => 7) "alice-token" "thing-d" ()).filter
        AccessCall.isChangeStatus
      = [AccessCall.changeStatus
          { Client.zero with
            ID := "thing-d", Status := EnabledStatus, UpdatedAt := 7, UpdatedBy := "alice" }] ∧
    memStatusService.enableClientCalls (fun _ => 7) "alice-token" "thing-d" ()
      = [AccessCall.identify "alice-token", AccessCall.identify "alice-token",
         AccessCall.retrieveByID "thing-d", AccessCall.retrieveByID "thing-d",
         AccessCall.changeStatus
          { Client.zero with
            ID := "thing-d", Status := EnabledStatus, UpdatedAt := 7, UpdatedBy := "alice" }] :=
  ⟨(enable_disable_status_check memStatusService (fun _ => 7) "alice-token" "thing-a"
      () () () () "alice" aliceThing (by decide) (by decide) (by decide)).1 (by decide),
   (enable_disable_status_check memStatusService (fun _ => 7) "alice-token" "thing-d"
      () () () () "alice" aliceDisabledThing (by decide) (by decide) (by decide)).2.2.1
      (by decide),
   by decide⟩

/-! ## Theorems: the write value -/

section WriteValue

open modbus

/-- C22: `UnmarshalJSON` decodes into a two-variant union.  When the input
decodes as a `uint16` the data is that single value, whether or not the input
also decodes as bytes; when it does not but decodes as a byte sequence the
data is that sequence; when it decodes as neither, the error is returned and
the wrapper is unchanged.  After a nil error the data is a single value or a
byte sequence, and `Write` with it on a coil or on a register makes exactly
one client operation: the branch for other kinds of value is not reached. -/
theorem value_wrapper_union {W : Type} (j : Decoder) (vw : ValueWrapper) (data : String)
    (c : modbus.Client W) (address quantity : Nat) (iotype : dataPoint) (w : W) :
    (∀ num, j.unmarshalUint16 data = (num, none) →
      vw.UnmarshalJSON j data = (⟨Value.uint16 num⟩, none)) ∧
    (∀ n e b, j.unmarshalUint16 data = (n, some e) → j.unmarshalBytes data = (b, none) →
      vw.UnmarshalJSON j data = (⟨Value.bytes b⟩, none)) ∧
    (∀ n e b e2, j.unmarshalUint16 data = (n, some e) → j.unmarshalBytes data = (b, some e2) →
      vw.UnmarshalJSON j data = (vw, some errUnmarshalValue)) ∧
    ((vw.UnmarshalJSON j data).2 = none →
      (∃ v, (vw.UnmarshalJSON j data).1.Data = Value.uint16 v) ∨
      (∃ b, (vw.UnmarshalJSON j data).1.Data = Value.bytes b)) ∧
    ((vw.UnmarshalJSON j data).2 = none → iotype = Coil ∨ iotype = Register →
      (writeCalls c address quantity (vw.UnmarshalJSON j data).1.Data iotype w).length = 1) := by
  rcases h1 : j.unmarshalUint16 data with ⟨n, e1⟩
  rcases h2 : j.unmarshalBytes data with ⟨b, e2⟩
  cases e1 with
  | none =>
    have hr : vw.UnmarshalJSON j data = (⟨Value.uint16 n⟩, none) := by
      simp [ValueWrapper.UnmarshalJSON, h1]
    rw [hr]
    refine ⟨by simp, by simp, by simp, by simp, ?_⟩
    rintro _ (rfl | rfl) <;> rfl
  | some e =>
    cases e2 with
    | none =>
      have hr : vw.UnmarshalJSON j data = (⟨Value.bytes b⟩, none) := by
        simp [ValueWrapper.UnmarshalJSON, h1, h2]
      rw [hr]
      refine ⟨by simp, by simp, by simp, by simp, ?_⟩
      rintro _ (rfl | rfl) <;> rfl
    | some e' =>
      have hr : vw.UnmarshalJSON j data = (vw, some errUnmarshalValue) := by
        simp [ValueWrapper.UnmarshalJSON, h1, h2]
      rw [hr]
      simp

/-- Witness of C22: the input 255, which is a number; null, which decodes as
a number and as bytes; a base64 string; and an object, which is neither. -/
theorem value_wrapper_union_witness :
    (ValueWrapper.mk (Value.other "nil")).UnmarshalJSON memDecoder "255"
      = (⟨Value.uint16 255⟩, none) ∧
    (ValueWrapper.mk (Value.other "nil")).UnmarshalJSON memDecoder "null"
      = (⟨Value.uint16 0⟩, none) ∧
    (ValueWrapper.mk (Value.other "nil")).UnmarshalJSON memDecoder "\"AQI=\""
      = (⟨Value.bytes [1, 2]⟩, none) ∧
    (ValueWrapper.mk (Value.uint16 9)).UnmarshalJSON memDecoder "\x7b\x7d"
      = (⟨Value.uint16 9⟩, some errUnmarshalValue) ∧
    (writeCalls echoClient 7 2
      ((ValueWrapper.mk (Value.other "nil")).UnmarshalJSON memDecoder "\"AQI=\"").1.Data
      "register" 0).length = 1 :=
  ⟨(value_wrapper_union memDecoder ⟨Value.other "nil"⟩ "255" echoClient 7 2 "coil" 0).1
      255 (by decide),
   (value_wrapper_union memDecoder ⟨Value.other "nil"⟩ "null" echoClient 7 2 "coil" 0).1
      0 (by decide),
   (value_wrapper_union memDecoder ⟨Value.other "nil"⟩ "\"AQI=\"" echoClient 7 2 "coil" 0).2.1
      0 (Error.plain "json: cannot unmarshal into Go value of type uint16") [1, 2]
      (by decide) (by decide),
   (value_wrapper_union memDecoder ⟨Value.uint16 9⟩ "\x7b\x7d" echoClient 7 2 "coil" 0).2.2.1
      0 (Error.plain "json: cannot unmarshal into Go value of type uint16") []
      (Error.plain "json: cannot unmarshal into Go value of type []uint8")
      (by decide) (by decide),
   (value_wrapper_union memDecoder ⟨Value.other "nil"⟩ "\"AQI=\"" echoClient 7 2
      "register" 0).2.2.2.2 (by decide) (Or.inr rfl)⟩

end WriteValue

/-! ## Theorems: the groups repository test double -/

section GroupsMock

open groups mocks

/-- C23: the test double reports a missing entity for the reserved id.  For
a call that the mock expects, whatever return values are configured for it:
`RetrieveByID` of `WrongID`, `Update` and `ChangeStatus` of a group whose id
is `WrongID`, and `Memberships` of the client `WrongID` return the empty value
with `errors.ErrNotFound`; for any other id, `RetrieveByID`, `Update` and
`Memberships` return exactly the configured value and error. -/
theorem mock_wrong_id_not_found {W : Type} (m : GroupRepository W) (w w1 : W) (ret : Arguments)
    (id : String) (g cfg : Group) (gm : GroupsPage) (page : MembershipsPage)
    (e : Option Error) :
    (m.Called (MockCall.retrieveByID WrongID) w = (some ret, w1) →
      m.RetrieveByID WrongID w = (some (Group.zero, some errors.ErrNotFound), w1)) ∧
    (g.ID = WrongID → m.Called (MockCall.update g) w = (some ret, w1) →
      m.Update g w = (some (Group.zero, some errors.ErrNotFound), w1)) ∧
    (g.ID = WrongID → m.Called (MockCall.changeStatus g) w = (some ret, w1) →
      m.ChangeStatus g w = (some (Group.zero, some errors.ErrNotFound), w1)) ∧
    (m.Called (MockCall.memberships WrongID gm) w = (some ret, w1) →
      m.Memberships WrongID gm w = (some (MembershipsPage.zero, some errors.ErrNotFound), w1)) ∧
    (id ≠ WrongID →
      m.Called (MockCall.retrieveByID id) w = (some [RetValue.group cfg, RetValue.ofError e], w1) →
      m.RetrieveByID id w = (some (cfg, e), w1)) ∧
    (g.ID ≠ WrongID →
      m.Called (MockCall.update g) w = (some [RetValue.group cfg, RetValue.ofError e], w1) →
      m.Update g w = (some (cfg, e), w1)) ∧
    (id ≠ WrongID →
      m.Called (MockCall.memberships id gm) w
        = (some [RetValue.membershipsPage page, RetValue.ofError e], w1) →
      m.Memberships id gm w = (some (page, e), w1)) := by
  have he : getError [RetValue.group cfg, RetValue.ofError e] 1 = some e := by
    cases e <;> rfl
  have he2 : getError [RetValue.membershipsPage page, RetValue.ofError e] 1 = some e := by
    cases e <;> rfl
  refine ⟨?_, ?_, ?_, ?_, ?_, ?_, ?_⟩
  · intro h
    simp [GroupRepository.RetrieveByID, h]
  · intro hg h
    simp [GroupRepository.Update, h, hg]
  · intro hg h
    simp [GroupRepository.ChangeStatus, h, hg]
  · intro h
    simp [GroupRepository.Memberships, h]
  · intro hid h
    simp [GroupRepository.RetrieveByID, h, hid, he, results, getGroup]
  · intro hg h
    simp [GroupRepository.Update, h, hg, he, results, getGroup]
  · intro hid h
    simp [GroupRepository.Memberships, h, hid, he2, results, getMembershipsPage]

/-- Witness of C23: a mock that expects any `RetrieveByID` and is configured
to return a group and a nil error, asked for `WrongID` and for a group's id;
and a mock configured with a value of another type, asked for `WrongID`. -/
theorem mock_wrong_id_not_found_witness :
    (anythingMock (some [RetValue.group someGroup, RetValue.nil]) none none none).RetrieveByID
        WrongID []
      = (some (Group.zero, some errors.ErrNotFound), [MockCall.retrieveByID WrongID]) ∧
    (anythingMock (some [RetValue.group someGroup, RetValue.ofError none]) none none
        none).RetrieveByID "group-1" []
      = (some (someGroup, none), [MockCall.retrieveByID "group-1"]) ∧
    (anythingMock (some [RetValue.other "string"]) none none none).RetrieveByID WrongID []
      = (some (Group.zero, some errors.ErrNotFound), [MockCall.retrieveByID WrongID]) :=
  ⟨(mock_wrong_id_not_found
      (anythingMock (some [RetValue.group someGroup, RetValue.nil]) none none none)
      [] [MockCall.retrieveByID WrongID] [RetValue.group someGroup, RetValue.nil]
      "group-1" someGroup someGroup ⟨⟨0, 0, 0⟩, "", 0, "", 0, []⟩ MembershipsPage.zero none).1
      (by decide),
   (mock_wrong_id_not_found
      (anythingMock (some [RetValue.group someGroup, RetValue.ofError none]) none none none)
      [] [MockCall.retrieveByID "group-1"] [RetValue.group someGroup, RetValue.nil]
      "group-1" someGroup someGroup ⟨⟨0, 0, 0⟩, "", 0, "", 0, []⟩ MembershipsPage.zero
      none).2.2.2.2.1 (by decide) (by decide),
   (mock_wrong_id_not_found
      (anythingMock (some [RetValue.other "string"]) none none none)
      [] [MockCall.retrieveByID WrongID] [RetValue.other "string"]
      "group-1" someGroup someGroup ⟨⟨0, 0, 0⟩, "", 0, "", 0, []⟩ MembershipsPage.zero none).1
      (by decide)⟩

end GroupsMock

end Mainflux
